import Mathlib

/-!
# rs_protocol: framing protocol with CRC16-CCITT

A shallow embedding of `rs_protocol.c` / `rs_protocol.h`: the CRC engine, the packet
builders and the byte-at-a-time receive state machine, followed by theorems about them.

Conventions of the embedding
* `uint8_t`, `uint16_t` and `uint32_t` values are natural numbers; truncating assignments
  and casts are written as explicit `% 2^w`.
* A C pointer to bytes together with a length is a `List Nat` together with a `Nat`;
  the code reads the first `len` cells (`List.take`).
* Calls through `message_received_cb`, to `safebuffer_malloc` and to `safebuffer_free`
  are recorded in a trace of `event_t` values, in program order; every request to the
  allocator, `k_malloc` included, advances the allocation count.
* Dereferencing a NULL pointer is a result of `none`.
-/

namespace RsProtocol

/-! ## Constants and enumerations -/

/-- The macro `HEADER_BUF_SIZE`. -/
def HEADER_BUF_SIZE : Nat := 8

/-- The macro `HEADER_CRC_CALC_SIZE`. -/
def HEADER_CRC_CALC_SIZE : Nat := 6

/-- The macro `RS_PROTOCOL_INVALID_INSTANCE`. -/
def RS_PROTOCOL_INVALID_INSTANCE : Nat := 0xff

/-- The errno value `EINVAL` of `<errno.h>`. -/
def EINVAL : Int := 22

/-- The enum `rec_state_t`. -/
inductive rec_state_t where
  | RS_HEADER_BYTE_1
  | RS_HEADER_BYTE_2
  | RS_LEN_BYTE_1
  | RS_LEN_BYTE_2
  | RS_DATA_CRC_BYTE_1
  | RS_DATA_CRC_BYTE_2
  | RS_HEADER_CRC_BYTE_1
  | RS_HEADER_CRC_BYTE_2
  | RS_DATA
  deriving DecidableEq, Repr

/-- The enum `rsp_packet_type_t`. -/
inductive rsp_packet_type_t where
  | RS_PACKET_VALID_DATA
  | RS_PACKET_ERROR_HEADER_CRC
  | RS_PACKET_ERROR_PACKET_LENGTH
  | RS_PACKET_ERROR_DATA_CRC
  | RS_PACKET_PREAMBLE_RECEIVED
  deriving DecidableEq, Repr

open rec_state_t rsp_packet_type_t

/-! ## CRC engine -/

/-- The table `crcTabccitt`. -/
def crcTabccitt : List Nat := [
  0x0000, 0x1021, 0x2042, 0x3063, 0x4084, 0x50a5, 0x60c6, 0x70e7,
  0x8108, 0x9129, 0xa14a, 0xb16b, 0xc18c, 0xd1ad, 0xe1ce, 0xf1ef,
  0x1231, 0x0210, 0x3273, 0x2252, 0x52b5, 0x4294, 0x72f7, 0x62d6,
  0x9339, 0x8318, 0xb37b, 0xa35a, 0xd3bd, 0xc39c, 0xf3ff, 0xe3de,
  0x2462, 0x3443, 0x0420, 0x1401, 0x64e6, 0x74c7, 0x44a4, 0x5485,
  0xa56a, 0xb54b, 0x8528, 0x9509, 0xe5ee, 0xf5cf, 0xc5ac, 0xd58d,
  0x3653, 0x2672, 0x1611, 0x0630, 0x76d7, 0x66f6, 0x5695, 0x46b4,
  0xb75b, 0xa77a, 0x9719, 0x8738, 0xf7df, 0xe7fe, 0xd79d, 0xc7bc,
  0x48c4, 0x58e5, 0x6886, 0x78a7, 0x0840, 0x1861, 0x2802, 0x3823,
  0xc9cc, 0xd9ed, 0xe98e, 0xf9af, 0x8948, 0x9969, 0xa90a, 0xb92b,
  0x5af5, 0x4ad4, 0x7ab7, 0x6a96, 0x1a71, 0x0a50, 0x3a33, 0x2a12,
  0xdbfd, 0xcbdc, 0xfbbf, 0xeb9e, 0x9b79, 0x8b58, 0xbb3b, 0xab1a,
  0x6ca6, 0x7c87, 0x4ce4, 0x5cc5, 0x2c22, 0x3c03, 0x0c60, 0x1c41,
  0xedae, 0xfd8f, 0xcdec, 0xddcd, 0xad2a, 0xbd0b, 0x8d68, 0x9d49,
  0x7e97, 0x6eb6, 0x5ed5, 0x4ef4, 0x3e13, 0x2e32, 0x1e51, 0x0e70,
  0xff9f, 0xefbe, 0xdfdd, 0xcffc, 0xbf1b, 0xaf3a, 0x9f59, 0x8f78,
  0x9188, 0x81a9, 0xb1ca, 0xa1eb, 0xd10c, 0xc12d, 0xf14e, 0xe16f,
  0x1080, 0x00a1, 0x30c2, 0x20e3, 0x5004, 0x4025, 0x7046, 0x6067,
  0x83b9, 0x9398, 0xa3fb, 0xb3da, 0xc33d, 0xd31c, 0xe37f, 0xf35e,
  0x02b1, 0x1290, 0x22f3, 0x32d2, 0x4235, 0x5214, 0x6277, 0x7256,
  0xb5ea, 0xa5cb, 0x95a8, 0x8589, 0xf56e, 0xe54f, 0xd52c, 0xc50d,
  0x34e2, 0x24c3, 0x14a0, 0x0481, 0x7466, 0x6447, 0x5424, 0x4405,
  0xa7db, 0xb7fa, 0x8799, 0x97b8, 0xe75f, 0xf77e, 0xc71d, 0xd73c,
  0x26d3, 0x36f2, 0x0691, 0x16b0, 0x6657, 0x7676, 0x4615, 0x5634,
  0xd94c, 0xc96d, 0xf90e, 0xe92f, 0x99c8, 0x89e9, 0xb98a, 0xa9ab,
  0x5844, 0x4865, 0x7806, 0x6827, 0x18c0, 0x08e1, 0x3882, 0x28a3,
  0xcb7d, 0xdb5c, 0xeb3f, 0xfb1e, 0x8bf9, 0x9bd8, 0xabbb, 0xbb9a,
  0x4a75, 0x5a54, 0x6a37, 0x7a16, 0x0af1, 0x1ad0, 0x2ab3, 0x3a92,
  0xfd2e, 0xed0f, 0xdd6c, 0xcd4d, 0xbdaa, 0xad8b, 0x9de8, 0x8dc9,
  0x7c26, 0x6c07, 0x5c64, 0x4c45, 0x3ca2, 0x2c83, 0x1ce0, 0x0cc1,
  0xef1f, 0xff3e, 0xcf5d, 0xdf7c, 0xaf9b, 0xbfba, 0x8fd9, 0x9ff8,
  0x6e17, 0x7e36, 0x4e55, 0x5e74, 0x2e93, 0x3eb2, 0x0ed1, 0x1ef0]

/-- One iteration of the loop body of `calculate_CRC16`: `short_c`, `tmp`, then the new
`crc`, truncated to 16 bits by the assignment. -/
def crc_update (crc : Nat) (c : Nat) : Nat :=
  let short_c := 0x00ff &&& c
  let tmp := ((crc >>> 8) ^^^ short_c) % 65536
  ((crc <<< 8) ^^^ crcTabccitt.getD tmp 0) % 65536

/-- The function `calculate_CRC16`. `data = none` is the NULL pointer. -/
def calculate_CRC16 (data : Option (List Nat)) (len : Nat) (start_value : Nat) : Nat :=
  match data with
  | none => start_value
  | some d => (d.take len).foldl crc_update start_value

/-! ## The safe buffer

`safebuffer.h` is not part of this repository. The source uses the fields `buf`,
`write_index`, `len`, `full` and `p_gp` of `safebuffer_t` and the functions below. -/

/-- The struct `safebuffer_t`, with the fields the source uses: `buf` is the backing
store, `write_index` the number of bytes written, `p_gp` the general-purpose pointer
(here: the bytes it points to). -/
structure safebuffer_t where
  buf : List Nat
  write_index : Nat
  len : Nat
  full : Bool
  p_gp : Option (List Nat)
  deriving DecidableEq, Repr

/-- The bytes a safe buffer holds: the first `write_index` cells of its backing store. -/
def safebuffer_t.contents (sb : safebuffer_t) : List Nat := sb.buf.take sb.write_index

/-- The behaviour of the allocator: whether the request number `k` (counted from 0) for
`size` bytes succeeds, and what the fresh block holds at each offset. -/
structure allocator_t where
  succeeds : Nat → Nat → Bool
  junk : Nat → Nat → Nat

/-- Modelled from the spec: `safebuffer_reset` of the growable byte buffer abstraction
(reset/append/grow). The buffer holds no bytes afterwards; the backing store stays. -/
def safebuffer_reset (sb : safebuffer_t) : safebuffer_t :=
  { sb with write_index := 0, full := false }

/-- Modelled from the spec: `safebuffer_add_char` of the growable byte buffer abstraction
(reset/append/grow). The byte goes to cell `write_index`; the backing store grows by one
cell when `write_index` is at its end. -/
def safebuffer_add_char (sb : safebuffer_t) (c : Nat) : safebuffer_t :=
  { sb with
    buf := sb.buf.take sb.write_index ++ [c] ++ sb.buf.drop (sb.write_index + 1)
    write_index := sb.write_index + 1 }

/-- Modelled from the spec: `safebuffer_add_data` of the growable byte buffer abstraction
(reset/append/grow): the first `len` bytes of `data` are appended one after the other. -/
def safebuffer_add_data (sb : safebuffer_t) (data : List Nat) (len : Nat) : safebuffer_t :=
  (data.take len).foldl safebuffer_add_char sb

/-- Modelled from the spec: `safebuffer_malloc` of the fallible allocator: NULL when the
allocation fails, otherwise an empty safe buffer over a fresh block of `size` bytes with
unspecified content. `k` is the number of allocations requested before this one. -/
def safebuffer_malloc (A : allocator_t) (k : Nat) (size : Nat) : Option safebuffer_t :=
  if A.succeeds k size then
    some { buf := (List.range size).map (fun j => A.junk k j % 256)
           write_index := 0
           len := size
           full := false
           p_gp := none }
  else none

/-! ## Instances and the trace -/

/-- The struct `rs_protocol_data_t`. `message_received_cb` is the identity of the
registered handler; `header_buf` has `HEADER_BUF_SIZE` cells; `sb = none` is NULL. -/
structure rs_protocol_data_t where
  message_received_cb : Nat
  header_buf : List Nat
  sb : Option safebuffer_t
  len : Nat
  crc : Nat
  state : rec_state_t
  header_byte_1 : Nat
  header_byte_2 : Nat
  deriving DecidableEq, Repr

/-- What the code does to the outside world, in program order: a call of a handler with
its three arguments, a call of `safebuffer_malloc` with its result, a call of
`safebuffer_free`. -/
inductive event_t where
  | callback (fn : Nat) (sb : Option safebuffer_t) (packet_type : rsp_packet_type_t)
      (source : Nat)
  | malloc (size : Nat) (result : Option safebuffer_t)
  | free (sb : safebuffer_t)
  deriving DecidableEq, Repr

/-- The file-level statics `rs_protocol_num_instances` and `rs_protocol_data`; a table
entry of `none` is a NULL pointer. -/
structure rs_protocol_statics where
  rs_protocol_num_instances : Nat
  rs_protocol_data : List (Option rs_protocol_data_t)
  deriving DecidableEq, Repr

/-- The handler calls of a trace: the buffer passed and the packet type. -/
def handler_calls : List event_t → List (Option safebuffer_t × rsp_packet_type_t)
  | [] => []
  | event_t.callback _ sb t _ :: es => (sb, t) :: handler_calls es
  | _ :: es => handler_calls es

/-- The buffers delivered with `RS_PACKET_VALID_DATA` in a trace, in order. -/
def valid_data : List event_t → List (Option safebuffer_t)
  | [] => []
  | event_t.callback _ sb RS_PACKET_VALID_DATA _ :: es => sb :: valid_data es
  | _ :: es => valid_data es

/-- The sizes requested from `safebuffer_malloc` in a trace, in order. -/
def malloc_sizes : List event_t → List Nat
  | [] => []
  | event_t.malloc size _ :: es => size :: malloc_sizes es
  | _ :: es => malloc_sizes es

/-! ## Receive state machine -/

/-- The body of the `for` loop of `rs_protocol_process_data` for one byte `c`: the
`switch` on `rsp->state`. `k` counts the allocations requested so far. The result is the
instance afterwards, the allocation count and the trace of this byte; `none` is the
dereference of a NULL `rsp->sb` in `RS_DATA`. -/
def process_byte (A : allocator_t) (source : Nat) (rsp : rs_protocol_data_t) (k : Nat)
    (c : Nat) : Option (rs_protocol_data_t × Nat × List event_t) :=
  match rsp.state with
  | RS_HEADER_BYTE_1 =>
    if c = rsp.header_byte_1 then
      some ({ rsp with state := RS_HEADER_BYTE_2 }, k, [])
    else some (rsp, k, [])
  | RS_HEADER_BYTE_2 =>
    if c = rsp.header_byte_2 then
      some ({ rsp with state := RS_LEN_BYTE_1 }, k,
        [event_t.callback rsp.message_received_cb none RS_PACKET_PREAMBLE_RECEIVED source])
    else if c ≠ rsp.header_byte_1 then
      some ({ rsp with state := RS_HEADER_BYTE_1 }, k, [])
    else some (rsp, k, [])
  | RS_LEN_BYTE_1 =>
    some ({ rsp with
            len := (c <<< 8) % 65536
            state := RS_LEN_BYTE_2
            header_buf := ((rsp.header_buf.set 0 rsp.header_byte_1).set 1
              rsp.header_byte_2).set 2 c }, k, [])
  | RS_LEN_BYTE_2 =>
    some ({ rsp with
            len := rsp.len ||| c
            header_buf := rsp.header_buf.set 3 c
            state := RS_DATA_CRC_BYTE_1 }, k, [])
  | RS_DATA_CRC_BYTE_1 =>
    some ({ rsp with header_buf := rsp.header_buf.set 4 c, state := RS_DATA_CRC_BYTE_2 },
      k, [])
  | RS_DATA_CRC_BYTE_2 =>
    some ({ rsp with header_buf := rsp.header_buf.set 5 c, state := RS_HEADER_CRC_BYTE_1 },
      k, [])
  | RS_HEADER_CRC_BYTE_1 =>
    some ({ rsp with crc := (c <<< 8) % 65536, state := RS_HEADER_CRC_BYTE_2 }, k, [])
  | RS_HEADER_CRC_BYTE_2 =>
    let crc := rsp.crc ||| c
    if crc = calculate_CRC16 (some rsp.header_buf) HEADER_CRC_CALC_SIZE 0 then
      let header_buf := (rsp.header_buf.set 6 ((crc >>> 8) % 256)).set 7 (crc % 256)
      let freed : List event_t :=
        match rsp.sb with
        | some old => [event_t.free old]
        | none => []
      let sb := safebuffer_malloc A k rsp.len
      match sb with
      | none =>
        some ({ rsp with crc := crc, header_buf := header_buf, sb := none,
                         state := RS_HEADER_BYTE_1 }, k + 1,
          freed ++ [event_t.malloc rsp.len none,
            event_t.callback rsp.message_received_cb none RS_PACKET_ERROR_PACKET_LENGTH
              source])
      | some new =>
        some ({ rsp with crc := crc, header_buf := header_buf, sb := some new,
                         state := RS_DATA }, k + 1,
          freed ++ [event_t.malloc rsp.len (some new)])
    else
      some ({ rsp with crc := crc, state := RS_HEADER_BYTE_1 }, k,
        [event_t.callback rsp.message_received_cb none RS_PACKET_ERROR_HEADER_CRC source])
  | RS_DATA =>
    match rsp.sb with
    | none => none
    | some sb0 =>
      let sb := safebuffer_add_char sb0 c
      if sb.write_index ≥ rsp.len then
        let crc := ((rsp.header_buf.getD 4 0 <<< 8) % 65536) ||| rsp.header_buf.getD 5 0
        if crc = calculate_CRC16 (some sb.buf) rsp.len 0 then
          let delivered := { sb with p_gp := some rsp.header_buf }
          some ({ rsp with crc := crc, sb := none, state := RS_HEADER_BYTE_1 }, k,
            [event_t.callback rsp.message_received_cb (some delivered) RS_PACKET_VALID_DATA
               source,
             event_t.free delivered])
        else
          some ({ rsp with crc := crc, sb := some sb, state := RS_HEADER_BYTE_1 }, k,
            [event_t.callback rsp.message_received_cb none RS_PACKET_ERROR_DATA_CRC source])
      else
        some ({ rsp with sb := some sb }, k, [])

/-- The `for` loop of `rs_protocol_process_data` over the bytes it reads. -/
def process_bytes (A : allocator_t) (source : Nat) :
    rs_protocol_data_t → Nat → List Nat → Option (rs_protocol_data_t × Nat × List event_t)
  | rsp, k, [] => some (rsp, k, [])
  | rsp, k, c :: cs =>
    match process_byte A source rsp k c with
    | none => none
    | some (rsp1, k1, ev1) =>
      match process_bytes A source rsp1 k1 cs with
      | none => none
      | some (rsp2, k2, ev2) => some (rsp2, k2, ev1 ++ ev2)

/-- The function `rs_protocol_process_data`. The result is the return value, the statics
afterwards, the allocation count and the trace; `none` is the dereference of a NULL
table entry or of a NULL `rsp->sb`. -/
def rs_protocol_process_data (A : allocator_t) (g : rs_protocol_statics) (k : Nat)
    (data : List Nat) (len : Nat) (instance_num : Nat) (source : Nat) :
    Option (Int × rs_protocol_statics × Nat × List event_t) :=
  if instance_num ≥ g.rs_protocol_num_instances then
    some (-EINVAL, g, k, [])
  else
    match g.rs_protocol_data.getD instance_num none with
    | none => none
    | some rsp =>
      match process_bytes A source rsp k (data.take len) with
      | none => none
      | some (rsp1, k1, ev) =>
        some (0, { g with rs_protocol_data :=
                     g.rs_protocol_data.set instance_num (some rsp1) }, k1, ev)

/-! ## Packet builders -/

/-- The function `rs_protocol_build`. The result is the return value and the safe buffer
`sb` afterwards; `none` is the dereference of a NULL table entry. -/
def rs_protocol_build (g : rs_protocol_statics) (sb : safebuffer_t) (data : List Nat)
    (len : Nat) (instance_num : Nat) : Option (Int × safebuffer_t) :=
  if instance_num ≥ g.rs_protocol_num_instances then
    some (-EINVAL, sb)
  else
    match g.rs_protocol_data.getD instance_num none with
    | none => none
    | some rsp =>
      let sb := safebuffer_reset sb
      let sb := safebuffer_add_char sb rsp.header_byte_1
      let sb := safebuffer_add_char sb rsp.header_byte_2
      let sb := safebuffer_add_char sb ((len >>> 8) % 256)
      let sb := safebuffer_add_char sb ((len &&& 0xff) % 256)
      let crc := calculate_CRC16 (some data) len 0
      let sb := safebuffer_add_char sb ((crc >>> 8) % 256)
      let sb := safebuffer_add_char sb ((crc &&& 0xff) % 256)
      let crc := calculate_CRC16 (some sb.buf) sb.write_index 0
      let sb := safebuffer_add_char sb ((crc >>> 8) % 256)
      let sb := safebuffer_add_char sb ((crc &&& 0xff) % 256)
      some (0, safebuffer_add_data sb data len)

/-- The function `rs_protocol_build_safebuffer`; the `write_index` of `sb_in` is
converted to the `uint16_t` parameter `len` of `rs_protocol_build`. -/
def rs_protocol_build_safebuffer (g : rs_protocol_statics) (sb_out sb_in : safebuffer_t)
    (instance_num : Nat) : Option (Int × safebuffer_t) :=
  rs_protocol_build g sb_out sb_in.buf (sb_in.write_index % 65536) instance_num

/-- The function `rs_protocol_build_header`. `out` is the memory the header is written
to; the result is the return value and that memory afterwards. -/
def rs_protocol_build_header (g : rs_protocol_statics) (out : List Nat) (data : List Nat)
    (len : Nat) (instance_num : Nat) : Option (Int × List Nat) :=
  if instance_num ≥ g.rs_protocol_num_instances then
    some (-EINVAL, out)
  else
    match g.rs_protocol_data.getD instance_num none with
    | none => none
    | some rsp =>
      let out := out.set 0 rsp.header_byte_1
      let out := out.set 1 rsp.header_byte_2
      let out := out.set 2 ((len >>> 8) % 256)
      let out := out.set 3 ((len &&& 0xff) % 256)
      let crc := calculate_CRC16 (some data) len 0
      let out := out.set 4 ((crc >>> 8) % 256)
      let out := out.set 5 ((crc &&& 0xff) % 256)
      let crc := calculate_CRC16 (some out) 6 0
      let out := out.set 6 ((crc >>> 8) % 256)
      let out := out.set 7 ((crc &&& 0xff) % 256)
      some (0, out)

/-- The library function `memcpy` into a byte array at an offset: `n` bytes of `src`
replace the cells `off .. off + n - 1` of `dst`. -/
def memcpy_at (dst : List Nat) (off : Nat) (src : List Nat) (n : Nat) : List Nat :=
  dst.take off ++ src.take n ++ dst.drop (off + n)

/-- The function `rs_protocol_build_single_param`. The result is the returned pointer
(`none` is NULL), the allocation count and the trace; an outer `none` is the dereference
of a NULL table entry. The return value of `rs_protocol_build_header` is not looked at;
`len` is converted to its `uint16_t` parameter. -/
def rs_protocol_build_single_param (A : allocator_t) (g : rs_protocol_statics) (k : Nat)
    (buf : List Nat) (len : Nat) (instance_num : Nat) :
    Option (Option safebuffer_t × Nat × List event_t) :=
  let size := (len + HEADER_BUF_SIZE) % 4294967296
  match safebuffer_malloc A k size with
  | none => some (none, k + 1, [event_t.malloc size none])
  | some sb =>
    let copied := memcpy_at sb.buf HEADER_BUF_SIZE buf len
    match rs_protocol_build_header g copied buf (len % 65536) instance_num with
    | none => none
    | some (_, out) =>
      let write_index := (len + HEADER_BUF_SIZE) % 4294967296
      some (some { sb with buf := out, write_index := write_index, len := write_index,
                           full := true },
        k + 1, [event_t.malloc size (some sb)])

/-- The first loop of `rs_protocol_build_multiple_params`: `total_len`, a `uint32_t`. -/
def multiple_params_total_len (len : List Nat) (num_items : Nat) : Nat :=
  (List.range num_items).foldl (fun total i => (total + len.getD i 0) % 4294967296)
    HEADER_BUF_SIZE

/-- The second loop of `rs_protocol_build_multiple_params`: the segments are copied one
after the other, starting at offset `p` of `dst`. The result is `dst` afterwards. -/
def multiple_params_copy (buf : List (List Nat)) (len : List Nat) (num_items : Nat)
    (dst : List Nat) (p : Nat) : List Nat :=
  ((List.range num_items).foldl
    (fun (st : List Nat × Nat) i =>
      (memcpy_at st.1 st.2 (buf.getD i []) (len.getD i 0), st.2 + len.getD i 0))
    (dst, p)).1

/-- The function `rs_protocol_build_multiple_params`. The result is the returned pointer
(`none` is NULL), the allocation count and the trace; an outer `none` is the dereference
of a NULL table entry. The return value of `rs_protocol_build_header` is not looked at;
`total_len - HEADER_BUF_SIZE` is computed in `uint32_t` and converted to the `uint16_t`
parameter `len`. -/
def rs_protocol_build_multiple_params (A : allocator_t) (g : rs_protocol_statics)
    (k : Nat) (buf : List (List Nat)) (len : List Nat) (num_items : Nat)
    (instance_num : Nat) : Option (Option safebuffer_t × Nat × List event_t) :=
  let total_len := multiple_params_total_len len num_items
  match safebuffer_malloc A k total_len with
  | none => some (none, k + 1, [event_t.malloc total_len none])
  | some sb =>
    let copied := multiple_params_copy buf len num_items sb.buf HEADER_BUF_SIZE
    match rs_protocol_build_header g copied (copied.drop HEADER_BUF_SIZE)
        (((total_len + 4294967296 - HEADER_BUF_SIZE) % 4294967296) % 65536)
        instance_num with
    | none => none
    | some (_, out) =>
      some (some { sb with buf := out, write_index := total_len, len := total_len,
                           full := true },
        k + 1, [event_t.malloc total_len (some sb)])

/-! ## Derived notions used in the statements -/

/-- The instance is in its initial parse state, as `init_rs_protocol` leaves it: seeking
the first preamble byte, with no receive buffer. The other fields are not initialised;
`header_buf` has its 8 cells. -/
def initial_parse_state (rsp : rs_protocol_data_t) : Prop :=
  rsp.state = RS_HEADER_BYTE_1 ∧ rsp.sb = none ∧ rsp.header_buf.length = HEADER_BUF_SIZE

instance (rsp : rs_protocol_data_t) : Decidable (initial_parse_state rsp) := by
  unfold initial_parse_state; infer_instance

/-- The handle `h` is valid: below `rs_protocol_num_instances`, with `rsp` the instance
its table entry points to. -/
def valid_handle (g : rs_protocol_statics) (h : Nat) (rsp : rs_protocol_data_t) : Prop :=
  h < g.rs_protocol_num_instances ∧ h < g.rs_protocol_data.length ∧
    g.rs_protocol_data.getD h none = some rsp

instance (g : rs_protocol_statics) (h : Nat) (rsp : rs_protocol_data_t) :
    Decidable (valid_handle g h rsp) := by
  unfold valid_handle; infer_instance

/-- Every element of the list is a byte. -/
def all_bytes (l : List Nat) : Prop := ∀ b ∈ l, b < 256

instance (l : List Nat) : Decidable (all_bytes l) := by
  unfold all_bytes; infer_instance

/-- The frame `rs_protocol_build` leaves in an empty output buffer for the payload `P` and
the handle `h`: the bytes fed to the receiver in the statements. -/
def built_frame (g : rs_protocol_statics) (h : Nat) (P : List Nat) : List Nat :=
  match rs_protocol_build g ⟨[], 0, 0, false, none⟩ P P.length h with
  | some (_, sb) => sb.contents
  | none => []

/-- The input with bit `j` of the byte at position `i` flipped. -/
def flip_bit (l : List Nat) (i j : Nat) : List Nat :=
  l.set i (l.getD i 0 ^^^ (1 <<< j))

/-- In the byte sequence, `p1` is never immediately followed by `p2`. -/
def no_preamble (p1 p2 : Nat) : List Nat → Prop
  | x :: y :: l => ¬ (x = p1 ∧ y = p2) ∧ no_preamble p1 p2 (y :: l)
  | _ => True

/-- Deciding `no_preamble`, pair by pair. -/
def no_preamble_decide (p1 p2 : Nat) : (data : List Nat) → Decidable (no_preamble p1 p2 data)
  | [] => inferInstanceAs (Decidable True)
  | [_] => inferInstanceAs (Decidable True)
  | x :: y :: l =>
    have := no_preamble_decide p1 p2 (y :: l)
    inferInstanceAs (Decidable (¬ (x = p1 ∧ y = p2) ∧ no_preamble p1 p2 (y :: l)))

instance (p1 p2 : Nat) (data : List Nat) : Decidable (no_preamble p1 p2 data) :=
  no_preamble_decide p1 p2 data

/-- One call of `rs_protocol_process_data` per chunk, in order, on the same handle and with
the same source token. The result is the statics, the allocation count and the whole
trace afterwards. -/
def feed_chunks (A : allocator_t) (h source : Nat) :
    rs_protocol_statics → Nat → List (List Nat) →
      Option (rs_protocol_statics × Nat × List event_t)
  | g, k, [] => some (g, k, [])
  | g, k, c :: cs =>
    match rs_protocol_process_data A g k c c.length h source with
    | none => none
    | some (_, g1, k1, ev1) =>
      match feed_chunks A h source g1 k1 cs with
      | none => none
      | some (g2, k2, ev2) => some (g2, k2, ev1 ++ ev2)

/-- The statics after `rs_protocol_process_data` on the handle `h` left its instance as
`rsp`. -/
def update_instance (g : rs_protocol_statics) (h : Nat) (rsp : rs_protocol_data_t) :
    rs_protocol_statics :=
  { g with rs_protocol_data := g.rs_protocol_data.set h (some rsp) }

/-- For each low byte of an entry of `crcTabccitt`, the index of that entry: the low bytes
of the 256 entries are pairwise different. -/
def crcTab_low_index : List Nat := [
  0, 35, 70, 101, 140, 175, 202, 233, 8, 43, 78, 109, 132, 167, 194, 225,
  17, 50, 87, 116, 157, 190, 219, 248, 25, 58, 95, 124, 149, 182, 211, 240,
  34, 1, 100, 71, 174, 141, 232, 203, 42, 9, 108, 79, 166, 133, 224, 195,
  51, 16, 117, 86, 191, 156, 249, 218, 59, 24, 125, 94, 183, 148, 241, 210,
  68, 103, 2, 33, 200, 235, 142, 173, 76, 111, 10, 41, 192, 227, 134, 165,
  85, 118, 19, 48, 217, 250, 159, 188, 93, 126, 27, 56, 209, 242, 151, 180,
  102, 69, 32, 3, 234, 201, 172, 143, 110, 77, 40, 11, 226, 193, 164, 135,
  119, 84, 49, 18, 251, 216, 189, 158, 127, 92, 57, 26, 243, 208, 181, 150,
  136, 171, 206, 237, 4, 39, 66, 97, 128, 163, 198, 229, 12, 47, 74, 105,
  153, 186, 223, 252, 21, 54, 83, 112, 145, 178, 215, 244, 29, 62, 91, 120,
  170, 137, 236, 207, 38, 5, 96, 67, 162, 129, 228, 199, 46, 13, 104, 75,
  187, 152, 253, 222, 55, 20, 113, 82, 179, 144, 245, 214, 63, 28, 121, 90,
  204, 239, 138, 169, 64, 99, 6, 37, 196, 231, 130, 161, 72, 107, 14, 45,
  221, 254, 155, 184, 81, 114, 23, 52, 213, 246, 147, 176, 89, 122, 31, 60,
  238, 205, 168, 139, 98, 65, 36, 7, 230, 197, 160, 131, 106, 73, 44, 15,
  255, 220, 185, 154, 115, 80, 53, 22, 247, 212, 177, 146, 123, 88, 61, 30]

/-- The table index `tmp` of `crc_update`. -/
def crc_index (crc c : Nat) : Nat := ((crc >>> 8) ^^^ (0x00ff &&& c)) % 65536

/-- The 8 header bytes of a frame for a payload of `n` bytes with data CRC `dcrc`. -/
def frame_header (p1 p2 n dcrc : Nat) : List Nat :=
  let six := [p1, p2, n >>> 8, n &&& 0xff, dcrc >>> 8, dcrc &&& 0xff]
  let hcrc := calculate_CRC16 (some six) HEADER_CRC_CALC_SIZE 0
  six ++ [hcrc >>> 8, hcrc &&& 0xff]

/-- The fresh safe buffer a successful `safebuffer_malloc` returns. -/
def fresh_buffer (A : allocator_t) (k size : Nat) : safebuffer_t :=
  { buf := (List.range size).map (fun j => A.junk k j % 256)
    write_index := 0
    len := size
    full := false
    p_gp := none }

/-- The staged header after the header CRC matched. -/
def staged_header (p1 p2 a b c d hcrc : Nat) : List Nat :=
  [p1, p2, a, b, c, d, (hcrc >>> 8) % 256, hcrc % 256]

/-- The buffer that holds exactly the bytes `Q`, as the receiver fills it. -/
def filled_buffer (Q : List Nat) (p_gp : Option (List Nat)) : safebuffer_t :=
  { buf := Q, write_index := Q.length, len := Q.length, full := false, p_gp := p_gp }

/-- An allocator that always succeeds and hands out zeroed blocks. -/
def demo_allocator : allocator_t := ⟨fun _ _ => true, fun _ _ => 0⟩

/-- An allocator that always fails. -/
def failing_allocator : allocator_t := ⟨fun _ _ => false, fun _ _ => 0⟩

/-- An instance as `init_rs_protocol` leaves it, with the preamble `0xAA 0x55`. -/
def demo_instance : rs_protocol_data_t :=
  { message_received_cb := 7
    header_buf := [0, 0, 0, 0, 0, 0, 0, 0]
    sb := none
    len := 0
    crc := 0
    state := RS_HEADER_BYTE_1
    header_byte_1 := 0xAA
    header_byte_2 := 0x55 }

/-- The statics after one successful `init_rs_protocol`. -/
def demo_statics : rs_protocol_statics :=
  { rs_protocol_num_instances := 1, rs_protocol_data := [some demo_instance] }

/-- What the instance holds of the bytes `pre` received so far, by parse state: the header
bytes staged in `header_buf`, the length and the first header-CRC byte are the bytes that
were last received; in `RS_DATA` there is a receive buffer. -/
def header_trail (pre : List Nat) (rsp : rs_protocol_data_t) : Prop :=
  match rsp.state with
  | RS_LEN_BYTE_2 => ∃ pre0 a, pre = pre0 ++ [a] ∧
      rsp.header_buf.take 3 = [rsp.header_byte_1, rsp.header_byte_2, a] ∧
      rsp.len = a <<< 8
  | RS_DATA_CRC_BYTE_1 => ∃ pre0 a b, pre = pre0 ++ [a, b] ∧
      rsp.header_buf.take 4 = [rsp.header_byte_1, rsp.header_byte_2, a, b] ∧
      rsp.len = a <<< 8 ||| b
  | RS_DATA_CRC_BYTE_2 => ∃ pre0 a b x, pre = pre0 ++ [a, b, x] ∧
      rsp.header_buf.take 5 = [rsp.header_byte_1, rsp.header_byte_2, a, b, x] ∧
      rsp.len = a <<< 8 ||| b
  | RS_HEADER_CRC_BYTE_1 => ∃ pre0 a b x y, pre = pre0 ++ [a, b, x, y] ∧
      rsp.header_buf.take 6 = [rsp.header_byte_1, rsp.header_byte_2, a, b, x, y] ∧
      rsp.len = a <<< 8 ||| b
  | RS_HEADER_CRC_BYTE_2 => ∃ pre0 a b x y c1, pre = pre0 ++ [a, b, x, y, c1] ∧
      rsp.header_buf.take 6 = [rsp.header_byte_1, rsp.header_byte_2, a, b, x, y] ∧
      rsp.len = a <<< 8 ||| b ∧ rsp.crc = c1 <<< 8
  | RS_DATA => rsp.sb ≠ none
  | _ => True


/-- The demo instance after the first seven bytes `AA 55 00 01 10 21 51` of the frame built
for the payload `[1]`: it waits for the second header-CRC byte. -/
def demo_instance_at_header_crc : rs_protocol_data_t :=
  { demo_instance with
    state := RS_HEADER_CRC_BYTE_2
    len := 1
    crc := 0x5100
    header_buf := [0xAA, 0x55, 0, 1, 0x10, 0x21, 0, 0] }

/-! ## The bitwise CRC16-CCITT reference -/

/-- Follows the spec's words (CRC16-CCITT, polynomial 0x1021, no reflection): one shift of
the 16-bit register, left by one (mod 2^16), with XOR 0x1021 when the bit shifted out
was 1. -/
def crc16_ccitt_shift (reg : Nat) : Nat :=
  if reg &&& 0x8000 ≠ 0 then ((reg <<< 1) % 65536) ^^^ 0x1021 else (reg <<< 1) % 65536

/-- Follows the spec's words: per byte, XOR the byte into the high 8 bits of the register,
then shift 8 times. -/
def crc16_ccitt_byte (reg c : Nat) : Nat :=
  Nat.iterate crc16_ccitt_shift 8 (reg ^^^ (c <<< 8))

/-- Follows the spec's words: the bitwise CRC16-CCITT reference over a byte sequence, from
a start value, with no final XOR. -/
def crc16_ccitt_reference (data : List Nat) (start : Nat) : Nat :=
  data.foldl crc16_ccitt_byte start

/-! ## Instance registry -/

/-- What the build configuration fixes and the source does not show: the Kconfig value
`CONFIG_RS_PROTOCOL_MAX_INSTANCES`, the length of the table `rs_protocol_data`, and
`sizeof(rs_protocol_data_t)`, the size `init_rs_protocol` requests from `k_malloc`. -/
structure config_t where
  CONFIG_RS_PROTOCOL_MAX_INSTANCES : Nat
  sizeof_rs_protocol_data_t : Nat

/-- The statics at program start: no instance, a table of NULL pointers. -/
def initial_statics (cfg : config_t) : rs_protocol_statics :=
  { rs_protocol_num_instances := 0
    rs_protocol_data := List.replicate cfg.CONFIG_RS_PROTOCOL_MAX_INSTANCES none }

/-- The function `init_rs_protocol`. `rs_protocol_num_instances` is a `uint8_t`, its
increment wraps at 256. `k_malloc` is request number `k` to the allocator; the fields of
the new struct that the code does not set hold what the fresh block held. The result is
the return value, the statics afterwards and the allocation count. -/
def init_rs_protocol (cfg : config_t) (A : allocator_t) (g : rs_protocol_statics) (k : Nat)
    (message_received_function header_byte_1 header_byte_2 : Nat) :
    Nat × rs_protocol_statics × Nat :=
  if g.rs_protocol_num_instances ≥ cfg.CONFIG_RS_PROTOCOL_MAX_INSTANCES then
    (RS_PROTOCOL_INVALID_INSTANCE, g, k)
  else
    let instance_num := g.rs_protocol_num_instances
    let g1 := { g with rs_protocol_num_instances := (g.rs_protocol_num_instances + 1) % 256 }
    if A.succeeds k cfg.sizeof_rs_protocol_data_t then
      let rsp : rs_protocol_data_t :=
        { message_received_cb := message_received_function
          header_buf := (List.range HEADER_BUF_SIZE).map (fun j => A.junk k j % 256)
          sb := none
          len := A.junk k 8 % 65536
          crc := A.junk k 9 % 65536
          state := RS_HEADER_BYTE_1
          header_byte_1 := header_byte_1
          header_byte_2 := header_byte_2 }
      (instance_num,
        { g1 with rs_protocol_data := g1.rs_protocol_data.set instance_num (some rsp) },
        k + 1)
    else
      (RS_PROTOCOL_INVALID_INSTANCE, g1, k + 1)

/-- The instance a successful `init_rs_protocol` creates from allocation number `k`. -/
def fresh_instance (A : allocator_t) (k fn p1 p2 : Nat) : rs_protocol_data_t :=
  { message_received_cb := fn
    header_buf := (List.range HEADER_BUF_SIZE).map (fun j => A.junk k j % 256)
    sb := none
    len := A.junk k 8 % 65536
    crc := A.junk k 9 % 65536
    state := RS_HEADER_BYTE_1
    header_byte_1 := p1
    header_byte_2 := p2 }

/-- One `init_rs_protocol` call of a start-up sequence: the handler and the two preamble
bytes. -/
structure init_call_t where
  message_received_function : Nat
  header_byte_1 : Nat
  header_byte_2 : Nat

/-- A sequence of `init_rs_protocol` calls from given statics. The result is the list of
return values, the statics afterwards and the allocation count. -/
def init_calls (cfg : config_t) (A : allocator_t) :
    rs_protocol_statics → Nat → List init_call_t → List Nat × rs_protocol_statics × Nat
  | g, k, [] => ([], g, k)
  | g, k, c :: cs =>
    let r := init_rs_protocol cfg A g k c.message_received_function c.header_byte_1
      c.header_byte_2
    let rest := init_calls cfg A r.2.1 r.2.2 cs
    (r.1 :: rest.1, rest.2.1, rest.2.2)

/-- A configuration with room for 4 instances. -/
def demo_config : config_t :=
  { CONFIG_RS_PROTOCOL_MAX_INSTANCES := 4, sizeof_rs_protocol_data_t := 32 }

/-- An allocator whose first request (number 0) fails and whose later requests succeed. -/
def first_fails_allocator : allocator_t := ⟨fun k _ => decide (k ≠ 0), fun _ _ => 0⟩

/-- The call of `safebuffer_free` on the old receive buffer, when there is one, before a
new one is allocated. -/
def free_events (sb : Option safebuffer_t) : List event_t :=
  match sb with
  | some old => [event_t.free old]
  | none => []

/-! ## Several instances -/

/-- A sequence of calls of `rs_protocol_process_data`, each on its own handle with its own
bytes, in order. The result is the statics and the allocation count afterwards and the
trace, each event with the handle of the call it came from. -/
def feed_schedule (A : allocator_t) (source : Nat) :
    rs_protocol_statics → Nat → List (Nat × List Nat) →
      Option (rs_protocol_statics × Nat × List (Nat × event_t))
  | g, k, [] => some (g, k, [])
  | g, k, (h, data) :: rest =>
    match rs_protocol_process_data A g k data data.length h source with
    | none => none
    | some (_, g1, k1, ev1) =>
      match feed_schedule A source g1 k1 rest with
      | none => none
      | some (g2, k2, ev2) => some (g2, k2, ev1.map (fun e => (h, e)) ++ ev2)

/-- The events of the calls on handle `h`, in order. -/
def events_of (h : Nat) (tagged : List (Nat × event_t)) : List event_t :=
  (tagged.filter (fun p => decide (p.1 = h))).map (fun p => p.2)

/-- The calls of a schedule that are on handle `h`. -/
def calls_on (h : Nat) (sch : List (Nat × List Nat)) : List (Nat × List Nat) :=
  sch.filter (fun p => decide (p.1 = h))

/-- The answer of the allocator to a request does not depend on how many requests came
before it. -/
def history_free (A : allocator_t) : Prop :=
  ∀ k n j, A.succeeds k n = A.succeeds 0 n ∧ A.junk k j = A.junk 0 j

/-- The instance never dereferences a NULL receive buffer: in `RS_DATA` it has one. -/
def has_buffer_in_data (rsp : rs_protocol_data_t) : Prop :=
  rsp.state = RS_DATA → rsp.sb ≠ none

instance (rsp : rs_protocol_data_t) : Decidable (has_buffer_in_data rsp) := by
  unfold has_buffer_in_data; infer_instance

/-- An allocator with memory for one request only: request number 0 succeeds, every later
one fails. -/
def one_shot_allocator : allocator_t := ⟨fun k _ => decide (k = 0), fun _ _ => 0⟩

/-- A second instance, as `init_rs_protocol` leaves it, with the handler 8 and the preamble
`0xAA 0x55`. -/
def demo_instance_b : rs_protocol_data_t := { demo_instance with message_received_cb := 8 }

/-- The statics after two successful `init_rs_protocol` calls. -/
def demo_statics_two : rs_protocol_statics :=
  { rs_protocol_num_instances := 2
    rs_protocol_data := [some demo_instance, some demo_instance_b] }

/-! ## What is delivered with `RS_PACKET_VALID_DATA` -/

/-- What holds of a buffer delivered with `RS_PACKET_VALID_DATA` by an instance with the
preamble `(p1, p2)`: its metadata `H` are 8 bytes that start with the preamble and end
with the CRC16 of the first six; with `L` the big-endian length in `H[2..3]`, the first
`L` bytes of the buffer have the CRC16 in `H[4..5]`; and the buffer holds `L` bytes, or
one byte when `L` is 0. -/
def valid_data_sound (p1 p2 : Nat) (sb : safebuffer_t) : Prop :=
  ∃ H, sb.p_gp = some H ∧ H.length = 8 ∧ H.getD 0 0 = p1 ∧ H.getD 1 0 = p2 ∧
    (H.getD 6 0 <<< 8) ||| H.getD 7 0 = calculate_CRC16 (some H) 6 0 ∧
    calculate_CRC16 (some sb.buf) ((H.getD 2 0 <<< 8) ||| H.getD 3 0) 0
      = (H.getD 4 0 <<< 8) ||| H.getD 5 0 ∧
    (sb.write_index = (H.getD 2 0 <<< 8) ||| H.getD 3 0 ∨
     ((H.getD 2 0 <<< 8) ||| H.getD 3 0 = 0 ∧ sb.write_index = 1))

/-- What the instance holds while it collects the payload: a receive buffer with fewer
bytes than announced (none when the announced length is 0), and the staged header of the
frame, with a matching header CRC. -/
def data_trail (rsp : rs_protocol_data_t) : Prop :=
  match rsp.state with
  | RS_DATA => ∃ sb0, rsp.sb = some sb0 ∧
      (sb0.write_index < rsp.len ∨ (rsp.len = 0 ∧ sb0.write_index = 0)) ∧
      rsp.header_buf.getD 0 0 = rsp.header_byte_1 ∧
      rsp.header_buf.getD 1 0 = rsp.header_byte_2 ∧
      (rsp.header_buf.getD 6 0 <<< 8) ||| rsp.header_buf.getD 7 0
        = calculate_CRC16 (some rsp.header_buf) 6 0 ∧
      rsp.len = (rsp.header_buf.getD 2 0 <<< 8) ||| rsp.header_buf.getD 3 0 ∧
      rsp.header_buf.getD 4 0 < 256
  | _ => True

/-! ## Distance to the header CRC comparison -/

/-- The least number of further bytes after which an instance in the given parse state
can have compared a header CRC: the bytes up to and including the second header-CRC
byte. -/
def bytes_to_header_end : rec_state_t → Nat
  | RS_HEADER_BYTE_1 => 8
  | RS_HEADER_BYTE_2 => 7
  | RS_LEN_BYTE_1 => 6
  | RS_LEN_BYTE_2 => 5
  | RS_DATA_CRC_BYTE_1 => 4
  | RS_DATA_CRC_BYTE_2 => 3
  | RS_HEADER_CRC_BYTE_1 => 2
  | RS_HEADER_CRC_BYTE_2 => 1
  | RS_DATA => 0

/-! # Theorems -/

/-! ## CRC lemmas -/

set_option maxRecDepth 10000 in
theorem crcTab_low_index_spec :
    ∀ i < 256, crcTab_low_index.getD (crcTabccitt.getD i 0 % 256) 0 = i := by
  decide!

set_option maxRecDepth 10000 in
theorem crcTab_lt : ∀ i < 256, crcTabccitt.getD i 0 < 65536 := by
  decide!

set_option maxRecDepth 10000 in
theorem crcTab_length : crcTabccitt.length = 256 := by decide!

theorem crcTab_lt_all (i : Nat) : crcTabccitt.getD i 0 < 65536 := by
  by_cases h : i < 256
  · exact crcTab_lt i h
  · have hlen := crcTab_length
    rw [List.getD_eq_default _ _ (by omega)]
    decide

theorem crcTab_low_injective (i j : Nat) (hi : i < 256) (hj : j < 256)
    (h : crcTabccitt.getD i 0 % 256 = crcTabccitt.getD j 0 % 256) : i = j := by
  rw [← crcTab_low_index_spec i hi, ← crcTab_low_index_spec j hj, h]

theorem crc_update_eq (crc c : Nat) :
    crc_update crc c = ((crc <<< 8) ^^^ crcTabccitt.getD (crc_index crc c) 0) % 65536 := rfl

theorem crc_update_lt (crc c : Nat) : crc_update crc c < 65536 := by
  rw [crc_update_eq]; exact Nat.mod_lt _ (by decide)

theorem mask_byte (c : Nat) : 0x00ff &&& c = c % 256 := by
  rw [Nat.and_comm]
  exact Nat.and_pow_two_sub_one_eq_mod c 8

theorem crc_index_eq (crc c : Nat) (h : crc < 65536) :
    crc_index crc c = (crc >>> 8) ^^^ (c % 256) := by
  unfold crc_index
  rw [mask_byte]
  apply Nat.mod_eq_of_lt
  have h1 : crc >>> 8 < 2 ^ 8 := by
    rw [Nat.shiftRight_eq_div_pow]; omega
  have h2 : c % 256 < 2 ^ 8 := by omega
  have := Nat.xor_lt_two_pow h1 h2
  omega

theorem crc_index_lt (crc c : Nat) (h : crc < 65536) : crc_index crc c < 256 := by
  rw [crc_index_eq crc c h]
  have h1 : crc >>> 8 < 2 ^ 8 := by
    rw [Nat.shiftRight_eq_div_pow]; omega
  have h2 : c % 256 < 2 ^ 8 := by omega
  exact Nat.xor_lt_two_pow h1 h2

/-- The low byte of the new CRC is the low byte of the table entry. -/
theorem crc_update_low (crc c : Nat) :
    crc_update crc c % 256 = crcTabccitt.getD (crc_index crc c) 0 % 256 := by
  rw [crc_update_eq]
  apply Nat.eq_of_testBit_eq
  intro i
  have e1 : (256 : Nat) = 2 ^ 8 := by norm_num
  have e2 : (65536 : Nat) = 2 ^ 16 := by norm_num
  rw [e1, e2]
  simp only [Nat.testBit_mod_two_pow, Nat.testBit_xor, Nat.testBit_shiftLeft]
  by_cases hi : i < 8
  · have h8 : ¬ (i ≥ 8) := by omega
    have h16 : i < 16 := by omega
    simp [hi, h8, h16]
  · simp [hi]

/-- The high byte of the new CRC is the low byte of the old one, XOR the high byte of the
table entry. -/
theorem crc_update_high (crc c : Nat) :
    crc_update crc c >>> 8 = (crc % 256) ^^^ (crcTabccitt.getD (crc_index crc c) 0 >>> 8) := by
  rw [crc_update_eq]
  have hT := crcTab_lt_all (crc_index crc c)
  generalize crcTabccitt.getD (crc_index crc c) 0 = T at hT ⊢
  apply Nat.eq_of_testBit_eq
  intro i
  have e1 : (256 : Nat) = 2 ^ 8 := by norm_num
  have e2 : (65536 : Nat) = 2 ^ 16 := by norm_num
  rw [e1, e2]
  simp only [Nat.testBit_mod_two_pow, Nat.testBit_xor, Nat.testBit_shiftLeft,
    Nat.testBit_shiftRight]
  by_cases hi : i < 8
  · have h8 : 8 + i ≥ 8 := by omega
    have h16 : 8 + i < 16 := by omega
    simp [hi, h16]
  · have h16 : ¬ (8 + i < 16) := by omega
    have hTb : T.testBit (8 + i) = false := by
      apply Nat.testBit_lt_two_pow
      calc T < 2 ^ 16 := by omega
        _ ≤ 2 ^ (8 + i) := Nat.pow_le_pow_right (by decide) (by omega)
    simp [hi, h16, hTb]

/-- For a fixed byte, the CRC step is injective on 16-bit states. -/
theorem crc_update_state_injective (s t c : Nat) (hs : s < 65536) (ht : t < 65536)
    (h : crc_update s c = crc_update t c) : s = t := by
  have hlow : crcTabccitt.getD (crc_index s c) 0 % 256
      = crcTabccitt.getD (crc_index t c) 0 % 256 := by
    rw [← crc_update_low, ← crc_update_low, h]
  have hidx := crcTab_low_injective _ _ (crc_index_lt s c hs) (crc_index_lt t c ht) hlow
  have hhigh : s % 256 = t % 256 := by
    have h1 := crc_update_high s c
    have h2 := crc_update_high t c
    rw [h, hidx] at h1
    rw [h1] at h2
    exact Nat.xor_left_inj.mp h2
  rw [crc_index_eq s c hs, crc_index_eq t c ht] at hidx
  have hsh : s >>> 8 = t >>> 8 := Nat.xor_left_inj.mp hidx
  rw [Nat.shiftRight_eq_div_pow, Nat.shiftRight_eq_div_pow] at hsh
  omega

/-- For a fixed 16-bit state, the CRC step is injective on bytes. -/
theorem crc_update_byte_injective (s x y : Nat) (hs : s < 65536) (hx : x < 256)
    (hy : y < 256) (h : crc_update s x = crc_update s y) : x = y := by
  have hlow : crcTabccitt.getD (crc_index s x) 0 % 256
      = crcTabccitt.getD (crc_index s y) 0 % 256 := by
    rw [← crc_update_low, ← crc_update_low, h]
  have hidx := crcTab_low_injective _ _ (crc_index_lt s x hs) (crc_index_lt s y hs) hlow
  rw [crc_index_eq s x hs, crc_index_eq s y hs] at hidx
  have := Nat.xor_right_inj.mp hidx
  omega

theorem foldl_crc_update_lt (l : List Nat) (s : Nat) (hs : s < 65536) :
    l.foldl crc_update s < 65536 := by
  induction l generalizing s with
  | nil => simpa using hs
  | cons a l ih => exact ih _ (crc_update_lt s a)

theorem calculate_CRC16_lt (data : Option (List Nat)) (len s : Nat) (hs : s < 65536) :
    calculate_CRC16 data len s < 65536 := by
  cases data with
  | none => simpa [calculate_CRC16] using hs
  | some d => exact foldl_crc_update_lt _ _ hs

theorem foldl_crc_update_injective (l : List Nat) (s t : Nat) (hs : s < 65536)
    (ht : t < 65536) (h : l.foldl crc_update s = l.foldl crc_update t) : s = t := by
  induction l generalizing s t with
  | nil => simpa using h
  | cons a l ih =>
    have := ih _ _ (crc_update_lt s a) (crc_update_lt t a) h
    exact crc_update_state_injective s t a hs ht this

/-- Changing one byte of the data changes the CRC. -/
theorem crc_detects_byte_change (pre post : List Nat) (x y s : Nat) (hs : s < 65536)
    (hx : x < 256) (hy : y < 256) (hxy : x ≠ y) :
    (pre ++ x :: post).foldl crc_update s ≠ (pre ++ y :: post).foldl crc_update s := by
  intro h
  rw [List.foldl_append, List.foldl_append, List.foldl_cons, List.foldl_cons] at h
  have hs0 := foldl_crc_update_lt pre s hs
  have h1 := foldl_crc_update_injective post _ _ (crc_update_lt _ x) (crc_update_lt _ y) h
  exact hxy (crc_update_byte_injective _ x y hs0 hx hy h1)

/-! ## Safe buffer lemmas -/

theorem add_char_write_index (sb : safebuffer_t) (c : Nat) :
    (safebuffer_add_char sb c).write_index = sb.write_index + 1 := rfl

theorem add_char_buf (sb : safebuffer_t) (c : Nat) :
    (safebuffer_add_char sb c).buf
      = sb.contents ++ [c] ++ sb.buf.drop (sb.write_index + 1) := rfl

theorem contents_length (sb : safebuffer_t) (h : sb.write_index ≤ sb.buf.length) :
    sb.contents.length = sb.write_index := by
  simp [safebuffer_t.contents, h]

theorem add_char_contents (sb : safebuffer_t) (c : Nat)
    (h : sb.write_index ≤ sb.buf.length) :
    (safebuffer_add_char sb c).contents = sb.contents ++ [c] := by
  have hl := contents_length sb h
  show List.take (sb.write_index + 1) (sb.contents ++ [c] ++ sb.buf.drop (sb.write_index + 1))
    = sb.contents ++ [c]
  apply List.take_left'
  simp [hl]

theorem add_char_wf (sb : safebuffer_t) (c : Nat) (h : sb.write_index ≤ sb.buf.length) :
    (safebuffer_add_char sb c).write_index ≤ (safebuffer_add_char sb c).buf.length := by
  have hl := contents_length sb h
  rw [add_char_buf, add_char_write_index]
  simp [hl]

theorem add_chars_write_index (xs : List Nat) (sb : safebuffer_t) :
    (xs.foldl safebuffer_add_char sb).write_index = sb.write_index + xs.length := by
  induction xs generalizing sb with
  | nil => simp
  | cons x xs ih =>
    rw [List.foldl_cons, ih, add_char_write_index, List.length_cons]; omega

theorem add_chars_wf (xs : List Nat) (sb : safebuffer_t)
    (h : sb.write_index ≤ sb.buf.length) :
    (xs.foldl safebuffer_add_char sb).write_index
      ≤ (xs.foldl safebuffer_add_char sb).buf.length := by
  induction xs generalizing sb with
  | nil => simpa using h
  | cons x xs ih => exact ih _ (add_char_wf sb x h)

theorem add_chars_contents (xs : List Nat) (sb : safebuffer_t)
    (h : sb.write_index ≤ sb.buf.length) :
    (xs.foldl safebuffer_add_char sb).contents = sb.contents ++ xs := by
  induction xs generalizing sb with
  | nil => simp
  | cons x xs ih =>
    rw [List.foldl_cons, ih _ (add_char_wf sb x h), add_char_contents sb x h]
    simp

theorem add_chars_buf (xs : List Nat) (sb : safebuffer_t)
    (h : sb.write_index ≤ sb.buf.length) :
    (xs.foldl safebuffer_add_char sb).buf
      = sb.contents ++ xs ++ sb.buf.drop (sb.write_index + xs.length) := by
  induction xs generalizing sb with
  | nil => simp [safebuffer_t.contents]
  | cons x xs ih =>
    rw [List.foldl_cons, ih _ (add_char_wf sb x h), add_char_contents sb x h,
      add_char_write_index, add_char_buf]
    have hl := contents_length sb h
    have e : sb.write_index + 1 + xs.length = (sb.contents ++ [x]).length + xs.length := by
      simp [hl]
    rw [e, List.drop_append]
    simp [List.drop_drop, hl]
    congr 1
    omega

theorem add_chars_other (xs : List Nat) (sb : safebuffer_t) :
    (xs.foldl safebuffer_add_char sb).len = sb.len ∧
    (xs.foldl safebuffer_add_char sb).full = sb.full ∧
    (xs.foldl safebuffer_add_char sb).p_gp = sb.p_gp := by
  induction xs generalizing sb with
  | nil => simp
  | cons x xs ih =>
    rw [List.foldl_cons]
    have := ih (safebuffer_add_char sb x)
    simpa [safebuffer_add_char] using this

/-! ## Sixteen-bit values and their two bytes -/

theorem hi_byte_mod (x : Nat) (h : x < 65536) : (x >>> 8) % 256 = x >>> 8 := by
  rw [Nat.shiftRight_eq_div_pow]; omega

theorem lo_byte_mod (x : Nat) : (x &&& 0xff) % 256 = x &&& 0xff := by
  have := mask_byte x
  rw [Nat.and_comm] at this
  omega

theorem lo_byte_eq (x : Nat) : x &&& 0xff = x % 256 := by
  rw [Nat.and_comm]; exact mask_byte x

theorem be16_join (a b : Nat) (ha : a < 256) (hb : b < 256) :
    ((a <<< 8) % 65536) ||| b = a * 256 + b := by
  rw [Nat.shiftLeft_eq]
  have e : a * 2 ^ 8 % 65536 = 2 ^ 8 * a := by omega
  rw [e, ← Nat.mul_add_lt_is_or (by omega : b < 2 ^ 8)]
  omega

/-- A 16-bit value is recovered from its high and low bytes, the way the receiver joins
them. -/
theorem be16_split_join (x : Nat) (h : x < 65536) :
    (((x >>> 8) % 256) <<< 8) % 65536 ||| ((x &&& 0xff) % 256) = x := by
  rw [lo_byte_mod, lo_byte_eq, hi_byte_mod x h, be16_join _ _ _ (by omega)]
  · rw [Nat.shiftRight_eq_div_pow]; omega
  · rw [Nat.shiftRight_eq_div_pow]; omega

theorem calculate_CRC16_some (d : List Nat) (s : Nat) :
    calculate_CRC16 (some d) d.length s = d.foldl crc_update s := by
  simp [calculate_CRC16]

theorem calculate_CRC16_contents (sb : safebuffer_t) (s : Nat) :
    calculate_CRC16 (some sb.buf) sb.write_index s = sb.contents.foldl crc_update s := rfl

theorem build_valid (g : rs_protocol_statics) (sb : safebuffer_t) (P : List Nat)
    (h : Nat) (rsp : rs_protocol_data_t) (hv : valid_handle g h rsp)
    (hn : P.length ≤ 65535) :
    ∃ sb1, rs_protocol_build g sb P P.length h = some (0, sb1) ∧
      sb1.contents = frame_header rsp.header_byte_1 rsp.header_byte_2 P.length
          (calculate_CRC16 (some P) P.length 0) ++ P ∧
      sb1.write_index = P.length + 8 := by
  obtain ⟨h1, _, h3⟩ := hv
  have hcrc : calculate_CRC16 (some P) P.length 0 < 65536 :=
    calculate_CRC16_lt _ _ _ (by decide)
  have hnot : ¬ (h ≥ g.rs_protocol_num_instances) := by omega
  unfold rs_protocol_build
  rw [if_neg hnot, h3]
  refine ⟨_, rfl, ?_, ?_⟩
  · have w0 : (safebuffer_reset sb).write_index ≤ (safebuffer_reset sb).buf.length := by
      simp [safebuffer_reset]
    have c0 : (safebuffer_reset sb).contents = [] := by
      simp [safebuffer_reset, safebuffer_t.contents]
    simp only [safebuffer_add_data, List.take_length, calculate_CRC16_contents]
    have w1 := add_char_wf _ rsp.header_byte_1 w0
    have w2 := add_char_wf _ rsp.header_byte_2 w1
    have w3 := add_char_wf _ ((P.length >>> 8) % 256) w2
    have w4 := add_char_wf _ ((P.length &&& 0xff) % 256) w3
    have w5 := add_char_wf _ ((calculate_CRC16 (some P) P.length 0 >>> 8) % 256) w4
    have w6 := add_char_wf _ ((calculate_CRC16 (some P) P.length 0 &&& 0xff) % 256) w5
    have c6 := add_char_contents _ ((calculate_CRC16 (some P) P.length 0 &&& 0xff) % 256) w5
    rw [add_char_contents _ _ w4, add_char_contents _ _ w3, add_char_contents _ _ w2,
      add_char_contents _ _ w1, add_char_contents _ _ w0, c0] at c6
    rw [add_chars_contents _ _ (add_char_wf _ _ (add_char_wf _ _ w6)),
      add_char_contents _ _ (add_char_wf _ _ w6), add_char_contents _ _ w6, c6]
    have hfold : ∀ l : List Nat, l.length = 6 →
        l.foldl crc_update 0 = calculate_CRC16 (some l) HEADER_CRC_CALC_SIZE 0 := by
      intro l hl
      simp [calculate_CRC16, HEADER_CRC_CALC_SIZE, ← hl]
    rw [hfold _ (by simp)]
    have hh : calculate_CRC16 (some ([] ++ [rsp.header_byte_1] ++ [rsp.header_byte_2]
        ++ [(P.length >>> 8) % 256] ++ [(P.length &&& 0xff) % 256]
        ++ [(calculate_CRC16 (some P) P.length 0 >>> 8) % 256]
        ++ [(calculate_CRC16 (some P) P.length 0 &&& 0xff) % 256]))
        HEADER_CRC_CALC_SIZE 0 < 65536 := calculate_CRC16_lt _ _ _ (by decide)
    simp only [frame_header, lo_byte_mod, hi_byte_mod _ (show P.length < 65536 by omega),
      hi_byte_mod _ hcrc] at hh ⊢
    rw [hi_byte_mod _ hh]
    simp
  · simp [safebuffer_add_data, add_chars_write_index, add_char_write_index, safebuffer_reset]
    omega

/-! ## Runs of the receive loop -/

theorem length_eight (l : List Nat) (h : l.length = 8) :
    ∃ h0 h1 h2 h3 h4 h5 h6 h7, l = [h0, h1, h2, h3, h4, h5, h6, h7] := by
  match l, h with
  | [h0, h1, h2, h3, h4, h5, h6, h7], _ => exact ⟨h0, h1, h2, h3, h4, h5, h6, h7, rfl⟩

theorem process_bytes_append (A : allocator_t) (source : Nat) (xs ys : List Nat)
    (rsp : rs_protocol_data_t) (k : Nat) :
    process_bytes A source rsp k (xs ++ ys) =
      match process_bytes A source rsp k xs with
      | none => none
      | some (rsp1, k1, ev1) =>
        match process_bytes A source rsp1 k1 ys with
        | none => none
        | some (rsp2, k2, ev2) => some (rsp2, k2, ev1 ++ ev2) := by
  induction xs generalizing rsp k with
  | nil =>
    simp only [List.nil_append, process_bytes]
    cases process_bytes A source rsp k ys with
    | none => rfl
    | some r => obtain ⟨r1, r2, r3⟩ := r; simp
  | cons x xs ih =>
    rw [List.cons_append]
    simp only [process_bytes]
    cases process_byte A source rsp k x with
    | none => rfl
    | some r =>
      obtain ⟨r1, r2, r3⟩ := r
      simp only [ih]
      cases process_bytes A source r1 r2 xs with
      | none => rfl
      | some q =>
        obtain ⟨q1, q2, q3⟩ := q
        simp only
        cases process_bytes A source q1 q2 ys with
        | none => rfl
        | some t => obtain ⟨t1, t2, t3⟩ := t; simp

/-- While fewer than `len` bytes have been collected, `RS_DATA` only appends. -/
theorem process_bytes_collect (A : allocator_t) (source : Nat) (xs : List Nat)
    (rsp : rs_protocol_data_t) (k : Nat) (sb0 : safebuffer_t)
    (hst : rsp.state = RS_DATA) (hsb : rsp.sb = some sb0)
    (hlt : sb0.write_index + xs.length < rsp.len) :
    process_bytes A source rsp k xs
      = some ({ rsp with sb := some (xs.foldl safebuffer_add_char sb0) }, k, []) := by
  induction xs generalizing rsp sb0 with
  | nil =>
    simp only [process_bytes, List.foldl_nil]
    rw [← hsb]
  | cons x xs ih =>
    have hlt1 : ¬ ((safebuffer_add_char sb0 x).write_index ≥ rsp.len) := by
      rw [add_char_write_index]; simp only [List.length_cons] at hlt; omega
    have hstep : process_byte A source rsp k x
        = some ({ rsp with sb := some (safebuffer_add_char sb0 x) }, k, []) := by
      unfold process_byte
      rw [hst]
      simp only [hsb]
      rw [if_neg hlt1]
    simp only [process_bytes, hstep]
    rw [ih { rsp with sb := some (safebuffer_add_char sb0 x) } (safebuffer_add_char sb0 x)
      hst rfl (by
        show (safebuffer_add_char sb0 x).write_index + xs.length < rsp.len
        rw [add_char_write_index]; simp only [List.length_cons] at hlt; omega)]
    simp

/-- The first seven bytes of a frame take an instance that seeks the preamble to the
second header-CRC byte, staging the header on the way. -/
theorem process_header_seven (A : allocator_t) (source : Nat) (rsp : rs_protocol_data_t)
    (k a b c d e : Nat) (hst : rsp.state = RS_HEADER_BYTE_1)
    (hlen : rsp.header_buf.length = 8) :
    process_bytes A source rsp k [rsp.header_byte_1, rsp.header_byte_2, a, b, c, d, e]
      = some ({ rsp with
                state := RS_HEADER_CRC_BYTE_2
                len := ((a <<< 8) % 65536) ||| b
                crc := (e <<< 8) % 65536
                header_buf := [rsp.header_byte_1, rsp.header_byte_2, a, b, c, d]
                  ++ rsp.header_buf.drop 6 }, k,
          [event_t.callback rsp.message_received_cb none RS_PACKET_PREAMBLE_RECEIVED
            source]) := by
  obtain ⟨cb, hb, sb, len, crc, st, p1, p2⟩ := rsp
  simp only at hst hlen
  subst hst
  obtain ⟨h0, h1, h2, h3, h4, h5, h6, h7, rfl⟩ := length_eight hb hlen
  simp [process_bytes, process_byte]

theorem safebuffer_malloc_ok (A : allocator_t) (k size : Nat)
    (h : A.succeeds k size = true) :
    safebuffer_malloc A k size = some (fresh_buffer A k size) := by
  simp [safebuffer_malloc, fresh_buffer, h]

theorem safebuffer_malloc_fail (A : allocator_t) (k size : Nat)
    (h : A.succeeds k size = false) : safebuffer_malloc A k size = none := by
  simp [safebuffer_malloc, h]

/-- Filling a fresh buffer of `Q.length` bytes with `Q` leaves exactly `Q` in it. -/
theorem fill_fresh_buffer (A : allocator_t) (k : Nat) (Q : List Nat) :
    Q.foldl safebuffer_add_char (fresh_buffer A k Q.length)
      = { buf := Q, write_index := Q.length, len := Q.length, full := false,
          p_gp := none } := by
  have hw : (fresh_buffer A k Q.length).write_index
      ≤ (fresh_buffer A k Q.length).buf.length := by simp [fresh_buffer]
  have h1 := add_chars_buf Q _ hw
  have h2 := add_chars_write_index Q (fresh_buffer A k Q.length)
  obtain ⟨h3, h4, h5⟩ := add_chars_other Q (fresh_buffer A k Q.length)
  have hc : (fresh_buffer A k Q.length).contents = [] := by
    simp [fresh_buffer, safebuffer_t.contents]
  have hd : (fresh_buffer A k Q.length).buf.drop
      ((fresh_buffer A k Q.length).write_index + Q.length) = [] := by
    simp [fresh_buffer]
  rw [hc, hd] at h1
  generalize Q.foldl safebuffer_add_char (fresh_buffer A k Q.length) = r at h1 h2 h3 h4 h5
  obtain ⟨rb, rw, rl, rf, rp⟩ := r
  simp only at h1 h2 h3 h4 h5
  simp [h1, h2, h3, h4, h5, fresh_buffer]

/-- The eight header bytes with a matching header CRC, allocation succeeding: the
instance is in `RS_DATA` with a fresh receive buffer. -/
theorem process_header_match (A : allocator_t) (source : Nat) (rsp : rs_protocol_data_t)
    (k a b c d e f : Nat) (hst : rsp.state = RS_HEADER_BYTE_1) (hsb : rsp.sb = none)
    (hlen : rsp.header_buf.length = 8)
    (hcrc : ((e <<< 8) % 65536) ||| f
      = calculate_CRC16 (some [rsp.header_byte_1, rsp.header_byte_2, a, b, c, d]) 6 0)
    (halloc : A.succeeds k (((a <<< 8) % 65536) ||| b) = true) :
    process_bytes A source rsp k [rsp.header_byte_1, rsp.header_byte_2, a, b, c, d, e, f]
      = some ({ rsp with
                state := RS_DATA
                len := ((a <<< 8) % 65536) ||| b
                crc := ((e <<< 8) % 65536) ||| f
                header_buf := staged_header rsp.header_byte_1 rsp.header_byte_2 a b c d
                  (((e <<< 8) % 65536) ||| f)
                sb := some (fresh_buffer A k (((a <<< 8) % 65536) ||| b)) }, k + 1,
          [event_t.callback rsp.message_received_cb none RS_PACKET_PREAMBLE_RECEIVED
            source,
           event_t.malloc (((a <<< 8) % 65536) ||| b)
             (some (fresh_buffer A k (((a <<< 8) % 65536) ||| b)))]) := by
  have hp := process_header_seven A source rsp k a b c d e hst hlen
  have happ := process_bytes_append A source
    [rsp.header_byte_1, rsp.header_byte_2, a, b, c, d, e] [f] rsp k
  simp only [List.cons_append, List.nil_append] at happ
  rw [happ, hp]
  obtain ⟨cb, hb, sb, len, crc, st, p1, p2⟩ := rsp
  simp only at hst hlen hsb hcrc
  subst hst hsb
  obtain ⟨h0, h1, h2, h3, h4, h5, h6, h7, rfl⟩ := length_eight hb hlen
  have hc6 : calculate_CRC16 (some [p1, p2, a, b, c, d, h6, h7]) HEADER_CRC_CALC_SIZE 0
      = calculate_CRC16 (some [p1, p2, a, b, c, d]) 6 0 := by
    simp [calculate_CRC16, HEADER_CRC_CALC_SIZE]
  simp [process_bytes, process_byte, hc6, ← hcrc, safebuffer_malloc_ok _ _ _ halloc,
    staged_header]

/-- The eight header bytes with a header CRC that does not match: the handler gets
`RS_PACKET_ERROR_HEADER_CRC`, nothing is allocated, the instance seeks the preamble. -/
theorem process_header_mismatch (A : allocator_t) (source : Nat)
    (rsp : rs_protocol_data_t) (k a b c d e f : Nat)
    (hst : rsp.state = RS_HEADER_BYTE_1) (hlen : rsp.header_buf.length = 8)
    (hcrc : ((e <<< 8) % 65536) ||| f
      ≠ calculate_CRC16 (some [rsp.header_byte_1, rsp.header_byte_2, a, b, c, d]) 6 0) :
    process_bytes A source rsp k [rsp.header_byte_1, rsp.header_byte_2, a, b, c, d, e, f]
      = some ({ rsp with
                state := RS_HEADER_BYTE_1
                len := ((a <<< 8) % 65536) ||| b
                crc := ((e <<< 8) % 65536) ||| f
                header_buf := [rsp.header_byte_1, rsp.header_byte_2, a, b, c, d]
                  ++ rsp.header_buf.drop 6 }, k,
          [event_t.callback rsp.message_received_cb none RS_PACKET_PREAMBLE_RECEIVED
            source,
           event_t.callback rsp.message_received_cb none RS_PACKET_ERROR_HEADER_CRC
            source]) := by
  have hp := process_header_seven A source rsp k a b c d e hst hlen
  have happ := process_bytes_append A source
    [rsp.header_byte_1, rsp.header_byte_2, a, b, c, d, e] [f] rsp k
  simp only [List.cons_append, List.nil_append] at happ
  rw [happ, hp]
  obtain ⟨cb, hb, sb, len, crc, st, p1, p2⟩ := rsp
  simp only at hst hlen hcrc
  subst hst
  obtain ⟨h0, h1, h2, h3, h4, h5, h6, h7, rfl⟩ := length_eight hb hlen
  have hc6 : calculate_CRC16 (some [p1, p2, a, b, c, d, h6, h7]) HEADER_CRC_CALC_SIZE 0
      = calculate_CRC16 (some [p1, p2, a, b, c, d]) 6 0 := by
    simp [calculate_CRC16, HEADER_CRC_CALC_SIZE]
  simp [process_bytes, process_byte, hc6, hcrc]

/-- A whole frame with a matching header CRC and a non-empty payload `Q` of the announced
length, allocation succeeding: the payload is collected and checked against the data CRC
of the header. -/
theorem process_frame (A : allocator_t) (source : Nat) (rsp : rs_protocol_data_t)
    (k a b c d e f : Nat) (Q : List Nat)
    (hst : rsp.state = RS_HEADER_BYTE_1) (hsb : rsp.sb = none)
    (hlen : rsp.header_buf.length = 8)
    (hcrc : ((e <<< 8) % 65536) ||| f
      = calculate_CRC16 (some [rsp.header_byte_1, rsp.header_byte_2, a, b, c, d]) 6 0)
    (hL : ((a <<< 8) % 65536) ||| b = Q.length) (hQ : Q ≠ [])
    (halloc : A.succeeds k Q.length = true) :
    process_bytes A source rsp k
        ([rsp.header_byte_1, rsp.header_byte_2, a, b, c, d, e, f] ++ Q)
      = if ((c <<< 8) % 65536) ||| d = Q.foldl crc_update 0 then
          some ({ rsp with
                  state := RS_HEADER_BYTE_1
                  len := Q.length
                  crc := ((c <<< 8) % 65536) ||| d
                  header_buf := staged_header rsp.header_byte_1 rsp.header_byte_2 a b c d
                    (((e <<< 8) % 65536) ||| f)
                  sb := none }, k + 1,
            [event_t.callback rsp.message_received_cb none RS_PACKET_PREAMBLE_RECEIVED
               source,
             event_t.malloc Q.length (some (fresh_buffer A k Q.length)),
             event_t.callback rsp.message_received_cb
               (some (filled_buffer Q (some (staged_header rsp.header_byte_1
                 rsp.header_byte_2 a b c d (((e <<< 8) % 65536) ||| f)))))
               RS_PACKET_VALID_DATA source,
             event_t.free (filled_buffer Q (some (staged_header rsp.header_byte_1
                 rsp.header_byte_2 a b c d (((e <<< 8) % 65536) ||| f))))])
        else
          some ({ rsp with
                  state := RS_HEADER_BYTE_1
                  len := Q.length
                  crc := ((c <<< 8) % 65536) ||| d
                  header_buf := staged_header rsp.header_byte_1 rsp.header_byte_2 a b c d
                    (((e <<< 8) % 65536) ||| f)
                  sb := some (filled_buffer Q none) }, k + 1,
            [event_t.callback rsp.message_received_cb none RS_PACKET_PREAMBLE_RECEIVED
               source,
             event_t.malloc Q.length (some (fresh_buffer A k Q.length)),
             event_t.callback rsp.message_received_cb none RS_PACKET_ERROR_DATA_CRC
               source]) := by
  rw [← hL] at halloc
  rw [process_bytes_append,
    process_header_match A source rsp k a b c d e f hst hsb hlen hcrc halloc]
  simp only
  rw [hL]
  obtain ⟨Qi, x, rfl⟩ : ∃ Qi x, Q = Qi ++ [x] := by
    rcases List.eq_nil_or_concat Q with h | ⟨Qi, x, h⟩
    · exact absurd h hQ
    · exact ⟨Qi, x, by simpa using h⟩
  rw [process_bytes_append]
  rw [process_bytes_collect A source Qi _ (k + 1) (fresh_buffer A k (Qi ++ [x]).length) rfl
    rfl (by simp [fresh_buffer])]
  simp only
  have hfill := fill_fresh_buffer A k (Qi ++ [x])
  rw [List.foldl_append, List.foldl_cons, List.foldl_nil] at hfill
  have hcalc : calculate_CRC16 (some (Qi ++ [x])) (Qi ++ [x]).length 0
      = (Qi ++ [x]).foldl crc_update 0 := calculate_CRC16_some _ _
  simp only [List.length_append, List.length_singleton, List.length_nil, List.length_cons,
    List.foldl_append, List.foldl_cons, List.foldl_nil] at hfill hcalc ⊢
  by_cases hd : ((c <<< 8) % 65536) ||| d = crc_update (Qi.foldl crc_update 0) x
  · rw [if_pos hd]
    simp [process_bytes, process_byte, hfill, staged_header, hcalc, hd, filled_buffer]
  · rw [if_neg hd]
    simp [process_bytes, process_byte, hfill, staged_header, hcalc, hd, filled_buffer]

theorem be16_split_join_raw (x : Nat) (h : x < 65536) :
    ((x >>> 8) <<< 8) % 65536 ||| (x &&& 0xff) = x := by
  have := be16_split_join x h
  rwa [lo_byte_mod, hi_byte_mod x h] at this

/-- The call on a valid handle runs the loop on the instance and stores it back. -/
theorem process_data_valid (A : allocator_t) (g : rs_protocol_statics) (k : Nat)
    (data : List Nat) (h source : Nat) (rsp : rs_protocol_data_t)
    (hv : valid_handle g h rsp) :
    rs_protocol_process_data A g k data data.length h source
      = (process_bytes A source rsp k data).map
          (fun r => (0, update_instance g h r.1, r.2.1, r.2.2)) := by
  obtain ⟨h1, _, h3⟩ := hv
  have hnot : ¬ (h ≥ g.rs_protocol_num_instances) := by omega
  unfold rs_protocol_process_data
  rw [if_neg hnot, h3, List.take_length]
  simp only
  cases process_bytes A source rsp k data with
  | none => rfl
  | some r => obtain ⟨r1, r2, r3⟩ := r; rfl

theorem update_instance_valid (g : rs_protocol_statics) (h : Nat)
    (rsp rsp1 : rs_protocol_data_t) (hv : valid_handle g h rsp) :
    valid_handle (update_instance g h rsp1) h rsp1 := by
  obtain ⟨h1, h2, _⟩ := hv
  refine ⟨h1, by simpa [update_instance] using h2, ?_⟩
  simp [update_instance, List.getD_eq_getElem?_getD, List.getElem?_set, h2]

theorem built_frame_eq (g : rs_protocol_statics) (h : Nat) (rsp : rs_protocol_data_t)
    (P : List Nat) (hv : valid_handle g h rsp) (hn : P.length ≤ 65535) :
    built_frame g h P = frame_header rsp.header_byte_1 rsp.header_byte_2 P.length
      (calculate_CRC16 (some P) P.length 0) ++ P := by
  obtain ⟨sb1, h1, h2, _⟩ := build_valid g ⟨[], 0, 0, false, none⟩ P h rsp hv hn
  simp [built_frame, h1, h2]

/-- A built frame followed by any bytes `Q` in place of the payload, of the same
non-zero length: the receiver collects `Q` and compares its CRC with the CRC of `P`. -/
theorem process_built_header (A : allocator_t) (source : Nat) (rsp : rs_protocol_data_t)
    (k : Nat) (P Q : List Nat) (hst : rsp.state = RS_HEADER_BYTE_1) (hsb : rsp.sb = none)
    (hlen : rsp.header_buf.length = 8) (hn : P.length ≤ 65535) (hPQ : Q.length = P.length)
    (hQ : Q ≠ []) (halloc : A.succeeds k P.length = true) :
    ∃ rsp1 hdr, rsp1.state = RS_HEADER_BYTE_1 ∧ rsp1.header_buf.length = 8 ∧
      rsp1.header_byte_1 = rsp.header_byte_1 ∧ rsp1.header_byte_2 = rsp.header_byte_2 ∧
      rsp1.message_received_cb = rsp.message_received_cb ∧
      hdr = frame_header rsp.header_byte_1 rsp.header_byte_2 P.length
        (calculate_CRC16 (some P) P.length 0) ∧
      process_bytes A source rsp k (hdr ++ Q)
        = some (rsp1, k + 1,
            [event_t.callback rsp.message_received_cb none RS_PACKET_PREAMBLE_RECEIVED
               source,
             event_t.malloc P.length (some (fresh_buffer A k P.length))] ++
            if Q.foldl crc_update 0 = P.foldl crc_update 0 then
              [event_t.callback rsp.message_received_cb
                 (some (filled_buffer Q (some hdr))) RS_PACKET_VALID_DATA source,
               event_t.free (filled_buffer Q (some hdr))]
            else
              [event_t.callback rsp.message_received_cb none RS_PACKET_ERROR_DATA_CRC
                 source]) ∧
      (Q.foldl crc_update 0 = P.foldl crc_update 0 → rsp1.sb = none) := by
  have hd : calculate_CRC16 (some P) P.length 0 < 65536 :=
    calculate_CRC16_lt _ _ _ (by decide)
  have hdv : calculate_CRC16 (some P) P.length 0 = P.foldl crc_update 0 :=
    calculate_CRC16_some P 0
  generalize hD : calculate_CRC16 (some P) P.length 0 = D at hd hdv
  have hh : calculate_CRC16 (some [rsp.header_byte_1, rsp.header_byte_2, P.length >>> 8,
      P.length &&& 0xff, D >>> 8, D &&& 0xff]) 6 0 < 65536 :=
    calculate_CRC16_lt _ _ _ (by decide)
  generalize hH : calculate_CRC16 (some [rsp.header_byte_1, rsp.header_byte_2,
      P.length >>> 8, P.length &&& 0xff, D >>> 8, D &&& 0xff]) 6 0 = H at hh
  have hfh : frame_header rsp.header_byte_1 rsp.header_byte_2 P.length D
      = [rsp.header_byte_1, rsp.header_byte_2, P.length >>> 8, P.length &&& 0xff,
         D >>> 8, D &&& 0xff, H >>> 8, H &&& 0xff] := by
    simp [frame_header, HEADER_CRC_CALC_SIZE, hH]
  have hst8 : staged_header rsp.header_byte_1 rsp.header_byte_2 (P.length >>> 8)
      (P.length &&& 0xff) (D >>> 8) (D &&& 0xff) (((H >>> 8) <<< 8) % 65536 ||| (H &&& 0xff))
      = frame_header rsp.header_byte_1 rsp.header_byte_2 P.length D := by
    rw [hfh, be16_split_join_raw H hh]
    simp [staged_header, hi_byte_mod H hh, lo_byte_eq]
  have hfr := process_frame A source rsp k (P.length >>> 8) (P.length &&& 0xff) (D >>> 8)
    (D &&& 0xff) (H >>> 8) (H &&& 0xff) Q hst hsb hlen
    (by rw [be16_split_join_raw H hh, hH])
    (by rw [be16_split_join_raw P.length (by omega), hPQ]) hQ (by rw [hPQ]; exact halloc)
  rw [be16_split_join_raw D hd, hst8, ← hfh, hPQ] at hfr
  by_cases hc : Q.foldl crc_update 0 = P.foldl crc_update 0
  · rw [if_pos (by rw [hdv, hc])] at hfr
    refine ⟨{ rsp with
              state := RS_HEADER_BYTE_1
              len := P.length
              crc := D
              header_buf := frame_header rsp.header_byte_1 rsp.header_byte_2 P.length D
              sb := none }, _, rfl, by simp [frame_header], rfl, rfl, rfl, rfl, ?_,
      fun _ => rfl⟩
    rw [hfr, if_pos hc]; rfl
  · rw [if_neg (by rw [hdv]; exact fun h => hc h.symm)] at hfr
    refine ⟨{ rsp with
              state := RS_HEADER_BYTE_1
              len := P.length
              crc := D
              header_buf := frame_header rsp.header_byte_1 rsp.header_byte_2 P.length D
              sb := some (filled_buffer Q none) }, _, rfl, by simp [frame_header], rfl,
      rfl, rfl, rfl, ?_, fun h => absurd h hc⟩
    rw [hfr, if_neg hc]; rfl

/-! ## C1: round trip -/

/-- A frame built for a non-empty payload `P` of at most 65535 bytes, fed whole to the
matching instance in its initial parse state with the allocation succeeding: the handler
receives `RS_PACKET_PREAMBLE_RECEIVED` and then one `RS_PACKET_VALID_DATA` whose buffer
holds exactly `P`, and the instance is back in its initial parse state. -/
theorem round_trip_nonempty (A : allocator_t) (g : rs_protocol_statics) (k h source : Nat)
    (rsp : rs_protocol_data_t) (P : List Nat) (hv : valid_handle g h rsp)
    (hi : initial_parse_state rsp) (hP : P ≠ []) (hn : P.length ≤ 65535)
    (halloc : A.succeeds k P.length = true) :
    ∃ rsp1, initial_parse_state rsp1 ∧
      rsp1.header_byte_1 = rsp.header_byte_1 ∧ rsp1.header_byte_2 = rsp.header_byte_2 ∧
      rsp1.message_received_cb = rsp.message_received_cb ∧
      rs_protocol_process_data A g k (built_frame g h P) (built_frame g h P).length h source
        = some (0, update_instance g h rsp1, k + 1,
            [event_t.callback rsp.message_received_cb none RS_PACKET_PREAMBLE_RECEIVED
               source,
             event_t.malloc P.length (some (fresh_buffer A k P.length)),
             event_t.callback rsp.message_received_cb
               (some (filled_buffer P (some ((built_frame g h P).take 8))))
               RS_PACKET_VALID_DATA source,
             event_t.free (filled_buffer P (some ((built_frame g h P).take 8)))]) := by
  obtain ⟨hst, hsb, hlen⟩ := hi
  obtain ⟨rsp1, hdr, h1, h2, h3, h4, h5, h6, h7, h8⟩ :=
    process_built_header A source rsp k P P hst hsb hlen hn rfl hP halloc
  have hF := built_frame_eq g h rsp P hv hn
  have hl : hdr.length = 8 := by rw [h6]; simp [frame_header]
  refine ⟨rsp1, ⟨h1, h8 rfl, h2⟩, h3, h4, h5, ?_⟩
  rw [process_data_valid A g k _ h source rsp hv, hF, ← h6, h7, if_pos rfl]
  simp [List.take_append_of_le_length, hl, List.take_of_length_le]

/-- C1 (at the failing input, the empty payload): the 8-byte frame built for the empty
payload, fed whole to the matching instance in its initial parse state with the
allocation succeeding, leaves the instance waiting in `RS_DATA` with an empty receive
buffer; the handler has received `RS_PACKET_PREAMBLE_RECEIVED` only, and no
`RS_PACKET_VALID_DATA`. -/
theorem C1_empty_payload_not_delivered :
    built_frame demo_statics 0 [] = [0xAA, 0x55, 0, 0, 0, 0, 0x51, 0x4f] ∧
    rs_protocol_process_data demo_allocator demo_statics 0 (built_frame demo_statics 0 [])
        8 0 99
      = some (0,
          { rs_protocol_num_instances := 1
            rs_protocol_data := [some { demo_instance with
              state := RS_DATA
              crc := 0x514f
              header_buf := [0xAA, 0x55, 0, 0, 0, 0, 0x51, 0x4f]
              sb := some ⟨[], 0, 0, false, none⟩ }] },
          1,
          [event_t.callback 7 none RS_PACKET_PREAMBLE_RECEIVED 99,
           event_t.malloc 0 (some ⟨[], 0, 0, false, none⟩)]) := by
  constructor <;> decide

/-! ## C3: CRC chaining -/

/-- C3: for all byte sequences `head` and `tail`, the CRC of `head ++ tail` from the start
value 0 is the CRC of `tail` started from the CRC of `head`; the result is a function of
the bytes and the start value only. -/
theorem C3_crc_chaining (head tail : List Nat) :
    calculate_CRC16 (some (head ++ tail)) (head ++ tail).length 0
      = calculate_CRC16 (some tail) tail.length
          (calculate_CRC16 (some head) head.length 0) := by
  simp only [calculate_CRC16, List.take_length, List.foldl_append]

/-! ## C8: wire format -/

/-- C8: for every valid handle with preamble `(p1, p2)` and every payload `P` of
`n ≤ 65535` bytes, `rs_protocol_build` returns 0 and leaves the output buffer holding
exactly `n + 8` bytes: `p1`, `p2`, `n >> 8`, `n & 0xff`, the big-endian CRC of `P`, the
big-endian CRC of those six bytes, then `P`, whatever the buffer `sb` held before. -/
theorem C8_build_wire_format (g : rs_protocol_statics) (sb : safebuffer_t) (P : List Nat)
    (h : Nat) (rsp : rs_protocol_data_t) (hv : valid_handle g h rsp)
    (hn : P.length ≤ 65535) :
    ∃ sb1, rs_protocol_build g sb P P.length h = some (0, sb1) ∧
      sb1.write_index = P.length + 8 ∧
      sb1.contents.length = P.length + 8 ∧
      sb1.contents =
        [rsp.header_byte_1, rsp.header_byte_2, P.length >>> 8, P.length &&& 0xff,
         calculate_CRC16 (some P) P.length 0 >>> 8,
         calculate_CRC16 (some P) P.length 0 &&& 0xff,
         calculate_CRC16 (some [rsp.header_byte_1, rsp.header_byte_2, P.length >>> 8,
           P.length &&& 0xff, calculate_CRC16 (some P) P.length 0 >>> 8,
           calculate_CRC16 (some P) P.length 0 &&& 0xff]) 6 0 >>> 8,
         calculate_CRC16 (some [rsp.header_byte_1, rsp.header_byte_2, P.length >>> 8,
           P.length &&& 0xff, calculate_CRC16 (some P) P.length 0 >>> 8,
           calculate_CRC16 (some P) P.length 0 &&& 0xff]) 6 0 &&& 0xff] ++ P := by
  obtain ⟨sb1, h1, h2, h3⟩ := build_valid g sb P h rsp hv hn
  refine ⟨sb1, h1, h3, ?_, ?_⟩
  · rw [h2]; simp [frame_header]
  · rw [h2]; simp [frame_header, HEADER_CRC_CALC_SIZE]

/-- Witness for C8: the frame built for the payload `[1, 2, 3]` on the demo instance. -/
theorem C8_build_wire_format_witness :
    ∃ sb1, rs_protocol_build demo_statics ⟨[9, 9], 2, 2, true, none⟩ [1, 2, 3]
        [1, 2, 3].length 0 = some (0, sb1) ∧
      sb1.write_index = [1, 2, 3].length + 8 ∧
      sb1.contents.length = [1, 2, 3].length + 8 ∧
      sb1.contents =
        [demo_instance.header_byte_1, demo_instance.header_byte_2, [1, 2, 3].length >>> 8,
         [1, 2, 3].length &&& 0xff,
         calculate_CRC16 (some [1, 2, 3]) [1, 2, 3].length 0 >>> 8,
         calculate_CRC16 (some [1, 2, 3]) [1, 2, 3].length 0 &&& 0xff,
         calculate_CRC16 (some [demo_instance.header_byte_1, demo_instance.header_byte_2,
           [1, 2, 3].length >>> 8, [1, 2, 3].length &&& 0xff,
           calculate_CRC16 (some [1, 2, 3]) [1, 2, 3].length 0 >>> 8,
           calculate_CRC16 (some [1, 2, 3]) [1, 2, 3].length 0 &&& 0xff]) 6 0 >>> 8,
         calculate_CRC16 (some [demo_instance.header_byte_1, demo_instance.header_byte_2,
           [1, 2, 3].length >>> 8, [1, 2, 3].length &&& 0xff,
           calculate_CRC16 (some [1, 2, 3]) [1, 2, 3].length 0 >>> 8,
           calculate_CRC16 (some [1, 2, 3]) [1, 2, 3].length 0 &&& 0xff]) 6 0 &&& 0xff]
          ++ [1, 2, 3] :=
  C8_build_wire_format demo_statics ⟨[9, 9], 2, 2, true, none⟩ [1, 2, 3] 0 demo_instance
    (by decide) (by decide)

/-! ## C6: back-to-back frames -/

/-- C6 (at the failing input `P1 = []`, `P2 = [1]`): the two built frames, concatenated
and fed whole to the matching instance in its initial parse state with the allocation
succeeding, give one `RS_PACKET_VALID_DATA` only. Its buffer holds the byte `0xAA`, the
first preamble byte of the second frame, which the receiver took as payload of the first;
the second frame is then not recognised and `[1]` is never delivered. -/
theorem C6_empty_first_frame_swallows_next :
    built_frame demo_statics 0 [] ++ built_frame demo_statics 0 [1]
      = [0xAA, 0x55, 0, 0, 0, 0, 0x51, 0x4f, 0xAA, 0x55, 0, 1, 0x10, 0x21, 0x51, 0x4f, 1] ∧
    (rs_protocol_process_data demo_allocator demo_statics 0
        (built_frame demo_statics 0 [] ++ built_frame demo_statics 0 [1]) 17 0 99).map
        (fun r => handler_calls r.2.2.2)
      = some [(none, RS_PACKET_PREAMBLE_RECEIVED),
          (some { buf := [0xAA], write_index := 1, len := 0, full := false,
                  p_gp := some [0xAA, 0x55, 0, 0, 0, 0, 0x51, 0x4f] },
           RS_PACKET_VALID_DATA)] := by
  constructor <;> decide

/-! ## C10: invalid handle in the builders -/

/-- The three builders that return a status report `-EINVAL` for a handle that is not
below `rs_protocol_num_instances` and leave their output untouched. -/
theorem build_invalid_handle (g : rs_protocol_statics) (sb sb_in : safebuffer_t)
    (out data : List Nat) (len h : Nat) (hh : h ≥ g.rs_protocol_num_instances) :
    rs_protocol_build g sb data len h = some (-EINVAL, sb) ∧
    rs_protocol_build_safebuffer g sb sb_in h = some (-EINVAL, sb) ∧
    rs_protocol_build_header g out data len h = some (-EINVAL, out) := by
  simp [rs_protocol_build, rs_protocol_build_safebuffer, rs_protocol_build_header, hh]

/-- C10 (at the failing input): with no instance created, handle 0 is not valid.
`rs_protocol_build_multiple_params` on the segments `[1, 2]` and `[3]` all the same
requests 11 bytes from the allocator, copies the segments in and returns the buffer,
marked full with 11 bytes, its 8 header cells never written; it reports no error.
`rs_protocol_build_header` and `rs_protocol_build` on the same handle return `-EINVAL`
and leave their output as it was. -/
theorem C10_multiple_params_ignores_invalid_handle :
    rs_protocol_build_multiple_params demo_allocator ⟨0, []⟩ 0 [[1, 2], [3]] [2, 1] 2 0
      = some (some { buf := [0, 0, 0, 0, 0, 0, 0, 0, 1, 2, 3], write_index := 11, len := 11,
                     full := true, p_gp := none },
          1,
          [event_t.malloc 11
            (some { buf := [0, 0, 0, 0, 0, 0, 0, 0, 0, 0, 0], write_index := 0, len := 11,
                    full := false, p_gp := none })]) ∧
    rs_protocol_build_header ⟨0, []⟩ [9, 9, 9, 9, 9, 9, 9, 9] [1, 2, 3] 3 0
      = some (-EINVAL, [9, 9, 9, 9, 9, 9, 9, 9]) ∧
    rs_protocol_build ⟨0, []⟩ ⟨[9, 9], 2, 2, true, none⟩ [1, 2, 3] 3 0
      = some (-EINVAL, ⟨[9, 9], 2, 2, true, none⟩) := by
  refine ⟨?_, ?_, ?_⟩ <;> decide

/-! ## C7: no preamble, no callback -/

theorem no_preamble_tail (p1 p2 c : Nat) (cs : List Nat)
    (h : no_preamble p1 p2 (c :: cs)) : no_preamble p1 p2 cs := by
  cases cs with
  | nil => trivial
  | cons d ds => exact h.2

theorem no_preamble_head (p1 p2 c d : Nat) (ds : List Nat)
    (h : no_preamble p1 p2 (c :: d :: ds)) : ¬ (c = p1 ∧ d = p2) := h.1

/-- While the preamble is sought and the input never has `header_byte_1` immediately
followed by `header_byte_2`, the loop only moves between the two seeking states. -/
theorem process_bytes_no_preamble (A : allocator_t) (source : Nat) (data : List Nat)
    (rsp : rs_protocol_data_t) (k : Nat) :
    (rsp.state = RS_HEADER_BYTE_1 →
      no_preamble rsp.header_byte_1 rsp.header_byte_2 data →
      ∃ st, (st = RS_HEADER_BYTE_1 ∨ st = RS_HEADER_BYTE_2) ∧
        process_bytes A source rsp k data = some ({ rsp with state := st }, k, [])) ∧
    (rsp.state = RS_HEADER_BYTE_2 →
      no_preamble rsp.header_byte_1 rsp.header_byte_2 (rsp.header_byte_1 :: data) →
      ∃ st, (st = RS_HEADER_BYTE_1 ∨ st = RS_HEADER_BYTE_2) ∧
        process_bytes A source rsp k data = some ({ rsp with state := st }, k, [])) := by
  induction data generalizing rsp with
  | nil =>
    constructor
    · intro hst _
      exact ⟨RS_HEADER_BYTE_1, Or.inl rfl, by rw [← hst]; rfl⟩
    · intro hst _
      exact ⟨RS_HEADER_BYTE_2, Or.inr rfl, by rw [← hst]; rfl⟩
  | cons c cs ih =>
    constructor
    · intro hst hno
      by_cases hc : c = rsp.header_byte_1
      · have hstep : process_byte A source rsp k c
            = some ({ rsp with state := RS_HEADER_BYTE_2 }, k, []) := by
          simp [process_byte, hst, hc]
        obtain ⟨st, hst1, hrun⟩ := (ih { rsp with state := RS_HEADER_BYTE_2 }).2 rfl
          (by rw [hc] at hno; exact hno)
        exact ⟨st, hst1, by simp only [process_bytes, hstep, hrun]; rfl⟩
      · have hstep : process_byte A source rsp k c = some (rsp, k, []) := by
          simp [process_byte, hst, hc]
        obtain ⟨st, hst1, hrun⟩ := (ih rsp).1 hst (no_preamble_tail _ _ _ _ hno)
        exact ⟨st, hst1, by simp only [process_bytes, hstep, hrun]; rfl⟩
    · intro hst hno
      have hne : c ≠ rsp.header_byte_2 := by
        intro hc
        exact no_preamble_head _ _ _ _ _ hno ⟨rfl, hc⟩
      have hno1 : no_preamble rsp.header_byte_1 rsp.header_byte_2 (c :: cs) :=
        no_preamble_tail _ _ _ _ hno
      by_cases hc : c = rsp.header_byte_1
      · have hstep : process_byte A source rsp k c = some (rsp, k, []) := by
          simp [process_byte, hst, hc, hne]
          intro h; exact absurd (hc.trans h) hne
        obtain ⟨st, hst1, hrun⟩ := (ih rsp).2 hst (by rw [hc] at hno1; exact hno1)
        exact ⟨st, hst1, by simp only [process_bytes, hstep, hrun]; rfl⟩
      · have hstep : process_byte A source rsp k c
            = some ({ rsp with state := RS_HEADER_BYTE_1 }, k, []) := by
          simp [process_byte, hst, hc, hne]
        obtain ⟨st, hst1, hrun⟩ := (ih { rsp with state := RS_HEADER_BYTE_1 }).1 rfl
          (no_preamble_tail _ _ _ _ hno1)
        exact ⟨st, hst1, by simp only [process_bytes, hstep, hrun]; rfl⟩

/-- C7: for every instance that seeks the first preamble byte (as in its initial state)
and every byte sequence in which `header_byte_1` is never immediately followed by
`header_byte_2`, `rs_protocol_process_data` returns 0 with an empty trace: the handler is
never invoked and nothing is allocated. Only the parse state of the instance may have
changed, and it is one of the two preamble-seeking states. -/
theorem C7_no_preamble_no_callback (A : allocator_t) (g : rs_protocol_statics)
    (k h source : Nat) (rsp : rs_protocol_data_t) (data : List Nat)
    (hv : valid_handle g h rsp) (hst : rsp.state = RS_HEADER_BYTE_1)
    (hno : no_preamble rsp.header_byte_1 rsp.header_byte_2 data) :
    ∃ st, (st = RS_HEADER_BYTE_1 ∨ st = RS_HEADER_BYTE_2) ∧
      rs_protocol_process_data A g k data data.length h source
        = some (0, update_instance g h { rsp with state := st }, k, []) := by
  obtain ⟨st, hst1, hrun⟩ := (process_bytes_no_preamble A source data rsp k).1 hst hno
  exact ⟨st, hst1, by rw [process_data_valid A g k data h source rsp hv, hrun]; rfl⟩

/-- Witness for C7: bytes with `0x55 0xAA` but never `0xAA 0x55`, ending in `0xAA`. -/
theorem C7_no_preamble_no_callback_witness :
    ∃ st, (st = RS_HEADER_BYTE_1 ∨ st = RS_HEADER_BYTE_2) ∧
      rs_protocol_process_data demo_allocator demo_statics 0 [0x55, 0xAA, 0xAA, 1, 0xAA]
          [0x55, 0xAA, 0xAA, 1, 0xAA].length 0 99
        = some (0, update_instance demo_statics 0 { demo_instance with state := st }, 0,
            []) :=
  C7_no_preamble_no_callback demo_allocator demo_statics 0 0 99 demo_instance
    [0x55, 0xAA, 0xAA, 1, 0xAA] (by decide) (by decide) (by decide)

/-! ## C2: chunking independence -/

theorem list_set_same {α : Type} (l : List α) (i : Nat) (x : α) (h : l[i]? = some x) :
    l.set i x = l := by
  induction l generalizing i with
  | nil => rfl
  | cons a l ih =>
    cases i with
    | zero => simp at h; simp [h]
    | succ i => simp at h; simp [ih i h]

theorem update_instance_self (g : rs_protocol_statics) (h : Nat) (rsp : rs_protocol_data_t)
    (hv : valid_handle g h rsp) : update_instance g h rsp = g := by
  obtain ⟨_, h2, h3⟩ := hv
  obtain ⟨n, tab⟩ := g
  simp only [update_instance, rs_protocol_statics.mk.injEq, true_and]
  simp only at h2 h3
  apply list_set_same
  rw [List.getD_eq_getElem?_getD] at h3
  rw [List.getElem?_eq_getElem h2] at h3 ⊢
  simpa using h3

theorem update_instance_twice (g : rs_protocol_statics) (h : Nat)
    (r1 r2 : rs_protocol_data_t) :
    update_instance (update_instance g h r1) h r2 = update_instance g h r2 := by
  simp [update_instance, List.set_set]

theorem feed_chunks_eq (A : allocator_t) (h source : Nat) (chunks : List (List Nat))
    (g : rs_protocol_statics) (k : Nat) (rsp : rs_protocol_data_t)
    (hv : valid_handle g h rsp) :
    feed_chunks A h source g k chunks
      = (process_bytes A source rsp k chunks.flatten).map
          (fun r => (update_instance g h r.1, r.2.1, r.2.2)) := by
  induction chunks generalizing g k rsp with
  | nil =>
    simp [feed_chunks, process_bytes, update_instance_self g h rsp hv]
  | cons c cs ih =>
    rw [List.flatten_cons, process_bytes_append]
    simp only [feed_chunks]
    rw [process_data_valid A g k c h source rsp hv]
    cases hc : process_bytes A source rsp k c with
    | none => simp
    | some r =>
      obtain ⟨r1, k1, e1⟩ := r
      simp only [Option.map_some']
      rw [ih (update_instance g h r1) k1 r1 (update_instance_valid g h rsp r1 hv)]
      cases process_bytes A source r1 k1 cs.flatten with
      | none => simp
      | some q =>
        obtain ⟨q1, k2, e2⟩ := q
        simp [update_instance_twice]

/-- C2: for every byte sequence `F` (in particular every built frame) and every way of
cutting it into consecutive chunks, one call of `rs_protocol_process_data` per chunk, in
order, on the same valid handle with the same source token, leaves the same statics (so
the same instance state), the same allocation count and the same trace (so the same
handler calls with the same buffers) as one call with all of `F`. -/
theorem C2_chunking_independence (A : allocator_t) (g : rs_protocol_statics)
    (k h source : Nat) (rsp : rs_protocol_data_t) (chunks : List (List Nat))
    (hv : valid_handle g h rsp) :
    feed_chunks A h source g k chunks
      = (rs_protocol_process_data A g k chunks.flatten chunks.flatten.length h source).map
          (fun r => r.2) := by
  rw [feed_chunks_eq A h source chunks g k rsp hv,
    process_data_valid A g k _ h source rsp hv]
  cases process_bytes A source rsp k chunks.flatten with
  | none => rfl
  | some r => rfl

/-- Witness for C2: the frame built for `[1, 2]`, fed one byte per call. -/
theorem C2_chunking_independence_witness :
    feed_chunks demo_allocator 0 99 demo_statics 0
        ((built_frame demo_statics 0 [1, 2]).map (fun b => [b]))
      = (rs_protocol_process_data demo_allocator demo_statics 0
          ((built_frame demo_statics 0 [1, 2]).map (fun b => [b])).flatten
          ((built_frame demo_statics 0 [1, 2]).map (fun b => [b])).flatten.length 0 99).map
          (fun r => r.2) :=
  C2_chunking_independence demo_allocator demo_statics 0 0 99 demo_instance
    ((built_frame demo_statics 0 [1, 2]).map (fun b => [b])) (by decide)

/-! ## C4: payload corruption -/

theorem flip_bit_split (P : List Nat) (i j : Nat) (hi : i < P.length) :
    P = P.take i ++ P.getD i 0 :: P.drop (i + 1) ∧
    flip_bit P i j = P.take i ++ (P.getD i 0 ^^^ (1 <<< j)) :: P.drop (i + 1) := by
  constructor
  · rw [List.getD_eq_getElem _ _ hi, ← List.drop_eq_getElem_cons hi, List.take_append_drop]
  · exact List.set_eq_take_cons_drop _ hi

theorem flip_bit_length (P : List Nat) (i j : Nat) : (flip_bit P i j).length = P.length := by
  simp [flip_bit]

theorem flip_byte (x j : Nat) (hx : x < 256) (hj : j < 8) :
    x ^^^ (1 <<< j) < 256 ∧ x ^^^ (1 <<< j) ≠ x := by
  have h1 : 1 <<< j < 2 ^ 8 := by
    rw [Nat.shiftLeft_eq, Nat.one_mul]
    exact Nat.pow_lt_pow_right (by decide) hj
  constructor
  · exact Nat.xor_lt_two_pow (show x < 2 ^ 8 by omega) h1
  · intro h
    have h0 : x ^^^ (1 <<< j) = x ^^^ 0 := by rw [h, Nat.xor_zero]
    have := Nat.xor_right_inj.mp h0
    rw [Nat.shiftLeft_eq, Nat.one_mul] at this
    have hpos : 0 < 2 ^ j := Nat.two_pow_pos j
    omega

/-- Flipping one bit of one byte of the data changes the CRC. -/
theorem flip_bit_crc (P : List Nat) (i j s : Nat) (hi : i < P.length)
    (hx : P.getD i 0 < 256) (hj : j < 8) (hs : s < 65536) :
    (flip_bit P i j).foldl crc_update s ≠ P.foldl crc_update s := by
  obtain ⟨h1, h2⟩ := flip_bit_split P i j hi
  obtain ⟨h3, h4⟩ := flip_byte _ j hx hj
  rw [h2]
  conv => rhs; rhs; rw [h1]
  exact crc_detects_byte_change _ _ _ _ s hs h3 hx h4

theorem flip_bit_append_right (hdr P : List Nat) (i j : Nat) :
    flip_bit (hdr ++ P) (hdr.length + i) j = hdr ++ flip_bit P i j := by
  unfold flip_bit
  rw [List.getD_append_right _ _ _ _ (by omega), List.set_append_right _ _ (by omega)]
  simp

theorem flip_bit_append_left (hdr P : List Nat) (i j : Nat) (hi : i < hdr.length) :
    flip_bit (hdr ++ P) i j = flip_bit hdr i j ++ P := by
  unfold flip_bit
  rw [List.getD_append _ _ _ _ hi, List.set_append_left _ _ hi]

/-- C4 (amended): for every payload `P` of 1 to 65535 bytes and every bit `j` of every
payload byte `i`, the frame built for `P` with that one bit flipped, fed whole to the
matching instance in its initial parse state with the allocation of the receive buffer
succeeding, makes the handler receive `RS_PACKET_PREAMBLE_RECEIVED` and then
`RS_PACKET_ERROR_DATA_CRC`, and never `RS_PACKET_VALID_DATA`. -/
theorem C4_payload_corruption_detected (A : allocator_t) (g : rs_protocol_statics)
    (k h source : Nat) (rsp : rs_protocol_data_t) (P : List Nat) (i j : Nat)
    (hv : valid_handle g h rsp) (hinit : initial_parse_state rsp) (hbytes : all_bytes P)
    (hn : P.length ≤ 65535) (hi : i < P.length) (hj : j < 8)
    (halloc : A.succeeds k P.length = true) :
    ∃ rsp1 ev, rsp1.state = RS_HEADER_BYTE_1 ∧
      rs_protocol_process_data A g k (flip_bit (built_frame g h P) (8 + i) j)
          (flip_bit (built_frame g h P) (8 + i) j).length h source
        = some (0, update_instance g h rsp1, k + 1, ev) ∧
      ev = [event_t.callback rsp.message_received_cb none RS_PACKET_PREAMBLE_RECEIVED
              source,
            event_t.malloc P.length (some (fresh_buffer A k P.length)),
            event_t.callback rsp.message_received_cb none RS_PACKET_ERROR_DATA_CRC
              source] ∧
      handler_calls ev
        = [(none, RS_PACKET_PREAMBLE_RECEIVED), (none, RS_PACKET_ERROR_DATA_CRC)] ∧
      valid_data ev = [] := by
  obtain ⟨hst, hsb, hlen⟩ := hinit
  have hx : P.getD i 0 < 256 := by
    rw [List.getD_eq_getElem _ _ hi]
    exact hbytes _ (List.getElem_mem hi)
  have hne := flip_bit_crc P i j 0 hi hx hj (by decide)
  have hQ : flip_bit P i j ≠ [] := by
    intro h0
    have := flip_bit_length P i j
    rw [h0] at this
    simp at this
    omega
  obtain ⟨rsp1, hdr, h1, _, _, _, _, h6, h7, _⟩ :=
    process_built_header A source rsp k P (flip_bit P i j) hst hsb hlen hn
      (flip_bit_length P i j) hQ halloc
  have hl : hdr.length = 8 := by rw [h6]; simp [frame_header]
  refine ⟨rsp1, _, h1, ?_, rfl, rfl, rfl⟩
  rw [process_data_valid A g k _ h source rsp hv, built_frame_eq g h rsp P hv hn, ← h6,
    ← hl, flip_bit_append_right, h7, if_neg hne]
  rfl

/-- Witness for C4: payload `[1, 2, 3]`, bit 7 of its second byte flipped. -/
theorem C4_payload_corruption_detected_witness :
    ∃ rsp1 ev, rsp1.state = RS_HEADER_BYTE_1 ∧
      rs_protocol_process_data demo_allocator demo_statics 0
          (flip_bit (built_frame demo_statics 0 [1, 2, 3]) (8 + 1) 7)
          (flip_bit (built_frame demo_statics 0 [1, 2, 3]) (8 + 1) 7).length 0 99
        = some (0, update_instance demo_statics 0 rsp1, 0 + 1, ev) ∧
      ev = [event_t.callback demo_instance.message_received_cb none
              RS_PACKET_PREAMBLE_RECEIVED 99,
            event_t.malloc [1, 2, 3].length
              (some (fresh_buffer demo_allocator 0 [1, 2, 3].length)),
            event_t.callback demo_instance.message_received_cb none
              RS_PACKET_ERROR_DATA_CRC 99] ∧
      handler_calls ev
        = [(none, RS_PACKET_PREAMBLE_RECEIVED), (none, RS_PACKET_ERROR_DATA_CRC)] ∧
      valid_data ev = [] :=
  C4_payload_corruption_detected demo_allocator demo_statics 0 0 99 demo_instance [1, 2, 3]
    1 7 (by decide) (by decide) (by decide) (by decide) (by decide) (by decide) rfl

/-- C4 (counterexample): the frame built for `[1]` with bit 0 of its payload byte flipped,
fed to the matching instance in its initial parse state when the allocation of the
receive buffer fails: the handler receives `RS_PACKET_PREAMBLE_RECEIVED` and
`RS_PACKET_ERROR_PACKET_LENGTH`, and no `RS_PACKET_ERROR_DATA_CRC`. -/
theorem C4_counterexample_allocation_fails :
    flip_bit (built_frame demo_statics 0 [1]) 8 0
      = [0xAA, 0x55, 0, 1, 0x10, 0x21, 0x51, 0x4f, 0] ∧
    (rs_protocol_process_data failing_allocator demo_statics 0
        (flip_bit (built_frame demo_statics 0 [1]) 8 0) 9 0 99).map
        (fun r => handler_calls r.2.2.2)
      = some [(none, RS_PACKET_PREAMBLE_RECEIVED), (none, RS_PACKET_ERROR_PACKET_LENGTH)] := by
  constructor <;> decide

/-! ## The loop never dereferences a NULL receive buffer -/

/-- One byte, from a state where `RS_DATA` has a receive buffer: the step is defined and
the property holds again. -/
theorem process_byte_total (A : allocator_t) (source : Nat) (rsp : rs_protocol_data_t)
    (k c : Nat) (hinv : rsp.state = RS_DATA → rsp.sb ≠ none) :
    ∃ rsp1 k1 ev, process_byte A source rsp k c = some (rsp1, k1, ev) ∧
      (rsp1.state = RS_DATA → rsp1.sb ≠ none) ∧
      rsp1.header_byte_1 = rsp.header_byte_1 ∧ rsp1.header_byte_2 = rsp.header_byte_2 ∧
      rsp1.message_received_cb = rsp.message_received_cb ∧
      rsp1.header_buf.length = rsp.header_buf.length := by
  obtain ⟨cb, hb, sb, len, crc, st, p1, p2⟩ := rsp
  simp only at hinv
  cases st
  case RS_DATA =>
    cases sb with
    | none => exact absurd rfl (hinv rfl)
    | some sb0 =>
      simp only [process_byte]
      split
      · split <;> exact ⟨_, _, _, rfl, by simp, rfl, rfl, rfl, rfl⟩
      · exact ⟨_, _, _, rfl, by simp, rfl, rfl, rfl, rfl⟩
  case RS_HEADER_CRC_BYTE_2 =>
    simp only [process_byte]
    split
    · cases hm : safebuffer_malloc A k len with
      | none => exact ⟨_, _, _, rfl, by simp, rfl, rfl, rfl, by simp⟩
      | some new => exact ⟨_, _, _, rfl, by simp, rfl, rfl, rfl, by simp⟩
    · exact ⟨_, _, _, rfl, by simp, rfl, rfl, rfl, rfl⟩
  case RS_HEADER_BYTE_1 =>
    simp only [process_byte]
    split <;> exact ⟨_, _, _, rfl, by simp, rfl, rfl, rfl, rfl⟩
  case RS_HEADER_BYTE_2 =>
    simp only [process_byte]
    split
    · exact ⟨_, _, _, rfl, by simp, rfl, rfl, rfl, rfl⟩
    · split <;> exact ⟨_, _, _, rfl, by simp, rfl, rfl, rfl, rfl⟩
  all_goals exact ⟨_, _, _, rfl, by simp, rfl, rfl, rfl, by simp⟩

/-- From a state where `RS_DATA` has a receive buffer, the loop is defined on every
input. -/
theorem process_bytes_total (A : allocator_t) (source : Nat) (data : List Nat)
    (rsp : rs_protocol_data_t) (k : Nat) (hinv : rsp.state = RS_DATA → rsp.sb ≠ none) :
    ∃ rsp1 k1 ev, process_bytes A source rsp k data = some (rsp1, k1, ev) ∧
      (rsp1.state = RS_DATA → rsp1.sb ≠ none) := by
  induction data generalizing rsp k with
  | nil => exact ⟨rsp, k, [], rfl, hinv⟩
  | cons c cs ih =>
    obtain ⟨r1, k1, e1, h1, h2, _⟩ := process_byte_total A source rsp k c hinv
    obtain ⟨r2, k2, e2, h3, h4⟩ := ih r1 k1 h2
    exact ⟨r2, k2, e1 ++ e2, by simp only [process_bytes, h1, h3], h4⟩

/-! ## C5: header corruption -/

theorem process_data_valid_len (A : allocator_t) (g : rs_protocol_statics) (k : Nat)
    (data : List Nat) (len h source : Nat) (rsp : rs_protocol_data_t)
    (hv : valid_handle g h rsp) :
    rs_protocol_process_data A g k data len h source
      = (process_bytes A source rsp k (data.take len)).map
          (fun r => (0, update_instance g h r.1, r.2.1, r.2.2)) := by
  obtain ⟨h1, _, h3⟩ := hv
  have hnot : ¬ (h ≥ g.rs_protocol_num_instances) := by omega
  unfold rs_protocol_process_data
  rw [if_neg hnot, h3]
  simp only
  cases process_bytes A source rsp k (data.take len) with
  | none => rfl
  | some r => obtain ⟨r1, r2, r3⟩ := r; rfl

theorem malloc_sizes_append (e1 e2 : List event_t) :
    malloc_sizes (e1 ++ e2) = malloc_sizes e1 ++ malloc_sizes e2 := by
  induction e1 with
  | nil => rfl
  | cons e es ih => cases e <;> simp [malloc_sizes, ih]

theorem flip_byte_ne (x j : Nat) : x ^^^ (1 <<< j) ≠ x := by
  intro h
  have h0 : x ^^^ (1 <<< j) = x ^^^ 0 := by rw [h, Nat.xor_zero]
  have := Nat.xor_right_inj.mp h0
  rw [Nat.shiftLeft_eq, Nat.one_mul] at this
  have hpos : 0 < 2 ^ j := Nat.two_pow_pos j
  omega

/-- One byte, at least two bytes before a header CRC can be compared: the allocator is
not asked, the handler receives at most `RS_PACKET_PREAMBLE_RECEIVED`, and the instance
is at most one byte closer to the comparison. -/
theorem quiet_step (A : allocator_t) (source : Nat) (rsp : rs_protocol_data_t)
    (k c : Nat) (hd : 2 ≤ bytes_to_header_end rsp.state) :
    ∃ r1 ev, process_byte A source rsp k c = some (r1, k, ev) ∧
      bytes_to_header_end rsp.state ≤ bytes_to_header_end r1.state + 1 ∧
      malloc_sizes ev = [] ∧
      ∀ fn sb t s, event_t.callback fn sb t s ∈ ev → t = RS_PACKET_PREAMBLE_RECEIVED := by
  obtain ⟨cb, hb, sb, len, crc, st, p1, p2⟩ := rsp
  cases st
  case RS_HEADER_BYTE_1 =>
    simp only [process_byte]
    split <;>
      exact ⟨_, _, rfl, by simp [bytes_to_header_end], rfl, fun _ _ _ _ hm => by simp at hm⟩
  case RS_HEADER_BYTE_2 =>
    simp only [process_byte]
    split
    · exact ⟨_, _, rfl, by simp [bytes_to_header_end], rfl,
        fun _ _ _ _ hm => by simp at hm; exact hm.2.2.1⟩
    · split <;>
        exact ⟨_, _, rfl, by simp [bytes_to_header_end], rfl,
          fun _ _ _ _ hm => by simp at hm⟩
  case RS_HEADER_CRC_BYTE_2 => simp [bytes_to_header_end] at hd
  case RS_DATA => simp [bytes_to_header_end] at hd
  all_goals
    exact ⟨_, _, rfl, by simp [bytes_to_header_end], rfl, fun _ _ _ _ hm => by simp at hm⟩

/-- Fewer bytes than are needed before a header CRC can be compared: the allocator is not
asked and the handler receives at most `RS_PACKET_PREAMBLE_RECEIVED`. -/
theorem quiet_run (A : allocator_t) (source : Nat) (data : List Nat)
    (rsp : rs_protocol_data_t) (k : Nat)
    (hd : data.length < bytes_to_header_end rsp.state) :
    ∃ r1 ev, process_bytes A source rsp k data = some (r1, k, ev) ∧
      malloc_sizes ev = [] ∧
      ∀ fn sb t s, event_t.callback fn sb t s ∈ ev → t = RS_PACKET_PREAMBLE_RECEIVED := by
  induction data generalizing rsp with
  | nil => exact ⟨rsp, [], rfl, rfl, fun _ _ _ _ hm => by simp at hm⟩
  | cons c cs ih =>
    simp only [List.length_cons] at hd
    obtain ⟨r1, e1, s1, s2, s3, s4⟩ := quiet_step A source rsp k c (by omega)
    obtain ⟨r2, e2, t1, t2, t3⟩ := ih r1 (by omega)
    refine ⟨r2, e1 ++ e2, by simp only [process_bytes, s1, t1], ?_, ?_⟩
    · rw [malloc_sizes_append, s3, t2]; rfl
    · intro fn sb t s hm
      rcases List.mem_append.mp hm with hm | hm
      · exact s4 fn sb t s hm
      · exact t3 fn sb t s hm

/-- Eight bytes of which the first is not the first preamble byte, or the first is and
the second is not the second preamble byte, received by an instance that seeks the
preamble: the allocator is not asked and the handler receives at most
`RS_PACKET_PREAMBLE_RECEIVED`. -/
theorem process_header_broken_preamble (A : allocator_t) (source : Nat)
    (rsp : rs_protocol_data_t) (k x y : Nat) (rest : List Nat)
    (hst : rsp.state = RS_HEADER_BYTE_1) (hrest : rest.length = 6)
    (hxy : x ≠ rsp.header_byte_1 ∨ (x = rsp.header_byte_1 ∧ y ≠ rsp.header_byte_2)) :
    ∃ r1 ev, process_bytes A source rsp k (x :: y :: rest) = some (r1, k, ev) ∧
      malloc_sizes ev = [] ∧
      ∀ fn sb t s, event_t.callback fn sb t s ∈ ev → t = RS_PACKET_PREAMBLE_RECEIVED := by
  obtain ⟨cb, hb, sb, len, crc, st, p1, p2⟩ := rsp
  simp only at hst hxy
  subst hst
  rcases hxy with hx | ⟨hx, hy⟩
  · obtain ⟨r1, ev, h1, h2, h3⟩ := quiet_run A source (y :: rest)
      ⟨cb, hb, sb, len, crc, RS_HEADER_BYTE_1, p1, p2⟩ k
      (by simp [bytes_to_header_end, hrest])
    refine ⟨r1, ev, ?_, h2, h3⟩
    have hstep : process_byte A source ⟨cb, hb, sb, len, crc, RS_HEADER_BYTE_1, p1, p2⟩ k x
        = some (⟨cb, hb, sb, len, crc, RS_HEADER_BYTE_1, p1, p2⟩, k, []) := by
      simp [process_byte, hx]
    rw [process_bytes, hstep]
    simp only [h1, List.nil_append]
  · subst hx
    have hstep1 : process_byte A source ⟨cb, hb, sb, len, crc, RS_HEADER_BYTE_1, x, p2⟩ k x
        = some (⟨cb, hb, sb, len, crc, RS_HEADER_BYTE_2, x, p2⟩, k, []) := by
      simp [process_byte]
    by_cases hyx : y = x
    · subst hyx
      have hstep2 : process_byte A source ⟨cb, hb, sb, len, crc, RS_HEADER_BYTE_2, y, p2⟩
          k y = some (⟨cb, hb, sb, len, crc, RS_HEADER_BYTE_2, y, p2⟩, k, []) := by
        simp [process_byte, hy]
      obtain ⟨r1, ev, h1, h2, h3⟩ := quiet_run A source rest
        ⟨cb, hb, sb, len, crc, RS_HEADER_BYTE_2, y, p2⟩ k
        (by simp [bytes_to_header_end, hrest])
      refine ⟨r1, ev, ?_, h2, h3⟩
      rw [process_bytes, hstep1]
      simp only
      rw [process_bytes, hstep2]
      simp only [h1, List.nil_append]
    · have hstep2 : process_byte A source ⟨cb, hb, sb, len, crc, RS_HEADER_BYTE_2, x, p2⟩
          k y = some (⟨cb, hb, sb, len, crc, RS_HEADER_BYTE_1, x, p2⟩, k, []) := by
        simp [process_byte, hy, hyx]
      obtain ⟨r1, ev, h1, h2, h3⟩ := quiet_run A source rest
        ⟨cb, hb, sb, len, crc, RS_HEADER_BYTE_1, x, p2⟩ k
        (by simp [bytes_to_header_end, hrest])
      refine ⟨r1, ev, ?_, h2, h3⟩
      rw [process_bytes, hstep1]
      simp only
      rw [process_bytes, hstep2]
      simp only [h1, List.nil_append]

/-- C5 (amended): for every built frame, fed to the matching instance in its initial
parse state with one bit flipped. For every bit `j` of the bytes 2 to 5 of its header
(length high/low, data CRC high/low): once the 8 header bytes are in, the handler has
received `RS_PACKET_PREAMBLE_RECEIVED` and `RS_PACKET_ERROR_HEADER_CRC`, nothing has been
requested from the allocator, there is no receive buffer and the instance seeks the first
preamble byte again; the payload bytes that follow are processed from that state like any
other input, and the trace of the whole frame is those two handler calls followed by the
trace of the payload bytes. For every bit `j` of the two preamble bytes (byte `i0`): while
the 8 header bytes come in, nothing is requested from the allocator and the handler
receives no `RS_PACKET_ERROR_HEADER_CRC`, only `RS_PACKET_PREAMBLE_RECEIVED` if anything. -/
theorem C5_header_corruption_detected (A : allocator_t) (g : rs_protocol_statics)
    (k h source : Nat) (rsp : rs_protocol_data_t) (P : List Nat) (i j i0 : Nat)
    (hv : valid_handle g h rsp) (hinit : initial_parse_state rsp)
    (hn : P.length ≤ 65535) (hi2 : 2 ≤ i) (hi6 : i < 6) (hj : j < 8) (hi0 : i0 < 2) :
    (∃ rsp1, rsp1.state = RS_HEADER_BYTE_1 ∧ rsp1.sb = none ∧
      rs_protocol_process_data A g k (flip_bit (built_frame g h P) i j) 8 h source
        = some (0, update_instance g h rsp1, k,
            [event_t.callback rsp.message_received_cb none RS_PACKET_PREAMBLE_RECEIVED
               source,
             event_t.callback rsp.message_received_cb none RS_PACKET_ERROR_HEADER_CRC
               source]) ∧
      ∃ g2 k2 ev,
        rs_protocol_process_data A (update_instance g h rsp1) k P P.length h source
          = some (0, g2, k2, ev) ∧
        rs_protocol_process_data A g k (flip_bit (built_frame g h P) i j)
            (flip_bit (built_frame g h P) i j).length h source
          = some (0, g2, k2,
              [event_t.callback rsp.message_received_cb none RS_PACKET_PREAMBLE_RECEIVED
                 source,
               event_t.callback rsp.message_received_cb none RS_PACKET_ERROR_HEADER_CRC
                 source] ++ ev)) ∧
    (∃ rsp2 ev0,
      rs_protocol_process_data A g k (flip_bit (built_frame g h P) i0 j) 8 h source
        = some (0, update_instance g h rsp2, k, ev0) ∧
      malloc_sizes ev0 = [] ∧
      ∀ fn sb t s, event_t.callback fn sb t s ∈ ev0 → t = RS_PACKET_PREAMBLE_RECEIVED) := by
  obtain ⟨hst, hsb, hlen⟩ := hinit
  have hd : calculate_CRC16 (some P) P.length 0 < 65536 :=
    calculate_CRC16_lt _ _ _ (by decide)
  generalize hD : calculate_CRC16 (some P) P.length 0 = D at hd
  have hh : calculate_CRC16 (some [rsp.header_byte_1, rsp.header_byte_2, P.length >>> 8,
      P.length &&& 0xff, D >>> 8, D &&& 0xff]) 6 0 < 65536 :=
    calculate_CRC16_lt _ _ _ (by decide)
  generalize hH : calculate_CRC16 (some [rsp.header_byte_1, rsp.header_byte_2,
      P.length >>> 8, P.length &&& 0xff, D >>> 8, D &&& 0xff]) 6 0 = H at hh
  have hF : built_frame g h P
      = [rsp.header_byte_1, rsp.header_byte_2, P.length >>> 8, P.length &&& 0xff,
         D >>> 8, D &&& 0xff, H >>> 8, H &&& 0xff] ++ P := by
    rw [built_frame_eq g h rsp P hv hn, hD]
    simp [frame_header, HEADER_CRC_CALC_SIZE, hH]
  have ha : P.length >>> 8 < 256 := by rw [Nat.shiftRight_eq_div_pow]; omega
  have hb : P.length &&& 0xff < 256 := by rw [lo_byte_eq]; omega
  have hc : D >>> 8 < 256 := by rw [Nat.shiftRight_eq_div_pow]; omega
  have hdl : D &&& 0xff < 256 := by rw [lo_byte_eq]; omega
  constructor
  · -- the six header bytes and their CRC
    have hsix : ∀ a b c d, calculate_CRC16 (some [rsp.header_byte_1, rsp.header_byte_2, a,
        b, c, d]) 6 0
        = [rsp.header_byte_1, rsp.header_byte_2, a, b, c, d].foldl crc_update 0 := by
      intro a b c d; simp [calculate_CRC16]
    have hflip : ∃ a b c d,
        flip_bit (built_frame g h P) i j
          = [rsp.header_byte_1, rsp.header_byte_2, a, b, c, d, H >>> 8, H &&& 0xff] ++ P ∧
        ((H >>> 8) <<< 8) % 65536 ||| (H &&& 0xff)
          ≠ calculate_CRC16 (some [rsp.header_byte_1, rsp.header_byte_2, a, b, c, d]) 6 0 := by
      have hcrc := fun hx => flip_bit_crc [rsp.header_byte_1, rsp.header_byte_2,
        P.length >>> 8, P.length &&& 0xff, D >>> 8, D &&& 0xff] i j 0
        (by simpa using hi6) hx hj (by decide)
      rw [hF, flip_bit_append_left _ _ _ _ (by simpa using (by omega : i < 8)),
        be16_split_join_raw H hh, ← hH, hsix]
      have hcases : i = 2 ∨ i = 3 ∨ i = 4 ∨ i = 5 := by omega
      rcases hcases with rfl | rfl | rfl | rfl
      · exact ⟨_, _, _, _, rfl, fun e => hcrc (by simpa using ha) (by rw [e, hsix]; rfl)⟩
      · exact ⟨_, _, _, _, rfl, fun e => hcrc (by simpa using hb) (by rw [e, hsix]; rfl)⟩
      · exact ⟨_, _, _, _, rfl, fun e => hcrc (by simpa using hc) (by rw [e, hsix]; rfl)⟩
      · exact ⟨_, _, _, _, rfl, fun e => hcrc (by simpa using hdl) (by rw [e, hsix]; rfl)⟩
    obtain ⟨a, b, c, d, hfl, hmis⟩ := hflip
    have hrun := process_header_mismatch A source rsp k a b c d (H >>> 8) (H &&& 0xff) hst
      hlen hmis
    generalize hR : ({ rsp with
        state := RS_HEADER_BYTE_1
        len := ((a <<< 8) % 65536) ||| b
        crc := (((H >>> 8) <<< 8) % 65536) ||| (H &&& 0xff)
        header_buf := [rsp.header_byte_1, rsp.header_byte_2, a, b, c, d]
          ++ rsp.header_buf.drop 6 } : rs_protocol_data_t) = rsp1 at hrun
    have hst1 : rsp1.state = RS_HEADER_BYTE_1 := by rw [← hR]
    have hsb1 : rsp1.sb = none := by rw [← hR]; exact hsb
    have hcb1 : rsp1.message_received_cb = rsp.message_received_cb := by rw [← hR]
    obtain ⟨r2, k2, ev, hP, _⟩ := process_bytes_total A source P rsp1 k
      (by rw [hst1]; intro h0; cases h0)
    have hv1 := update_instance_valid g h rsp rsp1 hv
    refine ⟨rsp1, hst1, hsb1, ?_, update_instance g h r2, k2, ev, ?_, ?_⟩
    · rw [process_data_valid_len A g k _ 8 h source rsp hv, hfl]
      simp only [List.take_append_of_le_length, List.length_cons, List.length_nil,
        Nat.le_refl, List.take_succ_cons, List.take_zero]
      rw [hrun]; rfl
    · rw [process_data_valid A _ k P h source rsp1 hv1, hP]
      simp [update_instance_twice]
    · rw [process_data_valid A g k _ h source rsp hv, hfl, process_bytes_append, hrun]
      simp only [hP]
      rfl
  · have hcases : i0 = 0 ∨ i0 = 1 := by omega
    have hfl : ∃ x y, flip_bit (built_frame g h P) i0 j
          = x :: y :: [P.length >>> 8, P.length &&& 0xff, D >>> 8, D &&& 0xff, H >>> 8,
              H &&& 0xff] ++ P ∧
        (x ≠ rsp.header_byte_1 ∨ (x = rsp.header_byte_1 ∧ y ≠ rsp.header_byte_2)) := by
      rw [hF, flip_bit_append_left _ _ _ _ (by simpa using (by omega : i0 < 8))]
      rcases hcases with rfl | rfl
      · exact ⟨_, _, rfl, Or.inl (flip_byte_ne _ j)⟩
      · exact ⟨_, _, rfl, Or.inr ⟨rfl, flip_byte_ne _ j⟩⟩
    obtain ⟨x, y, hfl, hxy⟩ := hfl
    obtain ⟨r1, ev0, hrun, hm, hcb⟩ := process_header_broken_preamble A source rsp k x y
      [P.length >>> 8, P.length &&& 0xff, D >>> 8, D &&& 0xff, H >>> 8, H &&& 0xff] hst rfl
      hxy
    refine ⟨r1, ev0, ?_, hm, hcb⟩
    rw [process_data_valid_len A g k _ 8 h source rsp hv, hfl]
    simp only [List.cons_append, List.take_succ_cons, List.nil_append, List.take_zero]
    rw [hrun]; rfl

/-- Witness for C5: payload `[1, 2, 3]`, bit 2 of the low length byte flipped, and bit 2
of the first preamble byte flipped. -/
theorem C5_header_corruption_detected_witness :
    (∃ rsp1, rsp1.state = RS_HEADER_BYTE_1 ∧ rsp1.sb = none ∧
      rs_protocol_process_data demo_allocator demo_statics 0
          (flip_bit (built_frame demo_statics 0 [1, 2, 3]) 3 2) 8 0 99
        = some (0, update_instance demo_statics 0 rsp1, 0,
            [event_t.callback demo_instance.message_received_cb none
               RS_PACKET_PREAMBLE_RECEIVED 99,
             event_t.callback demo_instance.message_received_cb none
               RS_PACKET_ERROR_HEADER_CRC 99]) ∧
      ∃ g2 k2 ev,
        rs_protocol_process_data demo_allocator (update_instance demo_statics 0 rsp1) 0
            [1, 2, 3] [1, 2, 3].length 0 99
          = some (0, g2, k2, ev) ∧
        rs_protocol_process_data demo_allocator demo_statics 0
            (flip_bit (built_frame demo_statics 0 [1, 2, 3]) 3 2)
            (flip_bit (built_frame demo_statics 0 [1, 2, 3]) 3 2).length 0 99
          = some (0, g2, k2,
              [event_t.callback demo_instance.message_received_cb none
                 RS_PACKET_PREAMBLE_RECEIVED 99,
               event_t.callback demo_instance.message_received_cb none
                 RS_PACKET_ERROR_HEADER_CRC 99] ++ ev)) ∧
    (∃ rsp2 ev0,
      rs_protocol_process_data demo_allocator demo_statics 0
          (flip_bit (built_frame demo_statics 0 [1, 2, 3]) 0 2) 8 0 99
        = some (0, update_instance demo_statics 0 rsp2, 0, ev0) ∧
      malloc_sizes ev0 = [] ∧
      ∀ fn sb t s, event_t.callback fn sb t s ∈ ev0 → t = RS_PACKET_PREAMBLE_RECEIVED) :=
  C5_header_corruption_detected demo_allocator demo_statics 0 0 99 demo_instance [1, 2, 3]
    3 2 0 (by decide) (by decide) (by decide) (by decide) (by decide) (by decide)
    (by decide)

/-- C5 (counterexample), on the matching instance in its initial parse state. First, the
frame built for the empty payload with bit 0 of its first preamble byte flipped: the
handler is never invoked, so it receives no `RS_PACKET_ERROR_HEADER_CRC`. Second, the
frame built for a payload that is itself a built frame (for `[1]`), with bit 0 of the
high data-CRC byte flipped: after `RS_PACKET_ERROR_HEADER_CRC` the payload bytes are
scanned, a receive buffer of 1 byte is allocated and `[1]` is delivered. -/
theorem C5_counterexample_preamble_and_payload :
    (rs_protocol_process_data demo_allocator demo_statics 0
        (flip_bit (built_frame demo_statics 0 []) 0 0) 8 0 99).map
        (fun r => handler_calls r.2.2.2) = some [] ∧
    (rs_protocol_process_data demo_allocator demo_statics 0
        (flip_bit (built_frame demo_statics 0 (built_frame demo_statics 0 [1])) 4 0)
        17 0 99).map (fun r => (handler_calls r.2.2.2, malloc_sizes r.2.2.2))
      = some ([(none, RS_PACKET_PREAMBLE_RECEIVED), (none, RS_PACKET_ERROR_HEADER_CRC),
               (none, RS_PACKET_PREAMBLE_RECEIVED),
               (some { buf := [1], write_index := 1, len := 1, full := false,
                       p_gp := some [0xAA, 0x55, 0, 1, 0x10, 0x21, 0x51, 0x4f] },
                RS_PACKET_VALID_DATA)], [1]) := by
  constructor <;> decide

theorem shl8_mod (c : Nat) (hc : c < 256) : (c <<< 8) % 65536 = c <<< 8 := by
  rw [Nat.shiftLeft_eq]; omega

/-- One byte keeps `header_trail`. -/
theorem header_trail_step (A : allocator_t) (source : Nat) (rsp : rs_protocol_data_t)
    (k c : Nat) (pre : List Nat) (hlen : rsp.header_buf.length = 8)
    (htr : header_trail pre rsp) (hc : c < 256) :
    ∃ rsp1 k1 ev, process_byte A source rsp k c = some (rsp1, k1, ev) ∧
      rsp1.header_buf.length = 8 ∧ rsp1.header_byte_1 = rsp.header_byte_1 ∧
      rsp1.header_byte_2 = rsp.header_byte_2 ∧ header_trail (pre ++ [c]) rsp1 := by
  obtain ⟨cb, hb, sb, len, crc, st, p1, p2⟩ := rsp
  simp only at hlen
  obtain ⟨h0, h1, h2, h3, h4, h5, h6, h7, rfl⟩ := length_eight hb hlen
  cases st
  case RS_HEADER_BYTE_1 =>
    simp only [process_byte]
    split <;> exact ⟨_, _, _, rfl, rfl, rfl, rfl, trivial⟩
  case RS_HEADER_BYTE_2 =>
    simp only [process_byte]
    split
    · exact ⟨_, _, _, rfl, rfl, rfl, rfl, trivial⟩
    · split <;> exact ⟨_, _, _, rfl, rfl, rfl, rfl, trivial⟩
  case RS_LEN_BYTE_1 =>
    exact ⟨_, _, _, rfl, rfl, rfl, rfl, pre, c, rfl, rfl, shl8_mod c hc⟩
  case RS_LEN_BYTE_2 =>
    obtain ⟨pre0, a, e1, e2, e3⟩ := htr
    simp only [List.take_succ_cons, List.take_zero, List.cons.injEq, and_true] at e2 e3
    obtain ⟨rfl, rfl, rfl⟩ := e2
    subst e1 e3
    exact ⟨_, _, _, rfl, rfl, rfl, rfl, pre0, h2, c, by simp, rfl, rfl⟩
  case RS_DATA_CRC_BYTE_1 =>
    obtain ⟨pre0, a, b, e1, e2, e3⟩ := htr
    simp only [List.take_succ_cons, List.take_zero, List.cons.injEq, and_true] at e2 e3
    obtain ⟨rfl, rfl, rfl, rfl⟩ := e2
    subst e1 e3
    exact ⟨_, _, _, rfl, rfl, rfl, rfl, pre0, h2, h3, c, by simp, rfl, rfl⟩
  case RS_DATA_CRC_BYTE_2 =>
    obtain ⟨pre0, a, b, x, e1, e2, e3⟩ := htr
    simp only [List.take_succ_cons, List.take_zero, List.cons.injEq, and_true] at e2 e3
    obtain ⟨rfl, rfl, rfl, rfl, rfl⟩ := e2
    subst e1 e3
    exact ⟨_, _, _, rfl, rfl, rfl, rfl, pre0, h2, h3, h4, c, by simp, rfl, rfl⟩
  case RS_HEADER_CRC_BYTE_1 =>
    obtain ⟨pre0, a, b, x, y, e1, e2, e3⟩ := htr
    simp only [List.take_succ_cons, List.take_zero, List.cons.injEq, and_true] at e2 e3
    obtain ⟨rfl, rfl, rfl, rfl, rfl, rfl⟩ := e2
    subst e1 e3
    exact ⟨_, _, _, rfl, rfl, rfl, rfl, pre0, h2, h3, h4, h5, c, by simp, rfl, rfl,
      shl8_mod c hc⟩
  case RS_HEADER_CRC_BYTE_2 =>
    simp only [process_byte]
    split
    · cases hm : safebuffer_malloc A k len with
      | none => exact ⟨_, _, _, rfl, rfl, rfl, rfl, trivial⟩
      | some new => exact ⟨_, _, _, rfl, rfl, rfl, rfl, by simp [header_trail]⟩
    · exact ⟨_, _, _, rfl, rfl, rfl, rfl, trivial⟩
  case RS_DATA =>
    cases sb with
    | none => exact absurd rfl htr
    | some sb0 =>
      simp only [process_byte]
      split
      · split <;> exact ⟨_, _, _, rfl, rfl, rfl, rfl, trivial⟩
      · exact ⟨_, _, _, rfl, rfl, rfl, rfl, by simp [header_trail]⟩

/-- A run keeps `header_trail`. -/
theorem header_trail_run (A : allocator_t) (source : Nat) (data : List Nat)
    (rsp : rs_protocol_data_t) (k : Nat) (pre : List Nat)
    (hlen : rsp.header_buf.length = 8) (htr : header_trail pre rsp)
    (hbytes : all_bytes data) :
    ∃ rsp1 k1 ev, process_bytes A source rsp k data = some (rsp1, k1, ev) ∧
      rsp1.header_buf.length = 8 ∧ rsp1.header_byte_1 = rsp.header_byte_1 ∧
      rsp1.header_byte_2 = rsp.header_byte_2 ∧ header_trail (pre ++ data) rsp1 := by
  induction data generalizing rsp k pre with
  | nil => exact ⟨rsp, k, [], rfl, hlen, rfl, rfl, by simpa using htr⟩
  | cons c cs ih =>
    obtain ⟨r1, k1, e1, s1, s2, s3, s4, s5⟩ :=
      header_trail_step A source rsp k c pre hlen htr (hbytes c (List.mem_cons_self c cs))
    obtain ⟨r2, k2, e2, t1, t2, t3, t4, t5⟩ := ih r1 k1 (pre ++ [c]) s2 s5
      (fun b hb => hbytes b (List.mem_cons_of_mem c hb))
    refine ⟨r2, k2, e1 ++ e2, by simp only [process_bytes, s1, t1], t2, t3.trans s3,
      t4.trans s4, ?_⟩
    simpa using t5

/-! ## C9: allocation is gated by the header CRC -/

/-- C9: in every run of the receive loop from the initial parse state over any bytes
`pre`, followed by one more byte `c`: the step for `c` is defined, and it requests memory
from the allocator only when the instance waits for the second header-CRC byte and the
two header-CRC bytes received (`c1`, then `c`) equal `calculate_CRC16` of the six staged
header bytes with start 0; the size requested is then the big-endian length in the staged
bytes 2-3, which are the bytes `a`, `b` received after the preamble. When they differ,
the handler receives `RS_PACKET_ERROR_HEADER_CRC`, nothing is requested from the
allocator, the receive buffer pointer is unchanged and the state returns to
`RS_HEADER_BYTE_1`. -/
theorem C9_allocation_gated_by_header_crc (A : allocator_t) (source : Nat)
    (rsp0 rsp : rs_protocol_data_t) (k0 k c : Nat) (pre : List Nat) (ev0 : List event_t)
    (h0 : rsp0.state = RS_HEADER_BYTE_1) (hlen : rsp0.header_buf.length = 8)
    (hbytes : all_bytes (pre ++ [c]))
    (hrun : process_bytes A source rsp0 k0 pre = some (rsp, k, ev0)) :
    ∃ rsp1 k1 ev, process_byte A source rsp k c = some (rsp1, k1, ev) ∧
      (rsp.state ≠ RS_HEADER_CRC_BYTE_2 → malloc_sizes ev = [] ∧ k1 = k) ∧
      (rsp.state = RS_HEADER_CRC_BYTE_2 →
        ∃ pre0 a b x y c1, pre = pre0 ++ [a, b, x, y, c1] ∧
          rsp.header_buf.take 6 = [rsp0.header_byte_1, rsp0.header_byte_2, a, b, x, y] ∧
          ((c1 <<< 8 ||| c = calculate_CRC16 (some rsp.header_buf) 6 0 ∧
              malloc_sizes ev = [a <<< 8 ||| b] ∧ k1 = k + 1) ∨
           (c1 <<< 8 ||| c ≠ calculate_CRC16 (some rsp.header_buf) 6 0 ∧
              ev = [event_t.callback rsp.message_received_cb none
                RS_PACKET_ERROR_HEADER_CRC source] ∧
              k1 = k ∧ rsp1.state = RS_HEADER_BYTE_1 ∧ rsp1.sb = rsp.sb))) := by
  obtain ⟨r, kr, er, hr, hl, hp1, hp2, htr⟩ := header_trail_run A source pre rsp0 k0 []
    hlen (by simp [header_trail, h0])
    (fun b hb => hbytes b (List.mem_append_left _ hb))
  rw [hrun] at hr
  simp only [Option.some.injEq, Prod.mk.injEq] at hr
  obtain ⟨rfl, rfl, rfl⟩ := hr
  rw [← hp1, ← hp2]
  simp only [List.nil_append] at htr
  clear hrun hp1 hp2 h0 hlen hbytes
  obtain ⟨cb, hb, sb, len, crc, st, p1, p2⟩ := rsp
  simp only at hl
  obtain ⟨h0, h1, h2, h3, h4, h5, h6, h7, rfl⟩ := length_eight hb hl
  cases st
  case RS_HEADER_CRC_BYTE_2 =>
    obtain ⟨pre0, a, b, x, y, c1, e1, e2, e3, e4⟩ := htr
    simp only at e2 e3 e4
    subst e3 e4
    simp only [process_byte, HEADER_CRC_CALC_SIZE]
    by_cases hm : c1 <<< 8 ||| c = calculate_CRC16 (some [h0, h1, h2, h3, h4, h5, h6, h7]) 6 0
    · rw [if_pos hm]
      cases hs : safebuffer_malloc A k (a <<< 8 ||| b) with
      | none =>
        refine ⟨_, _, _, rfl, fun h => absurd rfl h, fun _ =>
          ⟨pre0, a, b, x, y, c1, e1, e2, Or.inl ⟨hm, ?_, rfl⟩⟩⟩
        cases sb <;> simp [malloc_sizes]
      | some new =>
        refine ⟨_, _, _, rfl, fun h => absurd rfl h, fun _ =>
          ⟨pre0, a, b, x, y, c1, e1, e2, Or.inl ⟨hm, ?_, rfl⟩⟩⟩
        cases sb <;> simp [malloc_sizes]
    · rw [if_neg hm]
      exact ⟨_, _, _, rfl, fun h => absurd rfl h, fun _ =>
        ⟨pre0, a, b, x, y, c1, e1, e2, Or.inr ⟨hm, rfl, rfl, rfl, rfl⟩⟩⟩
  case RS_DATA =>
    cases sb with
    | none => exact absurd rfl htr
    | some sb0 =>
      simp only [process_byte]
      split
      · split <;>
          exact ⟨_, _, _, rfl, fun _ => ⟨by simp [malloc_sizes], rfl⟩, fun h => by cases h⟩
      · exact ⟨_, _, _, rfl, fun _ => ⟨by simp [malloc_sizes], rfl⟩, fun h => by cases h⟩
  case RS_HEADER_BYTE_1 =>
    simp only [process_byte]
    split <;>
      exact ⟨_, _, _, rfl, fun _ => ⟨by simp [malloc_sizes], rfl⟩, fun h => by cases h⟩
  case RS_HEADER_BYTE_2 =>
    simp only [process_byte]
    split
    · exact ⟨_, _, _, rfl, fun _ => ⟨by simp [malloc_sizes], rfl⟩, fun h => by cases h⟩
    · split <;>
        exact ⟨_, _, _, rfl, fun _ => ⟨by simp [malloc_sizes], rfl⟩, fun h => by cases h⟩
  all_goals
    exact ⟨_, _, _, rfl, fun _ => ⟨by simp [malloc_sizes], rfl⟩, fun h => by cases h⟩

/-- Witness for C9: the header of the frame built for `[1]`, up to its last byte. -/
theorem C9_allocation_gated_by_header_crc_witness :
    ∃ rsp1 k1 ev,
      process_byte demo_allocator 99 demo_instance_at_header_crc 0 0x4f
        = some (rsp1, k1, ev) ∧
      (demo_instance_at_header_crc.state ≠ RS_HEADER_CRC_BYTE_2 →
        malloc_sizes ev = [] ∧ k1 = 0) ∧
      (demo_instance_at_header_crc.state = RS_HEADER_CRC_BYTE_2 →
        ∃ pre0 a b x y c1, [0xAA, 0x55, 0, 1, 0x10, 0x21, 0x51] = pre0 ++ [a, b, x, y, c1] ∧
          demo_instance_at_header_crc.header_buf.take 6
            = [demo_instance.header_byte_1, demo_instance.header_byte_2, a, b, x, y] ∧
          ((c1 <<< 8 ||| 0x4f
                = calculate_CRC16 (some demo_instance_at_header_crc.header_buf) 6 0 ∧
              malloc_sizes ev = [a <<< 8 ||| b] ∧ k1 = 0 + 1) ∨
           (c1 <<< 8 ||| 0x4f
                ≠ calculate_CRC16 (some demo_instance_at_header_crc.header_buf) 6 0 ∧
              ev = [event_t.callback demo_instance_at_header_crc.message_received_cb none
                RS_PACKET_ERROR_HEADER_CRC 99] ∧
              k1 = 0 ∧ rsp1.state = RS_HEADER_BYTE_1 ∧
              rsp1.sb = demo_instance_at_header_crc.sb))) :=
  C9_allocation_gated_by_header_crc demo_allocator 99 demo_instance
    demo_instance_at_header_crc 0 0 0x4f [0xAA, 0x55, 0, 1, 0x10, 0x21, 0x51]
    [event_t.callback 7 none RS_PACKET_PREAMBLE_RECEIVED 99]
    (by decide) (by decide) (by decide) (by decide)

/-! ## C13: the table against the bitwise reference -/

theorem and_top_bit (r : Nat) : r &&& 0x8000 = if r.testBit 15 then 0x8000 else 0 := by
  have ht : ∀ i, Nat.testBit 0x8000 i = decide (15 = i) := by
    intro i
    have e : (0x8000 : Nat) = 2 ^ 15 := by norm_num
    rw [e]; exact Nat.testBit_two_pow
  apply Nat.eq_of_testBit_eq
  intro i
  rw [Nat.testBit_and, ht]
  by_cases hi : 15 = i
  · subst hi
    cases h : r.testBit 15
    · simp
    · simp [ht]
  · cases h : r.testBit 15
    · simp [hi]
    · simp [hi, ht]

theorem crc16_ccitt_shift_eq (r : Nat) :
    crc16_ccitt_shift r = ((r <<< 1) % 65536) ^^^ (if r.testBit 15 then 0x1021 else 0) := by
  unfold crc16_ccitt_shift
  rw [and_top_bit]
  cases h : r.testBit 15 <;> simp

theorem shl1_mod_xor (a b : Nat) :
    ((a ^^^ b) <<< 1) % 65536 = ((a <<< 1) % 65536) ^^^ ((b <<< 1) % 65536) := by
  apply Nat.eq_of_testBit_eq
  intro i
  have e : (65536 : Nat) = 2 ^ 16 := by norm_num
  rw [e]
  simp only [Nat.testBit_mod_two_pow, Nat.testBit_xor, Nat.testBit_shiftLeft]
  by_cases h16 : i < 16 <;> by_cases h1 : i ≥ 1 <;> simp [h16, h1]

/-- One shift of the register is linear over XOR. -/
theorem crc16_ccitt_shift_xor (a b : Nat) :
    crc16_ccitt_shift (a ^^^ b) = crc16_ccitt_shift a ^^^ crc16_ccitt_shift b := by
  rw [crc16_ccitt_shift_eq, crc16_ccitt_shift_eq, crc16_ccitt_shift_eq, shl1_mod_xor,
    Nat.testBit_xor]
  generalize (a <<< 1) % 65536 = x
  generalize (b <<< 1) % 65536 = y
  cases a.testBit 15 <;> cases b.testBit 15 <;> simp
  · rw [Nat.xor_assoc]
  · rw [Nat.xor_assoc, Nat.xor_assoc, Nat.xor_comm 4129 y]
  · rw [Nat.xor_assoc x 4129, ← Nat.xor_assoc 4129 y, Nat.xor_comm 4129 y, Nat.xor_assoc y,
      Nat.xor_self, Nat.xor_zero]

theorem iterate_shift_xor (n a b : Nat) :
    Nat.iterate crc16_ccitt_shift n (a ^^^ b)
      = Nat.iterate crc16_ccitt_shift n a ^^^ Nat.iterate crc16_ccitt_shift n b := by
  induction n generalizing a b with
  | zero => rfl
  | succ n ih =>
    simp only [Function.iterate_succ_apply]
    rw [crc16_ccitt_shift_xor, ih]

set_option maxRecDepth 100000 in
theorem shift8_low : ∀ lo < 256, Nat.iterate crc16_ccitt_shift 8 lo = lo * 256 := by
  decide!

set_option maxRecDepth 100000 in
theorem shift8_high : ∀ x < 256,
    Nat.iterate crc16_ccitt_shift 8 (x * 256) = crcTabccitt.getD x 0 := by
  decide!

theorem xor_byte_into_high (crc c : Nat) :
    crc ^^^ (c <<< 8) = (((crc >>> 8) ^^^ c) * 256) ^^^ (crc % 256) := by
  have e : (256 : Nat) = 2 ^ 8 := by norm_num
  rw [e, ← Nat.shiftLeft_eq]
  apply Nat.eq_of_testBit_eq
  intro i
  simp only [Nat.testBit_mod_two_pow, Nat.testBit_xor, Nat.testBit_shiftLeft,
    Nat.testBit_shiftRight]
  by_cases hi : i < 8
  · have h8 : ¬ (i ≥ 8) := by omega
    simp [hi, h8]
  · have h8 : i ≥ 8 := by omega
    have e2 : 8 + (i - 8) = i := by omega
    simp [hi, h8, e2]

theorem table_step_split (crc T : Nat) (hT : T < 65536) :
    ((crc <<< 8) ^^^ T) % 65536 = T ^^^ ((crc % 256) * 256) := by
  have e : (256 : Nat) = 2 ^ 8 := by norm_num
  have e2 : (65536 : Nat) = 2 ^ 16 := by norm_num
  rw [e, ← Nat.shiftLeft_eq, e2]
  apply Nat.eq_of_testBit_eq
  intro i
  simp only [Nat.testBit_mod_two_pow, Nat.testBit_xor, Nat.testBit_shiftLeft]
  by_cases h16 : i < 16
  · by_cases h8 : i ≥ 8
    · have : i - 8 < 8 := by omega
      simp [h16, h8, this, Bool.xor_comm]
    · simp [h16, h8]
  · have hTb : T.testBit i = false := by
      apply Nat.testBit_lt_two_pow
      calc T < 2 ^ 16 := by omega
        _ ≤ 2 ^ i := Nat.pow_le_pow_right (by decide) (by omega)
    have h8 : i ≥ 8 := by omega
    have : ¬ (i - 8 < 8) := by omega
    simp [h16, hTb, h8, this]

/-- One byte: the table step of `calculate_CRC16` is the bitwise reference step. -/
theorem crc_update_eq_reference (crc c : Nat) (hcrc : crc < 65536) (hc : c < 256) :
    crc_update crc c = crc16_ccitt_byte crc c := by
  have hidx : crc_index crc c = (crc >>> 8) ^^^ c := by
    rw [crc_index_eq crc c hcrc, Nat.mod_eq_of_lt hc]
  have hlt : (crc >>> 8) ^^^ c < 256 := by
    rw [← hidx]; exact crc_index_lt crc c hcrc
  rw [crc_update_eq, hidx, table_step_split _ _ (crcTab_lt_all _)]
  unfold crc16_ccitt_byte
  rw [xor_byte_into_high, iterate_shift_xor, shift8_high _ hlt,
    shift8_low _ (Nat.mod_lt _ (by decide))]

theorem foldl_crc_update_eq_reference (data : List Nat) (s : Nat) (hs : s < 65536)
    (hb : all_bytes data) : data.foldl crc_update s = crc16_ccitt_reference data s := by
  unfold crc16_ccitt_reference
  induction data generalizing s with
  | nil => rfl
  | cons c cs ih =>
    simp only [List.foldl_cons]
    rw [← crc_update_eq_reference s c hs (hb c (List.mem_cons_self c cs))]
    exact ih _ (crc_update_lt s c) (fun b hm => hb b (List.mem_cons_of_mem c hm))

/-- C13: for every byte sequence and every 16-bit start value, the table-driven
`calculate_CRC16` equals the bitwise CRC16-CCITT reference (per byte: XOR the byte into
the high 8 bits of the register, then 8 times shift left by one mod 2^16 and XOR 0x1021
when the bit shifted out was 1; no reflection, no final XOR); and entry `i` of
`crcTabccitt` is that reference applied to the single byte `i` with start 0, for all 256
`i`. -/
theorem C13_table_equals_bitwise_reference (data : List Nat) (start_value : Nat)
    (hs : start_value < 65536) (hb : all_bytes data) :
    calculate_CRC16 (some data) data.length start_value
        = crc16_ccitt_reference data start_value ∧
    ∀ i, i < 256 → crcTabccitt.getD i 0 = crc16_ccitt_reference [i] 0 := by
  constructor
  · rw [calculate_CRC16_some]
    exact foldl_crc_update_eq_reference data start_value hs hb
  · intro i hi
    have h := crc_update_eq_reference 0 i (by decide) hi
    have h0 : crc_update 0 i = crcTabccitt.getD i 0 := by
      rw [crc_update_eq, crc_index_eq 0 i (by decide), Nat.mod_eq_of_lt hi]
      have hz : (0 >>> 8) ^^^ i = i := by simp
      rw [hz, Nat.zero_shiftLeft, Nat.zero_xor, Nat.mod_eq_of_lt (crcTab_lt_all i)]
    rw [← h0, h]
    rfl

/-- Witness for C13: the check string `123456789` with start 0 (CRC 0x31C3). -/
theorem C13_table_equals_bitwise_reference_witness :
    calculate_CRC16 (some [0x31, 0x32, 0x33, 0x34, 0x35, 0x36, 0x37, 0x38, 0x39])
        [0x31, 0x32, 0x33, 0x34, 0x35, 0x36, 0x37, 0x38, 0x39].length 0
        = crc16_ccitt_reference [0x31, 0x32, 0x33, 0x34, 0x35, 0x36, 0x37, 0x38, 0x39] 0 ∧
    ∀ i, i < 256 → crcTabccitt.getD i 0 = crc16_ccitt_reference [i] 0 :=
  C13_table_equals_bitwise_reference [0x31, 0x32, 0x33, 0x34, 0x35, 0x36, 0x37, 0x38, 0x39] 0
    (by decide) (by decide)

/-! ## C16: absent or empty data -/

/-- C16: for every start value, `calculate_CRC16` returns the start value unchanged when
the length is 0 (whatever the data pointer) and when the data pointer is NULL (whatever
the length). -/
theorem C16_crc_absent_or_empty (data : Option (List Nat)) (len start_value : Nat) :
    calculate_CRC16 data 0 start_value = start_value ∧
    calculate_CRC16 none len start_value = start_value := by
  constructor
  · cases data <;> simp [calculate_CRC16]
  · rfl

/-! ## C11 and C12: the instance registry -/

/-- A handle at or above `rs_protocol_num_instances`: `rs_protocol_process_data` returns
`-EINVAL`, changes nothing and invokes no handler. -/
theorem process_data_invalid_handle (A : allocator_t) (g : rs_protocol_statics)
    (k : Nat) (data : List Nat) (len h source : Nat)
    (hh : h ≥ g.rs_protocol_num_instances) :
    rs_protocol_process_data A g k data len h source = some (-EINVAL, g, k, []) := by
  simp [rs_protocol_process_data, hh]

/-- At capacity `init_rs_protocol` returns `RS_PROTOCOL_INVALID_INSTANCE`, requests no
memory and leaves the statics as they are. -/
theorem init_at_capacity (cfg : config_t) (A : allocator_t) (g : rs_protocol_statics)
    (k fn p1 p2 : Nat)
    (hfull : g.rs_protocol_num_instances ≥ cfg.CONFIG_RS_PROTOCOL_MAX_INSTANCES) :
    init_rs_protocol cfg A g k fn p1 p2 = (RS_PROTOCOL_INVALID_INSTANCE, g, k) := by
  simp [init_rs_protocol, hfull]

/-- Below capacity, with the allocation succeeding, `init_rs_protocol` returns the old
instance count as handle, increments the count and stores an instance in its initial parse
state in that slot of the table; the other slots are untouched. -/
theorem init_success (cfg : config_t) (A : allocator_t) (g : rs_protocol_statics)
    (k fn p1 p2 : Nat)
    (hroom : g.rs_protocol_num_instances < cfg.CONFIG_RS_PROTOCOL_MAX_INSTANCES)
    (hmax : cfg.CONFIG_RS_PROTOCOL_MAX_INSTANCES ≤ 255)
    (htab : g.rs_protocol_data.length = cfg.CONFIG_RS_PROTOCOL_MAX_INSTANCES)
    (halloc : A.succeeds k cfg.sizeof_rs_protocol_data_t = true) :
    init_rs_protocol cfg A g k fn p1 p2
        = (g.rs_protocol_num_instances,
           { rs_protocol_num_instances := g.rs_protocol_num_instances + 1
             rs_protocol_data := g.rs_protocol_data.set g.rs_protocol_num_instances
               (some (fresh_instance A k fn p1 p2)) },
           k + 1) ∧
      valid_handle
        { rs_protocol_num_instances := g.rs_protocol_num_instances + 1
          rs_protocol_data := g.rs_protocol_data.set g.rs_protocol_num_instances
            (some (fresh_instance A k fn p1 p2)) }
        g.rs_protocol_num_instances (fresh_instance A k fn p1 p2) ∧
      initial_parse_state (fresh_instance A k fn p1 p2) := by
  have hnot : ¬ (g.rs_protocol_num_instances ≥ cfg.CONFIG_RS_PROTOCOL_MAX_INSTANCES) := by
    omega
  have hmod : (g.rs_protocol_num_instances + 1) % 256 = g.rs_protocol_num_instances + 1 := by
    omega
  refine ⟨?_, ?_, ?_⟩
  · simp only [init_rs_protocol, if_neg hnot, halloc, if_true, hmod, fresh_instance]
  · refine ⟨by simp, by simp; omega, ?_⟩
    have hlt : g.rs_protocol_num_instances < g.rs_protocol_data.length := by omega
    simp [List.getD_eq_getElem?_getD, List.getElem?_set, hlt]
  · exact ⟨rfl, rfl, by simp [fresh_instance, HEADER_BUF_SIZE]⟩

/-- C11 (at the failing input): the first `init_rs_protocol` call, with `k_malloc`
failing, returns `RS_PROTOCOL_INVALID_INSTANCE` but leaves `rs_protocol_num_instances`
at 1 and the table slot 0 NULL. Handle 0 was never returned by a successful call, yet it
passes the range check: `rs_protocol_process_data`, `rs_protocol_build` and
`rs_protocol_build_header` on it dereference the NULL table entry instead of returning
`-EINVAL`. -/
theorem C11_failed_init_leaves_dangling_handle :
    init_rs_protocol demo_config failing_allocator (initial_statics demo_config) 0 7 0xAA
        0x55
      = (RS_PROTOCOL_INVALID_INSTANCE,
         { rs_protocol_num_instances := 1, rs_protocol_data := [none, none, none, none] },
         1) ∧
    rs_protocol_process_data demo_allocator
        { rs_protocol_num_instances := 1, rs_protocol_data := [none, none, none, none] }
        1 [1] 1 0 99 = none ∧
    rs_protocol_build
        { rs_protocol_num_instances := 1, rs_protocol_data := [none, none, none, none] }
        ⟨[], 0, 0, false, none⟩ [1] 1 0 = none ∧
    rs_protocol_build_header
        { rs_protocol_num_instances := 1, rs_protocol_data := [none, none, none, none] }
        [0, 0, 0, 0, 0, 0, 0, 0] [1] 1 0 = none := by
  refine ⟨?_, ?_, ?_, ?_⟩ <;> decide

/-- C12 (at the failing input): two `init_rs_protocol` calls on a registry with room for
4 instances, `k_malloc` failing for the first and succeeding for the second. The first
returns `RS_PROTOCOL_INVALID_INSTANCE`; the second, the first successful call, returns the
handle 1, not 0: the failed call has used up handle 0 and one of the 4 places. -/
theorem C12_failed_init_uses_up_a_handle :
    init_calls demo_config first_fails_allocator (initial_statics demo_config) 0
        [⟨7, 0xAA, 0x55⟩, ⟨8, 0xAA, 0x55⟩]
      = ([RS_PROTOCOL_INVALID_INSTANCE, 1],
         { rs_protocol_num_instances := 2
           rs_protocol_data := [none,
             some { message_received_cb := 8
                    header_buf := [0, 0, 0, 0, 0, 0, 0, 0]
                    sb := none
                    len := 0
                    crc := 0
                    state := RS_HEADER_BYTE_1
                    header_byte_1 := 0xAA
                    header_byte_2 := 0x55 },
             none, none] },
         2) := by
  decide

/-! ## C18: the allocation of the receive buffer fails -/

/-- The eight header bytes with a matching header CRC, the allocation failing. -/
theorem process_header_alloc_fail (A : allocator_t) (source : Nat)
    (rsp : rs_protocol_data_t) (k a b c d e f : Nat)
    (hst : rsp.state = RS_HEADER_BYTE_1) (hlen : rsp.header_buf.length = 8)
    (hcrc : ((e <<< 8) % 65536) ||| f
      = calculate_CRC16 (some [rsp.header_byte_1, rsp.header_byte_2, a, b, c, d]) 6 0)
    (hfail : A.succeeds k (((a <<< 8) % 65536) ||| b) = false) :
    process_bytes A source rsp k [rsp.header_byte_1, rsp.header_byte_2, a, b, c, d, e, f]
      = some ({ rsp with
                state := RS_HEADER_BYTE_1
                len := ((a <<< 8) % 65536) ||| b
                crc := ((e <<< 8) % 65536) ||| f
                header_buf := staged_header rsp.header_byte_1 rsp.header_byte_2 a b c d
                  (((e <<< 8) % 65536) ||| f)
                sb := none }, k + 1,
          [event_t.callback rsp.message_received_cb none RS_PACKET_PREAMBLE_RECEIVED
            source] ++ free_events rsp.sb ++
          [event_t.malloc (((a <<< 8) % 65536) ||| b) none,
           event_t.callback rsp.message_received_cb none RS_PACKET_ERROR_PACKET_LENGTH
             source]) := by
  have hp := process_header_seven A source rsp k a b c d e hst hlen
  have happ := process_bytes_append A source
    [rsp.header_byte_1, rsp.header_byte_2, a, b, c, d, e] [f] rsp k
  simp only [List.cons_append, List.nil_append] at happ
  rw [happ, hp]
  obtain ⟨cb, hb, sb, len, crc, st, p1, p2⟩ := rsp
  simp only at hst hlen hcrc
  subst hst
  obtain ⟨h0, h1, h2, h3, h4, h5, h6, h7, rfl⟩ := length_eight hb hlen
  have hc6 : calculate_CRC16 (some [p1, p2, a, b, c, d, h6, h7]) HEADER_CRC_CALC_SIZE 0
      = calculate_CRC16 (some [p1, p2, a, b, c, d]) 6 0 := by
    simp [calculate_CRC16, HEADER_CRC_CALC_SIZE]
  cases sb <;>
    simp [process_bytes, process_byte, hc6, ← hcrc, safebuffer_malloc_fail _ _ _ hfail,
      staged_header, free_events]

/-- C18: a frame header whose header CRC matches, received by an instance that seeks the
preamble, when the allocation of the receive buffer fails: once the 8 header bytes are in,
the handler has received `RS_PACKET_PREAMBLE_RECEIVED` and exactly one
`RS_PACKET_ERROR_PACKET_LENGTH` (with no buffer) and no `RS_PACKET_VALID_DATA`, the
instance holds no receive buffer and seeks the first preamble byte again. The bytes `Q`
that follow (the payload of the frame) are not skipped: they are processed from that
state like any other input, and the trace of the whole is the trace of the header
followed by the trace of `Q`. -/
theorem C18_receive_allocation_failure (A : allocator_t) (g : rs_protocol_statics)
    (k h source : Nat) (rsp : rs_protocol_data_t) (a b c d e f : Nat) (Q : List Nat)
    (hv : valid_handle g h rsp) (hst : rsp.state = RS_HEADER_BYTE_1)
    (hlen : rsp.header_buf.length = 8)
    (hcrc : ((e <<< 8) % 65536) ||| f
      = calculate_CRC16 (some [rsp.header_byte_1, rsp.header_byte_2, a, b, c, d]) 6 0)
    (hfail : A.succeeds k (((a <<< 8) % 65536) ||| b) = false) :
    ∃ rsp1 evh, rsp1.state = RS_HEADER_BYTE_1 ∧ rsp1.sb = none ∧
      evh = [event_t.callback rsp.message_received_cb none RS_PACKET_PREAMBLE_RECEIVED
              source] ++ free_events rsp.sb ++
            [event_t.malloc (((a <<< 8) % 65536) ||| b) none,
             event_t.callback rsp.message_received_cb none RS_PACKET_ERROR_PACKET_LENGTH
               source] ∧
      handler_calls evh
        = [(none, RS_PACKET_PREAMBLE_RECEIVED), (none, RS_PACKET_ERROR_PACKET_LENGTH)] ∧
      valid_data evh = [] ∧
      rs_protocol_process_data A g k
          ([rsp.header_byte_1, rsp.header_byte_2, a, b, c, d, e, f] ++ Q) 8 h source
        = some (0, update_instance g h rsp1, k + 1, evh) ∧
      ∃ g2 k2 ev,
        rs_protocol_process_data A (update_instance g h rsp1) (k + 1) Q Q.length h source
          = some (0, g2, k2, ev) ∧
        rs_protocol_process_data A g k
            ([rsp.header_byte_1, rsp.header_byte_2, a, b, c, d, e, f] ++ Q)
            ([rsp.header_byte_1, rsp.header_byte_2, a, b, c, d, e, f] ++ Q).length h source
          = some (0, g2, k2, evh ++ ev) := by
  have hrun := process_header_alloc_fail A source rsp k a b c d e f hst hlen hcrc hfail
  generalize hR : ({ rsp with
      state := RS_HEADER_BYTE_1
      len := ((a <<< 8) % 65536) ||| b
      crc := ((e <<< 8) % 65536) ||| f
      header_buf := staged_header rsp.header_byte_1 rsp.header_byte_2 a b c d
        (((e <<< 8) % 65536) ||| f)
      sb := none } : rs_protocol_data_t) = rsp1 at hrun
  have hst1 : rsp1.state = RS_HEADER_BYTE_1 := by rw [← hR]
  have hsb1 : rsp1.sb = none := by rw [← hR]
  obtain ⟨r2, k2, ev, hP, _⟩ := process_bytes_total A source Q rsp1 (k + 1)
    (by rw [hst1]; intro h0; cases h0)
  have hv1 := update_instance_valid g h rsp rsp1 hv
  refine ⟨rsp1, _, hst1, hsb1, rfl, ?_, ?_, ?_, update_instance g h r2, k2, ev, ?_, ?_⟩
  · cases rsp.sb <;> rfl
  · cases rsp.sb <;> rfl
  · rw [process_data_valid_len A g k _ 8 h source rsp hv]
    simp only [List.take_append_of_le_length, List.length_cons, List.length_nil,
      Nat.le_refl, List.take_succ_cons, List.take_zero]
    rw [hrun]; rfl
  · rw [process_data_valid A _ (k + 1) Q h source rsp1 hv1, hP]
    simp [update_instance_twice]
  · rw [process_data_valid A g k _ h source rsp hv, process_bytes_append, hrun]
    simp only [hP]
    rfl

/-- Witness for C18: the frame built for `[1, 2]` on the demo instance, the allocator
failing. -/
theorem C18_receive_allocation_failure_witness :
    ∃ rsp1 evh, rsp1.state = RS_HEADER_BYTE_1 ∧ rsp1.sb = none ∧
      evh = [event_t.callback demo_instance.message_received_cb none
              RS_PACKET_PREAMBLE_RECEIVED 99] ++ free_events demo_instance.sb ++
            [event_t.malloc (((0 <<< 8) % 65536) ||| 2) none,
             event_t.callback demo_instance.message_received_cb none
               RS_PACKET_ERROR_PACKET_LENGTH 99] ∧
      handler_calls evh
        = [(none, RS_PACKET_PREAMBLE_RECEIVED), (none, RS_PACKET_ERROR_PACKET_LENGTH)] ∧
      valid_data evh = [] ∧
      rs_protocol_process_data failing_allocator demo_statics 0
          ([demo_instance.header_byte_1, demo_instance.header_byte_2, 0, 2, 0x13, 0x73,
            0x27, 0xfb] ++ [1, 2]) 8 0 99
        = some (0, update_instance demo_statics 0 rsp1, 0 + 1, evh) ∧
      ∃ g2 k2 ev,
        rs_protocol_process_data failing_allocator (update_instance demo_statics 0 rsp1)
            (0 + 1) [1, 2] [1, 2].length 0 99
          = some (0, g2, k2, ev) ∧
        rs_protocol_process_data failing_allocator demo_statics 0
            ([demo_instance.header_byte_1, demo_instance.header_byte_2, 0, 2, 0x13, 0x73,
              0x27, 0xfb] ++ [1, 2])
            ([demo_instance.header_byte_1, demo_instance.header_byte_2, 0, 2, 0x13, 0x73,
              0x27, 0xfb] ++ [1, 2]).length 0 99
          = some (0, g2, k2, evh ++ ev) :=
  C18_receive_allocation_failure failing_allocator demo_statics 0 0 99 demo_instance
    0 2 0x13 0x73 0x27 0xfb [1, 2] (by decide) (by decide) (by decide) (by decide)
    (by decide)

/-! ## The in-place and allocating builders -/

theorem frame_header_length (p1 p2 n d : Nat) : (frame_header p1 p2 n d).length = 8 := by
  simp [frame_header]

/-- `rs_protocol_build_header` on a valid handle writes the 8 header bytes for the
`uint16_t` length `len` over the first 8 cells of `out`. -/
theorem build_header_valid (g : rs_protocol_statics) (out data : List Nat) (len h : Nat)
    (rsp : rs_protocol_data_t) (hv : valid_handle g h rsp) (hlen : len < 65536)
    (hout : 8 ≤ out.length) :
    rs_protocol_build_header g out data len h
      = some (0, frame_header rsp.header_byte_1 rsp.header_byte_2 len
          (calculate_CRC16 (some data) len 0) ++ out.drop 8) := by
  obtain ⟨h1, _, h3⟩ := hv
  have hnot : ¬ (h ≥ g.rs_protocol_num_instances) := by omega
  have hd : calculate_CRC16 (some data) len 0 < 65536 :=
    calculate_CRC16_lt _ _ _ (by decide)
  generalize hD : calculate_CRC16 (some data) len 0 = D at hd
  obtain ⟨o0, o1, o2, o3, o4, o5, o6, o7, rest, rfl⟩ :
      ∃ o0 o1 o2 o3 o4 o5 o6 o7 rest, out = o0 :: o1 :: o2 :: o3 :: o4 :: o5 :: o6 :: o7 :: rest := by
    match out, hout with
    | o0 :: o1 :: o2 :: o3 :: o4 :: o5 :: o6 :: o7 :: rest, _ =>
      exact ⟨o0, o1, o2, o3, o4, o5, o6, o7, rest, rfl⟩
  have hh : calculate_CRC16 (some [rsp.header_byte_1, rsp.header_byte_2, len >>> 8,
      len &&& 0xff, D >>> 8, D &&& 0xff]) 6 0 < 65536 :=
    calculate_CRC16_lt _ _ _ (by decide)
  have h6 : ∀ t : List Nat, calculate_CRC16 (some (rsp.header_byte_1 :: rsp.header_byte_2
      :: (len >>> 8) :: (len &&& 0xff) :: (D >>> 8) :: (D &&& 0xff) :: t)) 6 0
      = calculate_CRC16 (some [rsp.header_byte_1, rsp.header_byte_2, len >>> 8,
          len &&& 0xff, D >>> 8, D &&& 0xff]) 6 0 := by
    intro t; simp [calculate_CRC16]
  unfold rs_protocol_build_header
  rw [if_neg hnot, h3]
  simp only [hD, List.set_cons_zero, List.set_cons_succ, lo_byte_mod, hi_byte_mod len hlen,
    hi_byte_mod D hd, h6]
  rw [hi_byte_mod _ hh]
  simp [frame_header, HEADER_CRC_CALC_SIZE]

theorem memcpy_at_whole (dst src : List Nat) (off : Nat) :
    memcpy_at dst off src src.length = dst.take off ++ src ++ dst.drop (off + src.length) := by
  simp [memcpy_at]

theorem fresh_buffer_buf_length (A : allocator_t) (k size : Nat) :
    (fresh_buffer A k size).buf.length = size := by
  simp [fresh_buffer]

/-- `rs_protocol_build_single_param` on a valid handle, the allocation succeeding and
`len + 8` not wrapping: the returned buffer holds the header for the truncated length
`len % 65536`, followed by the whole payload. -/
theorem build_single_param_valid (A : allocator_t) (g : rs_protocol_statics)
    (k h : Nat) (rsp : rs_protocol_data_t) (P : List Nat) (hv : valid_handle g h rsp)
    (hn : P.length + 8 < 4294967296) (halloc : A.succeeds k (P.length + 8) = true) :
    rs_protocol_build_single_param A g k P P.length h
      = some (some { buf := frame_header rsp.header_byte_1 rsp.header_byte_2
                        (P.length % 65536)
                        (calculate_CRC16 (some P) (P.length % 65536) 0) ++ P
                     write_index := P.length + 8
                     len := P.length + 8
                     full := true
                     p_gp := none },
          k + 1,
          [event_t.malloc (P.length + 8) (some (fresh_buffer A k (P.length + 8)))]) := by
  have hsz : (P.length + HEADER_BUF_SIZE) % 4294967296 = P.length + 8 := by
    simp only [HEADER_BUF_SIZE]; omega
  unfold rs_protocol_build_single_param
  simp only [hsz, safebuffer_malloc_ok A k _ halloc]
  have hbl := fresh_buffer_buf_length A k (P.length + 8)
  have hcopy : memcpy_at (fresh_buffer A k (P.length + 8)).buf HEADER_BUF_SIZE P P.length
      = (fresh_buffer A k (P.length + 8)).buf.take 8 ++ P := by
    rw [memcpy_at_whole]
    simp only [HEADER_BUF_SIZE]
    rw [List.drop_of_length_le (by omega)]
    simp
  rw [hcopy, build_header_valid g _ P (P.length % 65536) h rsp hv
    (Nat.mod_lt _ (by decide)) (by simp; omega)]
  have hdrop : ((fresh_buffer A k (P.length + 8)).buf.take 8 ++ P).drop 8 = P := by
    rw [List.drop_append_of_le_length (by simp; omega)]
    simp [List.drop_take]
  simp [hdrop, fresh_buffer]

theorem take_succ_flatten (segs : List (List Nat)) (m : Nat) (hm : m < segs.length) :
    (segs.take (m + 1)).flatten = (segs.take m).flatten ++ segs.getD m [] := by
  rw [List.take_succ, List.flatten_append, List.getD_eq_getElem _ _ hm,
    List.getElem?_eq_getElem hm]
  simp

theorem map_length_getD (segs : List (List Nat)) (m : Nat) :
    (segs.map List.length).getD m 0 = (segs.getD m []).length := by
  by_cases hm : m < segs.length
  · rw [List.getD_eq_getElem _ _ (by simpa using hm), List.getD_eq_getElem _ _ hm]
    simp
  · rw [List.getD_eq_default _ _ (by simpa using hm), List.getD_eq_default _ _ (by omega)]
    rfl

theorem flatten_take_length_le (segs : List (List Nat)) (m : Nat) :
    (segs.take m).flatten.length ≤ segs.flatten.length := by
  conv => rhs; rw [← List.take_append_drop m segs]
  rw [List.flatten_append, List.length_append]
  omega

/-- The first loop of `rs_protocol_build_multiple_params`, after `m` segments. -/
theorem total_len_loop (segs : List (List Nat)) (m : Nat) (hm : m ≤ segs.length)
    (hn : segs.flatten.length + 8 < 4294967296) :
    (List.range m).foldl
        (fun total i => (total + (segs.map List.length).getD i 0) % 4294967296)
        HEADER_BUF_SIZE
      = 8 + (segs.take m).flatten.length := by
  induction m with
  | zero => simp [HEADER_BUF_SIZE]
  | succ m ih =>
    rw [List.range_succ, List.foldl_append, ih (by omega)]
    simp only [List.foldl_cons, List.foldl_nil]
    rw [map_length_getD, take_succ_flatten segs m (by omega), List.length_append]
    have := flatten_take_length_le segs (m + 1)
    rw [take_succ_flatten segs m (by omega), List.length_append] at this
    omega

theorem multiple_params_total_len_eq (segs : List (List Nat))
    (hn : segs.flatten.length + 8 < 4294967296) :
    multiple_params_total_len (segs.map List.length) segs.length
      = segs.flatten.length + 8 := by
  unfold multiple_params_total_len
  rw [total_len_loop segs segs.length (Nat.le_refl _) hn, List.take_length]
  omega

/-- The second loop of `rs_protocol_build_multiple_params`, after `m` segments. -/
theorem copy_loop (segs : List (List Nat)) (dst : List Nat) (p m : Nat)
    (hm : m ≤ segs.length) (hp : p ≤ dst.length) :
    (List.range m).foldl
        (fun (st : List Nat × Nat) i =>
          (memcpy_at st.1 st.2 (segs.getD i []) ((segs.map List.length).getD i 0),
            st.2 + (segs.map List.length).getD i 0))
        (dst, p)
      = (dst.take p ++ (segs.take m).flatten
          ++ dst.drop (p + (segs.take m).flatten.length),
         p + (segs.take m).flatten.length) := by
  induction m with
  | zero => simp
  | succ m ih =>
    rw [List.range_succ, List.foldl_append, ih (by omega)]
    simp only [List.foldl_cons, List.foldl_nil]
    rw [map_length_getD, take_succ_flatten segs m (by omega), memcpy_at_whole]
    have hl : (dst.take p ++ (segs.take m).flatten).length
        = p + (segs.take m).flatten.length := by
      rw [List.length_append, List.length_take, Nat.min_eq_left hp]
    have h1 : List.take (p + (segs.take m).flatten.length)
        (dst.take p ++ (segs.take m).flatten
          ++ dst.drop (p + (segs.take m).flatten.length))
        = dst.take p ++ (segs.take m).flatten := List.take_left' hl
    have h2 : List.drop (p + (segs.take m).flatten.length + (segs.getD m []).length)
        (dst.take p ++ (segs.take m).flatten
          ++ dst.drop (p + (segs.take m).flatten.length))
        = dst.drop (p + ((segs.take m).flatten.length + (segs.getD m []).length)) := by
      rw [← hl, List.drop_append, List.drop_drop, hl]
      congr 1
      omega
    rw [h1, h2]
    simp [Nat.add_assoc]

theorem multiple_params_copy_eq (segs : List (List Nat)) (dst : List Nat) (p : Nat)
    (hp : p ≤ dst.length) :
    multiple_params_copy segs (segs.map List.length) segs.length dst p
      = dst.take p ++ segs.flatten ++ dst.drop (p + segs.flatten.length) := by
  unfold multiple_params_copy
  rw [copy_loop segs dst p segs.length (Nat.le_refl _) hp, List.take_length]

/-- `rs_protocol_build_multiple_params` on a valid handle, the allocation succeeding and
the total length not wrapping: the returned buffer holds the header for the truncated
total length, followed by the segments one after the other. -/
theorem build_multiple_params_valid (A : allocator_t) (g : rs_protocol_statics)
    (k h : Nat) (rsp : rs_protocol_data_t) (segs : List (List Nat))
    (hv : valid_handle g h rsp) (hn : segs.flatten.length + 8 < 4294967296)
    (halloc : A.succeeds k (segs.flatten.length + 8) = true) :
    rs_protocol_build_multiple_params A g k segs (segs.map List.length) segs.length h
      = some (some { buf := frame_header rsp.header_byte_1 rsp.header_byte_2
                        (segs.flatten.length % 65536)
                        (calculate_CRC16 (some segs.flatten)
                          (segs.flatten.length % 65536) 0) ++ segs.flatten
                     write_index := segs.flatten.length + 8
                     len := segs.flatten.length + 8
                     full := true
                     p_gp := none },
          k + 1,
          [event_t.malloc (segs.flatten.length + 8)
            (some (fresh_buffer A k (segs.flatten.length + 8)))]) := by
  unfold rs_protocol_build_multiple_params
  simp only [multiple_params_total_len_eq segs hn, safebuffer_malloc_ok A k _ halloc]
  have hbl := fresh_buffer_buf_length A k (segs.flatten.length + 8)
  have hcopy : multiple_params_copy segs (segs.map List.length) segs.length
      (fresh_buffer A k (segs.flatten.length + 8)).buf HEADER_BUF_SIZE
      = (fresh_buffer A k (segs.flatten.length + 8)).buf.take 8 ++ segs.flatten := by
    rw [multiple_params_copy_eq _ _ _ (by simp only [HEADER_BUF_SIZE]; omega)]
    simp only [HEADER_BUF_SIZE]
    rw [List.drop_of_length_le (by omega)]
    simp
  have hdrop : ((fresh_buffer A k (segs.flatten.length + 8)).buf.take 8
      ++ segs.flatten).drop 8 = segs.flatten := by
    have ht : ((fresh_buffer A k (segs.flatten.length + 8)).buf.take 8).length = 8 := by
      rw [List.length_take, hbl]; omega
    exact List.drop_left' ht
  have hlen16 : (segs.flatten.length + 8 + 4294967296 - HEADER_BUF_SIZE) % 4294967296
      % 65536 = segs.flatten.length % 65536 := by
    simp only [HEADER_BUF_SIZE]; omega
  rw [hcopy]
  simp only [HEADER_BUF_SIZE] at hlen16 ⊢
  rw [hdrop, hlen16, build_header_valid g _ segs.flatten (segs.flatten.length % 65536) h
    rsp hv (Nat.mod_lt _ (by decide))
    (by rw [List.length_append, List.length_take, hbl]; omega)]
  simp [fresh_buffer]

/-! ## C17: the build variants agree -/

theorem be16_split_join_plain (x : Nat) (h : x < 65536) :
    ((x >>> 8) <<< 8) ||| (x &&& 0xff) = x := by
  have h1 := be16_split_join_raw x h
  have h2 : ((x >>> 8) <<< 8) % 65536 = (x >>> 8) <<< 8 := by
    apply Nat.mod_eq_of_lt
    rw [Nat.shiftLeft_eq, Nat.shiftRight_eq_div_pow]
    omega
  rwa [h2] at h1

/-- `rs_protocol_build` reads `data` only through its first `len` bytes. -/
theorem build_reads_take (g : rs_protocol_statics) (sb : safebuffer_t) (data : List Nat)
    (len h : Nat) (hlen : len ≤ data.length) :
    rs_protocol_build g sb data len h
      = rs_protocol_build g sb (data.take len) (data.take len).length h := by
  have hl : (data.take len).length = len := by
    rw [List.length_take]; omega
  simp only [rs_protocol_build, calculate_CRC16, safebuffer_add_data, hl, List.take_take,
    Nat.min_self]

/-- `rs_protocol_build_single_param` when the allocation fails: NULL is returned after the
one refused request. -/
theorem build_single_param_alloc_fail (A : allocator_t) (g : rs_protocol_statics)
    (k h : Nat) (P : List Nat) (hn : P.length + 8 < 4294967296)
    (hfail : A.succeeds k (P.length + 8) = false) :
    rs_protocol_build_single_param A g k P P.length h
      = some (none, k + 1, [event_t.malloc (P.length + 8) none]) := by
  have hsz : (P.length + HEADER_BUF_SIZE) % 4294967296 = P.length + 8 := by
    simp only [HEADER_BUF_SIZE]; omega
  simp only [rs_protocol_build_single_param, hsz, safebuffer_malloc_fail A k _ hfail]

/-- `rs_protocol_build_multiple_params` when the allocation fails: NULL is returned after
the one refused request. -/
theorem build_multiple_params_alloc_fail (A : allocator_t) (g : rs_protocol_statics)
    (k h : Nat) (segs : List (List Nat)) (hn : segs.flatten.length + 8 < 4294967296)
    (hfail : A.succeeds k (segs.flatten.length + 8) = false) :
    rs_protocol_build_multiple_params A g k segs (segs.map List.length) segs.length h
      = some (none, k + 1, [event_t.malloc (segs.flatten.length + 8) none]) := by
  simp only [rs_protocol_build_multiple_params, multiple_params_total_len_eq segs hn,
    safebuffer_malloc_fail A k _ hfail]

/-- C17 (amended): for every valid handle and every payload `P` of at most 65535 bytes,
`rs_protocol_build_single_param` on `P` and `rs_protocol_build_multiple_params` on any
list of segments whose concatenation is `P`, when their allocation succeeds, return a
buffer that holds byte for byte the output of `rs_protocol_build` on `P`; so does
`rs_protocol_build_safebuffer` from a buffer holding `P`, and the 8 bytes written by
`rs_protocol_build_header` followed by `P`. In that frame the header CRC (bytes 6 and 7)
is the CRC16 of exactly the 6 header bytes before it. When the allocation fails, the two
allocating variants return NULL after the one refused request for `P.length + 8`
bytes. -/
theorem C17_build_variants_agree (A : allocator_t) (g : rs_protocol_statics)
    (k h : Nat) (rsp : rs_protocol_data_t) (P : List Nat) (segs : List (List Nat))
    (sb0 sb_out sb_in : safebuffer_t) (out : List Nat)
    (hv : valid_handle g h rsp) (hn : P.length ≤ 65535) (hsegs : segs.flatten = P)
    (hin : sb_in.contents = P) (hinw : sb_in.write_index = P.length)
    (hout : out.length = 8) :
    (∃ sb1, rs_protocol_build g sb0 P P.length h = some (0, sb1) ∧
      sb1.contents = built_frame g h P) ∧
    (A.succeeds k (P.length + 8) = true →
      (∃ sb k1 ev, rs_protocol_build_single_param A g k P P.length h
          = some (some sb, k1, ev) ∧
        sb.contents = built_frame g h P) ∧
      (∃ sb k1 ev, rs_protocol_build_multiple_params A g k segs (segs.map List.length)
          segs.length h = some (some sb, k1, ev) ∧
        sb.contents = built_frame g h P)) ∧
    (A.succeeds k (P.length + 8) = false →
      rs_protocol_build_single_param A g k P P.length h
        = some (none, k + 1, [event_t.malloc (P.length + 8) none]) ∧
      rs_protocol_build_multiple_params A g k segs (segs.map List.length) segs.length h
        = some (none, k + 1, [event_t.malloc (P.length + 8) none])) ∧
    (∃ sb1, rs_protocol_build_safebuffer g sb_out sb_in h = some (0, sb1) ∧
      sb1.contents = built_frame g h P) ∧
    (∃ out1, rs_protocol_build_header g out P P.length h = some (0, out1) ∧
      out1 ++ P = built_frame g h P) ∧
    ((built_frame g h P).getD 6 0 <<< 8) ||| (built_frame g h P).getD 7 0
      = calculate_CRC16 (some (built_frame g h P)) 6 0 := by
  have hF := built_frame_eq g h rsp P hv hn
  have hmod : P.length % 65536 = P.length := Nat.mod_eq_of_lt (by omega)
  have hfl := frame_header_length rsp.header_byte_1 rsp.header_byte_2 P.length
    (calculate_CRC16 (some P) P.length 0)
  refine ⟨?_, ?_, ?_, ?_, ?_, ?_⟩
  · obtain ⟨sb1, h1, h2, _⟩ := build_valid g sb0 P h rsp hv hn
    exact ⟨sb1, h1, by rw [h2, hF]⟩
  · intro halloc
    constructor
    · refine ⟨_, _, _, build_single_param_valid A g k h rsp P hv (by omega) halloc, ?_⟩
      rw [hF, hmod]
      simp only [safebuffer_t.contents]
      apply List.take_of_length_le
      rw [List.length_append, hfl]; omega
    · subst hsegs
      refine ⟨_, _, _, build_multiple_params_valid A g k h rsp segs hv (by omega) halloc, ?_⟩
      rw [hF, hmod]
      simp only [safebuffer_t.contents]
      apply List.take_of_length_le
      rw [List.length_append, hfl]; omega
  · intro hfail
    constructor
    · exact build_single_param_alloc_fail A g k h P (by omega) hfail
    · subst hsegs
      exact build_multiple_params_alloc_fail A g k h segs (by omega) hfail
  · have hle : P.length ≤ sb_in.buf.length := by
      have := congrArg List.length hin
      simp only [safebuffer_t.contents, List.length_take] at this
      omega
    have htake : sb_in.buf.take P.length = P := by
      rw [← hinw]; exact hin
    obtain ⟨sb1, h1, h2, _⟩ := build_valid g sb_out P h rsp hv hn
    refine ⟨sb1, ?_, by rw [h2, hF]⟩
    unfold rs_protocol_build_safebuffer
    rw [hinw, hmod, build_reads_take g sb_out sb_in.buf P.length h hle, htake]
    exact h1
  · refine ⟨_, build_header_valid g out P P.length h rsp hv (by omega) (by omega), ?_⟩
    rw [hF, List.drop_of_length_le (by omega)]
    simp
  · rw [hF]
    generalize calculate_CRC16 (some P) P.length 0 = D
    have hh : calculate_CRC16 (some [rsp.header_byte_1, rsp.header_byte_2,
        P.length >>> 8, P.length &&& 0xff, D >>> 8, D &&& 0xff]) 6 0 < 65536 :=
      calculate_CRC16_lt _ _ _ (by decide)
    generalize hH : calculate_CRC16 (some [rsp.header_byte_1, rsp.header_byte_2,
        P.length >>> 8, P.length &&& 0xff, D >>> 8, D &&& 0xff]) 6 0 = H at hh
    have hfh : frame_header rsp.header_byte_1 rsp.header_byte_2 P.length D
        = [rsp.header_byte_1, rsp.header_byte_2, P.length >>> 8, P.length &&& 0xff,
           D >>> 8, D &&& 0xff, H >>> 8, H &&& 0xff] := by
      simp [frame_header, HEADER_CRC_CALC_SIZE, hH]
    have h6 : calculate_CRC16 (some ([rsp.header_byte_1, rsp.header_byte_2,
        P.length >>> 8, P.length &&& 0xff, D >>> 8, D &&& 0xff, H >>> 8, H &&& 0xff] ++ P))
        6 0 = H := by
      rw [← hH]; simp [calculate_CRC16]
    rw [hfh, h6]
    exact be16_split_join_plain H hh

/-- Witness for C17: the payload `[1, 2, 3]` as the segments `[1]`, `[]`, `[2, 3]`, with an
allocator that grants the request and with one that refuses it. -/
theorem C17_build_variants_agree_witness :
    (∃ sb1, rs_protocol_build demo_statics ⟨[9, 9], 2, 2, true, none⟩ [1, 2, 3]
        [1, 2, 3].length 0 = some (0, sb1) ∧
      sb1.contents = built_frame demo_statics 0 [1, 2, 3]) ∧
    (∃ sb k1 ev, rs_protocol_build_single_param demo_allocator demo_statics 0 [1, 2, 3]
        [1, 2, 3].length 0 = some (some sb, k1, ev) ∧
      sb.contents = built_frame demo_statics 0 [1, 2, 3]) ∧
    (∃ sb k1 ev, rs_protocol_build_multiple_params demo_allocator demo_statics 0
        [[1], [], [2, 3]] ([[1], [], [2, 3]].map List.length) [[1], [], [2, 3]].length 0
        = some (some sb, k1, ev) ∧
      sb.contents = built_frame demo_statics 0 [1, 2, 3]) ∧
    rs_protocol_build_single_param failing_allocator demo_statics 0 [1, 2, 3]
        [1, 2, 3].length 0 = some (none, 0 + 1, [event_t.malloc ([1, 2, 3].length + 8) none]) ∧
    rs_protocol_build_multiple_params failing_allocator demo_statics 0
        [[1], [], [2, 3]] ([[1], [], [2, 3]].map List.length) [[1], [], [2, 3]].length 0
        = some (none, 0 + 1, [event_t.malloc ([1, 2, 3].length + 8) none]) ∧
    (∃ sb1, rs_protocol_build_safebuffer demo_statics ⟨[], 0, 0, false, none⟩
        ⟨[1, 2, 3, 7], 3, 4, false, none⟩ 0 = some (0, sb1) ∧
      sb1.contents = built_frame demo_statics 0 [1, 2, 3]) ∧
    (∃ out1, rs_protocol_build_header demo_statics [0, 0, 0, 0, 0, 0, 0, 0] [1, 2, 3]
        [1, 2, 3].length 0 = some (0, out1) ∧
      out1 ++ [1, 2, 3] = built_frame demo_statics 0 [1, 2, 3]) ∧
    ((built_frame demo_statics 0 [1, 2, 3]).getD 6 0 <<< 8)
        ||| (built_frame demo_statics 0 [1, 2, 3]).getD 7 0
      = calculate_CRC16 (some (built_frame demo_statics 0 [1, 2, 3])) 6 0 :=
  have granted := C17_build_variants_agree demo_allocator demo_statics 0 0 demo_instance
    [1, 2, 3] [[1], [], [2, 3]] ⟨[9, 9], 2, 2, true, none⟩ ⟨[], 0, 0, false, none⟩
    ⟨[1, 2, 3, 7], 3, 4, false, none⟩ [0, 0, 0, 0, 0, 0, 0, 0]
    (by decide) (by decide) (by decide) (by decide) (by decide) (by decide)
  have refused := C17_build_variants_agree failing_allocator demo_statics 0 0 demo_instance
    [1, 2, 3] [[1], [], [2, 3]] ⟨[9, 9], 2, 2, true, none⟩ ⟨[], 0, 0, false, none⟩
    ⟨[1, 2, 3, 7], 3, 4, false, none⟩ [0, 0, 0, 0, 0, 0, 0, 0]
    (by decide) (by decide) (by decide) (by decide) (by decide) (by decide)
  ⟨granted.1, (granted.2.1 rfl).1, (granted.2.1 rfl).2, (refused.2.2.1 rfl).1, (refused.2.2.1 rfl).2,
    granted.2.2.2.1, granted.2.2.2.2.1, granted.2.2.2.2.2⟩

/-- C17 (counterexample): on the valid handle 0, with the allocation failing,
`rs_protocol_build_single_param` and `rs_protocol_build_multiple_params` on the payload
`[1]` return NULL after one refused request for 9 bytes: they yield no frame, while
`rs_protocol_build` yields `AA 55 00 01 10 21 51 4F 01`. -/
theorem C17_counterexample_allocation_fails :
    rs_protocol_build_single_param failing_allocator demo_statics 0 [1] 1 0
      = some (none, 1, [event_t.malloc 9 none]) ∧
    rs_protocol_build_multiple_params failing_allocator demo_statics 0 [[1]] [1] 1 0
      = some (none, 1, [event_t.malloc 9 none]) ∧
    built_frame demo_statics 0 [1] = [0xAA, 0x55, 0, 1, 0x10, 0x21, 0x51, 0x4f, 1] := by
  refine ⟨?_, ?_, ?_⟩ <;> decide

/-! ## C20: length truncation in the allocating builders -/

/-- C20 (amended): for every valid handle and every payload `P` of `n > 65535` bytes (with `n + 8`
below 2^32, the range of the `uint32_t` size), given whole to
`rs_protocol_build_single_param` or as segments to `rs_protocol_build_multiple_params`:
a buffer is returned when the allocation succeeds, and every buffer returned holds
`n + 8` bytes, the 8 header bytes for the length `n mod 65536` and the data CRC of only
the first `n mod 65536` payload bytes, followed by all `n` payload bytes; `n mod 65536`
is less than `n`, so the header describes a shorter payload than the buffer carries. -/
theorem C20_length_truncation (A : allocator_t) (g : rs_protocol_statics) (k h : Nat)
    (rsp : rs_protocol_data_t) (P : List Nat) (segs : List (List Nat))
    (hv : valid_handle g h rsp) (hbig : 65535 < P.length)
    (hn : P.length + 8 < 4294967296) (hsegs : segs.flatten = P) :
    (A.succeeds k (P.length + 8) = true →
      (∃ sb k1 ev, rs_protocol_build_single_param A g k P P.length h
        = some (some sb, k1, ev)) ∧
      (∃ sb k1 ev, rs_protocol_build_multiple_params A g k segs (segs.map List.length)
        segs.length h = some (some sb, k1, ev))) ∧
    (∀ sb k1 ev,
      (rs_protocol_build_single_param A g k P P.length h = some (some sb, k1, ev) ∨
       rs_protocol_build_multiple_params A g k segs (segs.map List.length) segs.length h
         = some (some sb, k1, ev)) →
      sb.write_index = P.length + 8 ∧
      sb.contents.length = P.length + 8 ∧
      sb.contents
        = frame_header rsp.header_byte_1 rsp.header_byte_2 (P.length % 65536)
            (calculate_CRC16 (some (P.take (P.length % 65536)))
              (P.take (P.length % 65536)).length 0) ++ P) ∧
    (frame_header rsp.header_byte_1 rsp.header_byte_2 (P.length % 65536)
        (calculate_CRC16 (some (P.take (P.length % 65536)))
          (P.take (P.length % 65536)).length 0)).take 4
      = [rsp.header_byte_1, rsp.header_byte_2, (P.length % 65536) >>> 8,
         (P.length % 65536) &&& 0xff] ∧
    P.length % 65536 < P.length := by
  have hcrc : calculate_CRC16 (some (P.take (P.length % 65536)))
      (P.take (P.length % 65536)).length 0
      = calculate_CRC16 (some P) (P.length % 65536) 0 := by
    simp only [calculate_CRC16, List.take_length]
  rw [hcrc]
  have hfl := frame_header_length rsp.header_byte_1 rsp.header_byte_2 (P.length % 65536)
    (calculate_CRC16 (some P) (P.length % 65536) 0)
  have hprops : ∀ sb : safebuffer_t,
      sb = { buf := frame_header rsp.header_byte_1 rsp.header_byte_2 (P.length % 65536)
                (calculate_CRC16 (some P) (P.length % 65536) 0) ++ P
             write_index := P.length + 8
             len := P.length + 8
             full := true
             p_gp := none } →
      sb.write_index = P.length + 8 ∧ sb.contents.length = P.length + 8 ∧
      sb.contents = frame_header rsp.header_byte_1 rsp.header_byte_2 (P.length % 65536)
        (calculate_CRC16 (some P) (P.length % 65536) 0) ++ P := by
    intro sb hsb
    subst hsb
    have hc : List.take (P.length + 8)
        (frame_header rsp.header_byte_1 rsp.header_byte_2 (P.length % 65536)
          (calculate_CRC16 (some P) (P.length % 65536) 0) ++ P)
        = frame_header rsp.header_byte_1 rsp.header_byte_2 (P.length % 65536)
          (calculate_CRC16 (some P) (P.length % 65536) 0) ++ P := by
      apply List.take_of_length_le
      rw [List.length_append, hfl]; omega
    refine ⟨rfl, ?_, hc⟩
    simp only [safebuffer_t.contents]
    rw [hc, List.length_append, hfl]; omega
  refine ⟨?_, ?_, ?_, ?_⟩
  · intro halloc
    subst hsegs
    exact ⟨⟨_, _, _, build_single_param_valid A g k h rsp _ hv hn halloc⟩,
      ⟨_, _, _, build_multiple_params_valid A g k h rsp segs hv hn halloc⟩⟩
  · intro sb k1 ev hres
    cases halloc : A.succeeds k (P.length + 8) with
    | true =>
      rcases hres with hres | hres
      · rw [build_single_param_valid A g k h rsp P hv hn halloc] at hres
        simp only [Option.some.injEq, Prod.mk.injEq] at hres
        exact hprops sb hres.1.symm
      · subst hsegs
        rw [build_multiple_params_valid A g k h rsp segs hv hn halloc] at hres
        simp only [Option.some.injEq, Prod.mk.injEq] at hres
        exact hprops sb hres.1.symm
    | false =>
      exfalso
      rcases hres with hres | hres
      · have hsz : (P.length + HEADER_BUF_SIZE) % 4294967296 = P.length + 8 := by
          simp only [HEADER_BUF_SIZE]; omega
        simp [rs_protocol_build_single_param, hsz, safebuffer_malloc_fail A k _ halloc]
          at hres
      · subst hsegs
        unfold rs_protocol_build_multiple_params at hres
        simp only [multiple_params_total_len_eq segs hn,
          safebuffer_malloc_fail A k _ halloc] at hres
        simp at hres
  · simp [frame_header]
  · omega

/-- Witness for C20: a payload of 65536 zero bytes, as two segments of 1 and 65535
bytes. -/
theorem C20_length_truncation_witness :
    (demo_allocator.succeeds 0 ((List.replicate 65536 0).length + 8) = true →
      (∃ sb k1 ev, rs_protocol_build_single_param demo_allocator demo_statics 0
          (List.replicate 65536 0) (List.replicate 65536 0).length 0
        = some (some sb, k1, ev)) ∧
      (∃ sb k1 ev, rs_protocol_build_multiple_params demo_allocator demo_statics 0
          [List.replicate 1 0, List.replicate 65535 0]
          ([List.replicate 1 0, List.replicate 65535 0].map List.length)
          [List.replicate 1 0, List.replicate 65535 0].length 0
        = some (some sb, k1, ev))) ∧
    (∀ sb k1 ev,
      (rs_protocol_build_single_param demo_allocator demo_statics 0
          (List.replicate 65536 0) (List.replicate 65536 0).length 0
        = some (some sb, k1, ev) ∨
       rs_protocol_build_multiple_params demo_allocator demo_statics 0
          [List.replicate 1 0, List.replicate 65535 0]
          ([List.replicate 1 0, List.replicate 65535 0].map List.length)
          [List.replicate 1 0, List.replicate 65535 0].length 0
         = some (some sb, k1, ev)) →
      sb.write_index = (List.replicate 65536 0).length + 8 ∧
      sb.contents.length = (List.replicate 65536 0).length + 8 ∧
      sb.contents
        = frame_header demo_instance.header_byte_1 demo_instance.header_byte_2
            ((List.replicate 65536 0).length % 65536)
            (calculate_CRC16
              (some ((List.replicate 65536 0).take ((List.replicate 65536 0).length % 65536)))
              ((List.replicate 65536 0).take
                ((List.replicate 65536 0).length % 65536)).length 0)
          ++ List.replicate 65536 0) ∧
    (frame_header demo_instance.header_byte_1 demo_instance.header_byte_2
        ((List.replicate 65536 0).length % 65536)
        (calculate_CRC16
          (some ((List.replicate 65536 0).take ((List.replicate 65536 0).length % 65536)))
          ((List.replicate 65536 0).take
            ((List.replicate 65536 0).length % 65536)).length 0)).take 4
      = [demo_instance.header_byte_1, demo_instance.header_byte_2,
         ((List.replicate 65536 0).length % 65536) >>> 8,
         ((List.replicate 65536 0).length % 65536) &&& 0xff] ∧
    (List.replicate 65536 0).length % 65536 < (List.replicate 65536 0).length :=
  C20_length_truncation demo_allocator demo_statics 0 0 demo_instance
    (List.replicate 65536 0) [List.replicate 1 0, List.replicate 65535 0]
    (by decide) (by rw [List.length_replicate]; decide)
    (by rw [List.length_replicate]; decide)
    (by rw [List.flatten_cons, List.flatten_cons, List.flatten_nil, List.append_nil,
          ← List.replicate_add])

/-- `rs_protocol_build_single_param` on a valid handle, the allocation succeeding: a
buffer is returned, and its `write_index` is `len + 8` in `uint32_t`, the size that was
requested. -/
theorem build_single_param_write_index (A : allocator_t) (g : rs_protocol_statics)
    (k h : Nat) (rsp : rs_protocol_data_t) (buf : List Nat) (len : Nat)
    (hv : valid_handle g h rsp)
    (halloc : A.succeeds k ((len + 8) % 4294967296) = true) :
    ∃ sb, rs_protocol_build_single_param A g k buf len h
        = some (some sb, k + 1,
            [event_t.malloc ((len + 8) % 4294967296)
              (some (fresh_buffer A k ((len + 8) % 4294967296)))]) ∧
      sb.write_index = (len + 8) % 4294967296 := by
  obtain ⟨h1, _, h3⟩ := hv
  have hnot : ¬ (h ≥ g.rs_protocol_num_instances) := by omega
  simp only [rs_protocol_build_single_param, HEADER_BUF_SIZE,
    safebuffer_malloc_ok A k _ halloc, rs_protocol_build_header, if_neg hnot, h3]
  exact ⟨_, rfl, rfl⟩

/-- C20 (counterexample): a payload of `n = 2^32 - 8` bytes on the valid handle 0, the
allocation succeeding. The size `n + 8` wraps to 0 in `uint32_t`: 0 bytes are requested
and the returned buffer has `write_index` 0, not `n + 8`. -/
theorem C20_counterexample_size_wraps :
    (List.replicate 4294967288 0).length = 4294967288 ∧ 65535 < 4294967288 ∧
    ∃ sb,
      rs_protocol_build_single_param demo_allocator demo_statics 0
          (List.replicate 4294967288 0) 4294967288 0
        = some (some sb, 1, [event_t.malloc 0 (some (fresh_buffer demo_allocator 0 0))]) ∧
      sb.write_index = 0 ∧ sb.write_index ≠ 4294967288 + 8 := by
  refine ⟨List.length_replicate _ _, by norm_num, ?_⟩
  obtain ⟨sb, h1, h2⟩ := build_single_param_write_index demo_allocator demo_statics 0 0
    demo_instance (List.replicate 4294967288 0) 4294967288 (by decide) rfl
  have h0 : (4294967288 + 8) % 4294967296 = 0 := by norm_num
  rw [h0] at h1 h2
  exact ⟨sb, h1, h2, by rw [h2]; norm_num⟩

/-! ## C19: resynchronisation after garbage -/

/-- With different preamble bytes, an instance that has just seen `header_byte_1` treats
another `header_byte_1` like an instance that seeks it. -/
theorem process_bytes_resync (A : allocator_t) (source : Nat) (rsp : rs_protocol_data_t)
    (k : Nat) (rest : List Nat) (hst : rsp.state = RS_HEADER_BYTE_1)
    (hne : rsp.header_byte_1 ≠ rsp.header_byte_2) :
    process_bytes A source { rsp with state := RS_HEADER_BYTE_2 } k
        (rsp.header_byte_1 :: rest)
      = process_bytes A source rsp k (rsp.header_byte_1 :: rest) := by
  simp [process_bytes, process_byte, hst, hne]

theorem with_state_self (rsp : rs_protocol_data_t) (st : rec_state_t)
    (hst : rsp.state = st) : { rsp with state := st } = rsp := by
  cases rsp; simp_all

/-- C19 (amended): for every instance with `header_byte_1 ≠ header_byte_2` in its initial
parse state, every byte sequence `G` in which `header_byte_1` is never immediately
followed by `header_byte_2` (also one that ends with `header_byte_1`) and every payload
`P` of 1 to 65535 bytes, feeding `G` followed by the frame built for `P`, with the
allocation of the receive buffer succeeding, yields exactly one
`RS_PACKET_PREAMBLE_RECEIVED` followed by exactly one `RS_PACKET_VALID_DATA` whose buffer
holds exactly `P`. -/
theorem C19_resync_after_garbage (A : allocator_t) (g : rs_protocol_statics)
    (k h source : Nat) (rsp : rs_protocol_data_t) (G P : List Nat)
    (hv : valid_handle g h rsp) (hinit : initial_parse_state rsp)
    (hne : rsp.header_byte_1 ≠ rsp.header_byte_2)
    (hno : no_preamble rsp.header_byte_1 rsp.header_byte_2 G)
    (hP : P ≠ []) (hn : P.length ≤ 65535) (halloc : A.succeeds k P.length = true) :
    ∃ rsp1 ev delivered,
      rs_protocol_process_data A g k (G ++ built_frame g h P)
          (G ++ built_frame g h P).length h source
        = some (0, update_instance g h rsp1, k + 1, ev) ∧
      ev = [event_t.callback rsp.message_received_cb none RS_PACKET_PREAMBLE_RECEIVED
              source,
            event_t.malloc P.length (some (fresh_buffer A k P.length)),
            event_t.callback rsp.message_received_cb (some delivered)
              RS_PACKET_VALID_DATA source,
            event_t.free delivered] ∧
      handler_calls ev
        = [(none, RS_PACKET_PREAMBLE_RECEIVED), (some delivered, RS_PACKET_VALID_DATA)] ∧
      delivered.contents = P ∧ delivered.write_index = P.length ∧
      delivered.p_gp = some ((built_frame g h P).take 8) ∧
      initial_parse_state rsp1 := by
  obtain ⟨hst, hsb, hlen⟩ := hinit
  obtain ⟨rsp1, hdr, h1, h2, h3, h4, h5, h6, h7, h8⟩ :=
    process_built_header A source rsp k P P hst hsb hlen hn rfl hP halloc
  rw [if_pos rfl] at h7
  have hF := built_frame_eq g h rsp P hv hn
  have hl : hdr.length = 8 := by rw [h6]; exact frame_header_length _ _ _ _
  have hhead : ∃ tail, hdr ++ P = rsp.header_byte_1 :: tail := by
    rw [h6]; exact ⟨_, rfl⟩
  obtain ⟨st, hst1, hG⟩ := (process_bytes_no_preamble A source G rsp k).1 hst hno
  have hrun : process_bytes A source { rsp with state := st } k (hdr ++ P)
      = process_bytes A source rsp k (hdr ++ P) := by
    rcases hst1 with rfl | rfl
    · rw [with_state_self rsp _ hst]
    · obtain ⟨tail, ht⟩ := hhead
      rw [ht]
      exact process_bytes_resync A source rsp k tail hst hne
  refine ⟨rsp1, _, filled_buffer P (some hdr), ?_, rfl, rfl, ?_, rfl, ?_, ⟨h1, h8 rfl, h2⟩⟩
  · rw [process_data_valid A g k _ h source rsp hv, hF, ← h6, process_bytes_append, hG]
    simp only [hrun, h7]
    rfl
  · simp [filled_buffer, safebuffer_t.contents]
  · rw [hF, ← h6]
    simp [filled_buffer, List.take_append_of_le_length, hl, List.take_of_length_le]

/-- Witness for C19: garbage that ends with the first preamble byte, then the frame for
`[1, 2, 3]`. -/
theorem C19_resync_after_garbage_witness :
    ∃ rsp1 ev delivered,
      rs_protocol_process_data demo_allocator demo_statics 0
          ([0x55, 0xAA, 7, 0xAA] ++ built_frame demo_statics 0 [1, 2, 3])
          ([0x55, 0xAA, 7, 0xAA] ++ built_frame demo_statics 0 [1, 2, 3]).length 0 99
        = some (0, update_instance demo_statics 0 rsp1, 0 + 1, ev) ∧
      ev = [event_t.callback demo_instance.message_received_cb none
              RS_PACKET_PREAMBLE_RECEIVED 99,
            event_t.malloc [1, 2, 3].length
              (some (fresh_buffer demo_allocator 0 [1, 2, 3].length)),
            event_t.callback demo_instance.message_received_cb (some delivered)
              RS_PACKET_VALID_DATA 99,
            event_t.free delivered] ∧
      handler_calls ev
        = [(none, RS_PACKET_PREAMBLE_RECEIVED), (some delivered, RS_PACKET_VALID_DATA)] ∧
      delivered.contents = [1, 2, 3] ∧ delivered.write_index = [1, 2, 3].length ∧
      delivered.p_gp = some ((built_frame demo_statics 0 [1, 2, 3]).take 8) ∧
      initial_parse_state rsp1 :=
  C19_resync_after_garbage demo_allocator demo_statics 0 0 99 demo_instance
    [0x55, 0xAA, 7, 0xAA] [1, 2, 3] (by decide) (by decide) (by decide) (by decide)
    (by decide) (by decide) rfl

/-- C19 (counterexample): no garbage and the frame built for `[1]`, fed to the matching
instance in its initial parse state when the allocation of the receive buffer fails: the
handler receives `RS_PACKET_PREAMBLE_RECEIVED` and `RS_PACKET_ERROR_PACKET_LENGTH`, and
no `RS_PACKET_VALID_DATA`. -/
theorem C19_counterexample_allocation_fails :
    (rs_protocol_process_data failing_allocator demo_statics 0
        ([] ++ built_frame demo_statics 0 [1]) 9 0 99).map
        (fun r => (handler_calls r.2.2.2, valid_data r.2.2.2))
      = some ([(none, RS_PACKET_PREAMBLE_RECEIVED), (none, RS_PACKET_ERROR_PACKET_LENGTH)],
          []) := by
  decide

/-! ## C14: instances do not interfere -/

theorem safebuffer_malloc_history_free (A : allocator_t) (hA : history_free A)
    (k n : Nat) : safebuffer_malloc A k n = safebuffer_malloc A 0 n := by
  have h1 : A.succeeds k n = A.succeeds 0 n := (hA k n 0).1
  have h2 : (fun j => A.junk k j % 256) = (fun j => A.junk 0 j % 256) := by
    funext j; rw [(hA k n j).2]
  simp only [safebuffer_malloc, h1, h2]

/-- With a history-free allocator the step does not depend on the allocation count. -/
theorem process_byte_shift (A : allocator_t) (hA : history_free A) (source : Nat)
    (rsp : rs_protocol_data_t) (k c : Nat) :
    process_byte A source rsp k c
      = (process_byte A source rsp 0 c).map (fun r => (r.1, k + r.2.1, r.2.2)) := by
  obtain ⟨cb, hb, sb, len, crc, st, p1, p2⟩ := rsp
  cases st
  case RS_HEADER_CRC_BYTE_2 =>
    simp only [process_byte, safebuffer_malloc_history_free A hA k len]
    split
    · cases safebuffer_malloc A 0 len <;> simp
    · simp
  case RS_DATA =>
    cases sb with
    | none => simp [process_byte]
    | some sb0 =>
      simp only [process_byte]
      split
      · split <;> simp
      · simp
  case RS_HEADER_BYTE_1 =>
    simp only [process_byte]
    split <;> simp
  case RS_HEADER_BYTE_2 =>
    simp only [process_byte]
    split
    · simp
    · split <;> simp
  all_goals simp [process_byte]

theorem process_bytes_shift (A : allocator_t) (hA : history_free A) (source : Nat)
    (data : List Nat) (rsp : rs_protocol_data_t) (k : Nat) :
    process_bytes A source rsp k data
      = (process_bytes A source rsp 0 data).map (fun r => (r.1, k + r.2.1, r.2.2)) := by
  induction data generalizing rsp k with
  | nil => simp [process_bytes]
  | cons c cs ih =>
    simp only [process_bytes]
    rw [process_byte_shift A hA source rsp k c]
    cases process_byte A source rsp 0 c with
    | none => rfl
    | some r =>
      obtain ⟨r1, k1, e1⟩ := r
      simp only [Option.map_some']
      rw [ih r1 (k + k1), ih r1 k1]
      cases process_bytes A source r1 0 cs with
      | none => rfl
      | some q =>
        obtain ⟨q1, k2, e2⟩ := q
        simp [Nat.add_assoc]

/-- Every handler call of a step is a call of the handler registered in the instance,
which the step does not change. -/
theorem process_byte_callbacks (A : allocator_t) (source : Nat) (rsp r1 : rs_protocol_data_t)
    (k k1 c : Nat) (ev : List event_t)
    (hstep : process_byte A source rsp k c = some (r1, k1, ev)) :
    r1.message_received_cb = rsp.message_received_cb ∧
    ∀ fn sb t s, event_t.callback fn sb t s ∈ ev → fn = rsp.message_received_cb := by
  obtain ⟨cb, hb, sb, len, crc, st, p1, p2⟩ := rsp
  cases st
  case RS_HEADER_CRC_BYTE_2 =>
    simp only [process_byte] at hstep
    split at hstep
    · cases hm : safebuffer_malloc A k len <;> cases sb <;>
        simp only [hm, Option.some.injEq, Prod.mk.injEq] at hstep <;>
        obtain ⟨rfl, _, rfl⟩ := hstep <;>
        refine ⟨rfl, ?_⟩ <;> intro fn sb t s hmem <;> simp at hmem <;> try exact hmem.1
    · simp only [Option.some.injEq, Prod.mk.injEq] at hstep
      obtain ⟨rfl, _, rfl⟩ := hstep
      refine ⟨rfl, ?_⟩
      intro fn sb t s hmem
      simp at hmem
      exact hmem.1
  case RS_DATA =>
    cases sb with
    | none => simp [process_byte] at hstep
    | some sb0 =>
      simp only [process_byte] at hstep
      split at hstep
      · split at hstep <;>
          simp only [Option.some.injEq, Prod.mk.injEq] at hstep <;>
          obtain ⟨rfl, _, rfl⟩ := hstep <;>
          refine ⟨rfl, ?_⟩ <;> intro fn sb t s hmem <;> simp at hmem <;> exact hmem.1
      · simp only [Option.some.injEq, Prod.mk.injEq] at hstep
        obtain ⟨rfl, _, rfl⟩ := hstep
        exact ⟨rfl, fun fn sb t s hmem => by simp at hmem⟩
  case RS_HEADER_BYTE_1 =>
    simp only [process_byte] at hstep
    split at hstep <;>
      simp only [Option.some.injEq, Prod.mk.injEq] at hstep <;>
      obtain ⟨rfl, _, rfl⟩ := hstep <;>
      exact ⟨rfl, fun fn sb t s hmem => by simp at hmem⟩
  case RS_HEADER_BYTE_2 =>
    simp only [process_byte] at hstep
    split at hstep
    · simp only [Option.some.injEq, Prod.mk.injEq] at hstep
      obtain ⟨rfl, _, rfl⟩ := hstep
      refine ⟨rfl, ?_⟩
      intro fn sb t s hmem
      simp at hmem
      exact hmem.1
    · split at hstep <;>
        simp only [Option.some.injEq, Prod.mk.injEq] at hstep <;>
        obtain ⟨rfl, _, rfl⟩ := hstep <;>
        exact ⟨rfl, fun fn sb t s hmem => by simp at hmem⟩
  all_goals
    simp only [process_byte, Option.some.injEq, Prod.mk.injEq] at hstep
    obtain ⟨rfl, _, rfl⟩ := hstep
    exact ⟨rfl, fun fn sb t s hmem => by simp at hmem⟩

theorem process_bytes_callbacks (A : allocator_t) (source : Nat) (data : List Nat)
    (rsp r1 : rs_protocol_data_t) (k k1 : Nat) (ev : List event_t)
    (hrun : process_bytes A source rsp k data = some (r1, k1, ev)) :
    r1.message_received_cb = rsp.message_received_cb ∧
    ∀ fn sb t s, event_t.callback fn sb t s ∈ ev → fn = rsp.message_received_cb := by
  induction data generalizing rsp k ev with
  | nil =>
    simp only [process_bytes, Option.some.injEq, Prod.mk.injEq] at hrun
    obtain ⟨rfl, _, rfl⟩ := hrun
    simp
  | cons c cs ih =>
    simp only [process_bytes] at hrun
    cases hs : process_byte A source rsp k c with
    | none => simp [hs] at hrun
    | some r =>
      obtain ⟨q1, kq, e1⟩ := r
      simp only [hs] at hrun
      cases hr : process_bytes A source q1 kq cs with
      | none => simp [hr] at hrun
      | some q =>
        obtain ⟨q2, k2, e2⟩ := q
        simp only [hr, Option.some.injEq, Prod.mk.injEq] at hrun
        obtain ⟨rfl, rfl, rfl⟩ := hrun
        obtain ⟨c1, c2⟩ := process_byte_callbacks A source rsp q1 k kq c e1 hs
        obtain ⟨d1, d2⟩ := ih q1 kq e2 hr
        refine ⟨d1.trans c1, ?_⟩
        intro fn sb t s hmem
        rcases List.mem_append.mp hmem with hmem | hmem
        · exact c2 fn sb t s hmem
        · exact (d2 fn sb t s hmem).trans c1

theorem update_instance_other (g : rs_protocol_statics) (a b : Nat)
    (r rb : rs_protocol_data_t) (hab : a ≠ b) (hvb : valid_handle g b rb) :
    valid_handle (update_instance g a r) b rb := by
  obtain ⟨h1, h2, h3⟩ := hvb
  refine ⟨h1, by simpa [update_instance] using h2, ?_⟩
  rw [List.getD_eq_getElem?_getD] at h3 ⊢
  simp only [update_instance]
  rw [List.getElem?_set_ne hab]
  exact h3

theorem events_of_other (a b : Nat) (hab : a ≠ b) (ev : List event_t)
    (rest : List (Nat × event_t)) :
    events_of b (ev.map (fun e => (a, e)) ++ rest) = events_of b rest := by
  unfold events_of
  rw [List.filter_append]
  have : (ev.map (fun e => (a, e))).filter (fun p => decide (p.1 = b)) = [] := by
    rw [List.filter_eq_nil_iff]
    intro p hp
    obtain ⟨e, _, rfl⟩ := List.mem_map.mp hp
    simpa using hab
  rw [this, List.nil_append]

theorem events_of_same (b : Nat) (ev : List event_t) (rest : List (Nat × event_t)) :
    events_of b (ev.map (fun e => (b, e)) ++ rest) = ev ++ events_of b rest := by
  unfold events_of
  rw [List.filter_append, List.map_append]
  have : (ev.map (fun e => (b, e))).filter (fun p => decide (p.1 = b))
      = ev.map (fun e => (b, e)) := by
    rw [List.filter_eq_self]
    intro p hp
    obtain ⟨e, _, rfl⟩ := List.mem_map.mp hp
    simp
  rw [this]
  simp [Function.comp_def]

/-- Calls on `a` interleaved between the calls on `b` change neither what the calls on `b`
emit nor the instance of `b`, when the allocator is history-free. -/
theorem feed_schedule_frame (A : allocator_t) (hA : history_free A) (source a b : Nat)
    (hab : a ≠ b) (sch : List (Nat × List Nat)) :
    ∀ (g g' : rs_protocol_statics) (k k' : Nat) (ra rb : rs_protocol_data_t),
      valid_handle g a ra → has_buffer_in_data ra → valid_handle g b rb →
      valid_handle g' b rb → has_buffer_in_data rb →
      (∀ p ∈ sch, p.1 = a ∨ p.1 = b) →
      ∃ g1 k1 ev1 g2 k2 ev2 rb1,
        feed_schedule A source g k sch = some (g1, k1, ev1) ∧
        feed_schedule A source g' k' (calls_on b sch) = some (g2, k2, ev2) ∧
        events_of b ev1 = events_of b ev2 ∧
        valid_handle g1 b rb1 ∧ valid_handle g2 b rb1 := by
  induction sch with
  | nil =>
    intro g g' k k' ra rb _ _ hvb hvb' _ _
    exact ⟨g, k, [], g', k', [], rb, rfl, rfl, rfl, hvb, hvb'⟩
  | cons p rest ih =>
    intro g g' k k' ra rb hva hwa hvb hvb' hwb hsch
    obtain ⟨h, data⟩ := p
    have hrest : ∀ q ∈ rest, q.1 = a ∨ q.1 = b :=
      fun q hq => hsch q (List.mem_cons_of_mem _ hq)
    rcases hsch (h, data) (List.mem_cons_self _ _) with hh | hh
    · -- a call on `a`
      simp only at hh
      subst hh
      obtain ⟨r1, k1, e1, hrun, hw1⟩ := process_bytes_total A source data ra k hwa
      have hcall := process_data_valid A g k data h source ra hva
      rw [hrun] at hcall
      obtain ⟨g1, kk1, ev1, g2, k2, ev2, rb1, f1, f2, f3, f4, f5⟩ :=
        ih (update_instance g h r1) g' k1 k' r1 rb
          (update_instance_valid g h ra r1 hva) hw1
          (update_instance_other g h b r1 rb hab hvb) hvb' hwb hrest
      refine ⟨g1, kk1, e1.map (fun e => (h, e)) ++ ev1, g2, k2, ev2, rb1, ?_, ?_, ?_, f4, f5⟩
      · simp only [feed_schedule, hcall, Option.map_some', f1]
      · have : calls_on b ((h, data) :: rest) = calls_on b rest := by
          simp [calls_on, hab]
        rw [this]; exact f2
      · rw [events_of_other h b hab]; exact f3
    · -- a call on `b`
      simp only at hh
      subst hh
      obtain ⟨r1, k1, e1, hrun, hw1⟩ := process_bytes_total A source data rb 0 hwb
      have hrunk : process_bytes A source rb k data = some (r1, k + k1, e1) := by
        rw [process_bytes_shift A hA, hrun]; rfl
      have hrunk' : process_bytes A source rb k' data = some (r1, k' + k1, e1) := by
        rw [process_bytes_shift A hA, hrun]; rfl
      have hcall := process_data_valid A g k data h source rb hvb
      have hcall' := process_data_valid A g' k' data h source rb hvb'
      rw [hrunk] at hcall
      rw [hrunk'] at hcall'
      obtain ⟨g1, kk1, ev1, g2, k2, ev2, rb1, f1, f2, f3, f4, f5⟩ :=
        ih (update_instance g h r1) (update_instance g' h r1) (k + k1) (k' + k1) ra r1
          (update_instance_other g h a r1 ra (Ne.symm hab) hva) hwa
          (update_instance_valid g h rb r1 hvb)
          (update_instance_valid g' h rb r1 hvb') hw1 hrest
      refine ⟨g1, kk1, e1.map (fun e => (h, e)) ++ ev1, g2, k2,
        e1.map (fun e => (h, e)) ++ ev2, rb1, ?_, ?_, ?_, f4, f5⟩
      · simp only [feed_schedule, hcall, Option.map_some', f1]
      · have : calls_on h ((h, data) :: rest) = (h, data) :: calls_on h rest := by
          simp [calls_on]
        rw [this]
        simp only [feed_schedule, hcall', Option.map_some', f2]
      · rw [events_of_same, events_of_same, f3]

/-- C14 (amended): for every allocator and every two distinct valid handles `a` and `b`
whose instances hold a receive buffer whenever their state is `RS_DATA` (as instances
created by `init_rs_protocol` and driven by `rs_protocol_process_data` do),
`rs_protocol_process_data` on `a`, for any bytes, returns 0, leaves the table entry and
every field of the instance of `b` unchanged, only invokes the handler registered for
`a`, and leaves the instance of `a` with a receive buffer whenever its state is
`RS_DATA`. And when the answers of the allocator do not depend on earlier requests, then
for every sequence of calls, each on `a` or on `b`, the events the calls on `b` emit, and
the instance of `b` afterwards, are the same whether or not the calls on `a` are
interleaved between them. -/
theorem C14_instances_do_not_interfere (A : allocator_t) (g : rs_protocol_statics)
    (k a b source : Nat) (ra rb : rs_protocol_data_t) (data : List Nat)
    (sch : List (Nat × List Nat)) (hab : a ≠ b)
    (hva : valid_handle g a ra) (hvb : valid_handle g b rb)
    (hwa : has_buffer_in_data ra) (hwb : has_buffer_in_data rb)
    (hsch : ∀ p ∈ sch, p.1 = a ∨ p.1 = b) :
    (∃ ra1 k1 ev,
      rs_protocol_process_data A g k data data.length a source
        = some (0, update_instance g a ra1, k1, ev) ∧
      has_buffer_in_data ra1 ∧
      valid_handle (update_instance g a ra1) b rb ∧
      ∀ fn sb t s, event_t.callback fn sb t s ∈ ev → fn = ra.message_received_cb) ∧
    (history_free A →
      ∃ g1 k1 ev1 g2 k2 ev2 rb1,
        feed_schedule A source g k sch = some (g1, k1, ev1) ∧
        feed_schedule A source g k (calls_on b sch) = some (g2, k2, ev2) ∧
        events_of b ev1 = events_of b ev2 ∧
        valid_handle g1 b rb1 ∧ valid_handle g2 b rb1) := by
  constructor
  · obtain ⟨r1, k1, e1, hrun, hw1⟩ := process_bytes_total A source data ra k hwa
    refine ⟨r1, k1, e1, ?_, hw1, update_instance_other g a b r1 rb hab hvb,
      (process_bytes_callbacks A source data ra r1 k k1 e1 hrun).2⟩
    rw [process_data_valid A g k data a source ra hva, hrun]; rfl
  · intro hA
    exact feed_schedule_frame A hA source a b hab sch g g k k ra rb hva hwa hvb hvb hwb hsch

/-- Witness for C14: two instances, a frame for `b` cut in two with a frame for `a` fed in
between. -/
theorem C14_instances_do_not_interfere_witness :
    (∃ ra1 k1 ev,
      rs_protocol_process_data demo_allocator demo_statics_two 0
          [0xAA, 0x55, 0, 1, 0x10, 0x21, 0x51, 0x4f, 1]
          [0xAA, 0x55, 0, 1, 0x10, 0x21, 0x51, 0x4f, 1].length 0 99
        = some (0, update_instance demo_statics_two 0 ra1, k1, ev) ∧
      has_buffer_in_data ra1 ∧
      valid_handle (update_instance demo_statics_two 0 ra1) 1 demo_instance_b ∧
      ∀ fn sb t s, event_t.callback fn sb t s ∈ ev
        → fn = demo_instance.message_received_cb) ∧
    ∃ g1 k1 ev1 g2 k2 ev2 rb1,
      feed_schedule demo_allocator 99 demo_statics_two 0
          [(1, [0xAA, 0x55, 0]), (0, [0xAA, 0x55, 0, 1, 0x10, 0x21, 0x51, 0x4f, 1]),
           (1, [1, 0x10, 0x21, 0x51, 0x4f, 1])]
        = some (g1, k1, ev1) ∧
      feed_schedule demo_allocator 99 demo_statics_two 0
          (calls_on 1
            [(1, [0xAA, 0x55, 0]), (0, [0xAA, 0x55, 0, 1, 0x10, 0x21, 0x51, 0x4f, 1]),
             (1, [1, 0x10, 0x21, 0x51, 0x4f, 1])])
        = some (g2, k2, ev2) ∧
      events_of 1 ev1 = events_of 1 ev2 ∧
      valid_handle g1 1 rb1 ∧ valid_handle g2 1 rb1 :=
  And.imp_right (fun f => f (fun _ _ _ => ⟨rfl, rfl⟩))
    (C14_instances_do_not_interfere demo_allocator demo_statics_two 0 0 1 99 demo_instance
      demo_instance_b [0xAA, 0x55, 0, 1, 0x10, 0x21, 0x51, 0x4f, 1]
      [(1, [0xAA, 0x55, 0]), (0, [0xAA, 0x55, 0, 1, 0x10, 0x21, 0x51, 0x4f, 1]),
       (1, [1, 0x10, 0x21, 0x51, 0x4f, 1])]
      (by decide) (by decide) (by decide) (by decide) (by decide) (by decide))

/-- C14 (counterexample): two instances and an allocator with memory for one request.
Instance 0 is fed the 8 header bytes of a frame and so holds the one buffer; the frame for
`[1]` then fed to instance 1 ends in `RS_PACKET_ERROR_PACKET_LENGTH`. Without the call on
instance 0 the same frame fed to instance 1 is delivered with `RS_PACKET_VALID_DATA`. -/
theorem C14_counterexample_shared_allocator :
    (feed_schedule one_shot_allocator 99 demo_statics_two 0
        [(0, [0xAA, 0x55, 0, 1, 0x10, 0x21, 0x51, 0x4f]),
         (1, [0xAA, 0x55, 0, 1, 0x10, 0x21, 0x51, 0x4f, 1])]).map
        (fun r => handler_calls (events_of 1 r.2.2))
      = some [(none, RS_PACKET_PREAMBLE_RECEIVED), (none, RS_PACKET_ERROR_PACKET_LENGTH)] ∧
    (feed_schedule one_shot_allocator 99 demo_statics_two 0
        (calls_on 1
          [(0, [0xAA, 0x55, 0, 1, 0x10, 0x21, 0x51, 0x4f]),
           (1, [0xAA, 0x55, 0, 1, 0x10, 0x21, 0x51, 0x4f, 1])])).map
        (fun r => handler_calls (events_of 1 r.2.2))
      = some [(none, RS_PACKET_PREAMBLE_RECEIVED),
          (some { buf := [1], write_index := 1, len := 1, full := false,
                  p_gp := some [0xAA, 0x55, 0, 1, 0x10, 0x21, 0x51, 0x4f] },
           RS_PACKET_VALID_DATA)] := by
  constructor <;> decide

/-! ## C15: what `RS_PACKET_VALID_DATA` delivers -/

/-- C15 (at the failing input): the 8-byte frame built for the empty payload followed by
one more byte `0x07`, fed to the matching instance in its initial parse state with the
allocation succeeding. The handler receives `RS_PACKET_VALID_DATA` with the metadata
`H = AA 55 00 00 00 00 51 4F`, the header as received, whose length field `L` is 0; the
delivered buffer holds 1 byte, the `0x07` that followed the frame, not `L = 0` bytes. -/
theorem C15_empty_frame_delivers_extra_byte :
    (rs_protocol_process_data demo_allocator demo_statics 0
        [0xAA, 0x55, 0, 0, 0, 0, 0x51, 0x4f, 0x07] 9 0 99).map
        (fun r => valid_data r.2.2.2)
      = some [some { buf := [0x07], write_index := 1, len := 0, full := false,
                     p_gp := some [0xAA, 0x55, 0, 0, 0, 0, 0x51, 0x4f] }] ∧
    built_frame demo_statics 0 [] = [0xAA, 0x55, 0, 0, 0, 0, 0x51, 0x4f] := by
  constructor <;> decide

/-- One byte keeps `data_trail`, and a buffer delivered with `RS_PACKET_VALID_DATA` by
this byte satisfies `valid_data_sound`. -/
theorem data_trail_step (A : allocator_t) (source : Nat) (rsp r1 : rs_protocol_data_t)
    (k k1 c : Nat) (pre : List Nat) (ev : List event_t)
    (hlen : rsp.header_buf.length = 8) (htr : header_trail pre rsp)
    (hdt : data_trail rsp) (hpre : all_bytes pre)
    (hstep : process_byte A source rsp k c = some (r1, k1, ev)) :
    data_trail r1 ∧
    ∀ o ∈ valid_data ev, ∃ sb, o = some sb ∧
      valid_data_sound rsp.header_byte_1 rsp.header_byte_2 sb := by
  obtain ⟨cb, hb, sb, len, crc, st, p1, p2⟩ := rsp
  simp only at hlen
  obtain ⟨h0, h1, h2, h3, h4, h5, h6, h7, rfl⟩ := length_eight hb hlen
  cases st
  case RS_HEADER_CRC_BYTE_2 =>
    obtain ⟨pre0, a, b, x, y, c1, e1, e2, e3, e4⟩ := htr
    simp only [List.take_succ_cons, List.take_zero, List.cons.injEq, and_true] at e2 e3 e4
    obtain ⟨rfl, rfl, rfl, rfl, rfl, rfl⟩ := e2
    subst e1 e3 e4
    have hx : h4 < 256 := hpre h4 (by simp)
    simp only [process_byte, HEADER_CRC_CALC_SIZE] at hstep
    split at hstep
    · rename_i hm
      have hlt : c1 <<< 8 ||| c < 65536 := by
        rw [hm]; exact calculate_CRC16_lt _ _ _ (by decide)
      have h6eq : calculate_CRC16 (some [h0, h1, h2, h3, h4, h5,
          ((c1 <<< 8 ||| c) >>> 8) % 256, (c1 <<< 8 ||| c) % 256]) 6 0
          = calculate_CRC16 (some [h0, h1, h2, h3, h4, h5, h6, h7]) 6 0 := by
        simp [calculate_CRC16]
      have hjoin : ((((c1 <<< 8 ||| c) >>> 8) % 256) <<< 8) ||| ((c1 <<< 8 ||| c) % 256)
          = c1 <<< 8 ||| c := by
        rw [hi_byte_mod _ hlt, ← lo_byte_eq]
        exact be16_split_join_plain _ hlt
      cases hs : safebuffer_malloc A k (h2 <<< 8 ||| h3) with
      | none =>
        cases sb <;>
          simp only [hs, Option.some.injEq, Prod.mk.injEq] at hstep <;>
          obtain ⟨rfl, _, rfl⟩ := hstep <;>
          exact ⟨trivial, fun o ho => by simp [valid_data] at ho⟩
      | some new =>
        have hnew : new.write_index = 0 := by
          unfold safebuffer_malloc at hs
          split at hs
          · simp only [Option.some.injEq] at hs; rw [← hs]
          · cases hs
        cases sb <;>
          simp only [hs, Option.some.injEq, Prod.mk.injEq] at hstep <;>
          obtain ⟨rfl, _, rfl⟩ := hstep <;>
          refine ⟨⟨new, rfl, ?_, rfl, rfl, ?_, rfl, hx⟩,
            fun o ho => by simp [valid_data] at ho⟩ <;>
          first
            | (show (((c1 <<< 8 ||| c) >>> 8) % 256) <<< 8 ||| (c1 <<< 8 ||| c) % 256
                  = calculate_CRC16 (some [h0, h1, h2, h3, h4, h5,
                      ((c1 <<< 8 ||| c) >>> 8) % 256, (c1 <<< 8 ||| c) % 256]) 6 0
               rw [hjoin, h6eq]; exact hm)
            | (show new.write_index < _ ∨ _; rw [hnew]; omega)
    · simp only [Option.some.injEq, Prod.mk.injEq] at hstep
      obtain ⟨rfl, _, rfl⟩ := hstep
      exact ⟨trivial, fun o ho => by simp [valid_data] at ho⟩
  case RS_DATA =>
    obtain ⟨sb0, hsb, hwi, g0, g1, g67, glen, g4⟩ := hdt
    simp only at hsb hwi g0 g1 g67 glen g4
    subst hsb
    simp only [process_byte] at hstep
    split at hstep
    · rename_i hge
      rw [add_char_write_index] at hge
      split at hstep
      · rename_i hcrc
        simp only [Option.some.injEq, Prod.mk.injEq] at hstep
        obtain ⟨rfl, _, rfl⟩ := hstep
        refine ⟨trivial, ?_⟩
        intro o ho
        simp only [valid_data, List.mem_singleton] at ho
        subst ho
        refine ⟨_, rfl, [h0, h1, h2, h3, h4, h5, h6, h7], rfl, rfl, g0, g1, g67, ?_, ?_⟩
        · simp only [List.getD_cons_succ, List.getD_cons_zero] at glen g4 hcrc ⊢
          rw [← glen, ← hcrc, shl8_mod _ g4]
        · simp only [List.getD_cons_succ, List.getD_cons_zero] at glen ⊢
          rw [← glen, add_char_write_index]
          omega
      · simp only [Option.some.injEq, Prod.mk.injEq] at hstep
        obtain ⟨rfl, _, rfl⟩ := hstep
        exact ⟨trivial, fun o ho => by simp [valid_data] at ho⟩
    · rename_i hge
      rw [add_char_write_index] at hge
      simp only [Option.some.injEq, Prod.mk.injEq] at hstep
      obtain ⟨rfl, _, rfl⟩ := hstep
      refine ⟨⟨_, rfl, ?_, g0, g1, g67, glen, g4⟩, fun o ho => by simp [valid_data] at ho⟩
      simp only [add_char_write_index]
      omega
  case RS_HEADER_BYTE_1 =>
    simp only [process_byte] at hstep
    split at hstep <;>
      simp only [Option.some.injEq, Prod.mk.injEq] at hstep <;>
      obtain ⟨rfl, _, rfl⟩ := hstep <;>
      exact ⟨trivial, fun o ho => by simp [valid_data] at ho⟩
  case RS_HEADER_BYTE_2 =>
    simp only [process_byte] at hstep
    split at hstep
    · simp only [Option.some.injEq, Prod.mk.injEq] at hstep
      obtain ⟨rfl, _, rfl⟩ := hstep
      exact ⟨trivial, fun o ho => by simp [valid_data] at ho⟩
    · split at hstep <;>
        simp only [Option.some.injEq, Prod.mk.injEq] at hstep <;>
        obtain ⟨rfl, _, rfl⟩ := hstep <;>
        exact ⟨trivial, fun o ho => by simp [valid_data] at ho⟩
  all_goals
    simp only [process_byte, Option.some.injEq, Prod.mk.injEq] at hstep
    obtain ⟨rfl, _, rfl⟩ := hstep
    exact ⟨trivial, fun o ho => by simp [valid_data] at ho⟩

theorem valid_data_append (e1 e2 : List event_t) :
    valid_data (e1 ++ e2) = valid_data e1 ++ valid_data e2 := by
  induction e1 with
  | nil => rfl
  | cons e es ih =>
    cases e with
    | callback fn sb t s => cases t <;> simp [valid_data, ih]
    | malloc n ok => simp [valid_data, ih]
    | free => simp [valid_data, ih]

/-- Over a run of bytes from a state with `header_trail` and `data_trail`, every buffer
delivered with `RS_PACKET_VALID_DATA` satisfies `valid_data_sound`. -/
theorem valid_data_run (A : allocator_t) (source : Nat) (data : List Nat)
    (rsp r1 : rs_protocol_data_t) (k k1 : Nat) (pre : List Nat) (ev : List event_t)
    (hlen : rsp.header_buf.length = 8) (htr : header_trail pre rsp)
    (hdt : data_trail rsp) (hpre : all_bytes pre) (hbytes : all_bytes data)
    (hrun : process_bytes A source rsp k data = some (r1, k1, ev)) :
    ∀ o ∈ valid_data ev, ∃ sb, o = some sb ∧
      valid_data_sound rsp.header_byte_1 rsp.header_byte_2 sb := by
  induction data generalizing rsp k pre ev with
  | nil =>
    simp only [process_bytes, Option.some.injEq, Prod.mk.injEq] at hrun
    obtain ⟨_, _, rfl⟩ := hrun
    intro o ho
    simp [valid_data] at ho
  | cons c cs ih =>
    have hc : c < 256 := hbytes c (List.mem_cons_self c cs)
    obtain ⟨r2, k2, e1, s1, s2, s3, s4, s5⟩ :=
      header_trail_step A source rsp k c pre hlen htr hc
    obtain ⟨d1, d2⟩ := data_trail_step A source rsp r2 k k2 c pre e1 hlen htr hdt hpre s1
    simp only [process_bytes, s1] at hrun
    cases hrest : process_bytes A source r2 k2 cs with
    | none => simp [hrest] at hrun
    | some res =>
      obtain ⟨r3, k3, e2⟩ := res
      simp only [hrest, Option.some.injEq, Prod.mk.injEq] at hrun
      obtain ⟨rfl, rfl, rfl⟩ := hrun
      have hpre2 : all_bytes (pre ++ [c]) := by
        intro b hb
        rcases List.mem_append.mp hb with hb | hb
        · exact hpre b hb
        · rw [List.mem_singleton.mp hb]; exact hc
      have ih2 := ih r2 k2 (pre ++ [c]) e2 s2 s5 d1 hpre2
        (fun b hb => hbytes b (List.mem_cons_of_mem c hb)) hrest
      rw [s3, s4] at ih2
      intro o ho
      rw [valid_data_append] at ho
      rcases List.mem_append.mp ho with ho | ho
      · exact d2 o ho
      · exact ih2 o ho

/-- Every buffer that `rs_protocol_process_data` delivers with `RS_PACKET_VALID_DATA`,
for an instance in its initial parse state and any bytes, satisfies `valid_data_sound`:
the call returns, and the metadata of each delivered buffer are 8 bytes with the
preamble, a matching header CRC and the data CRC of its first `L` bytes; it holds `L`
bytes, or one byte when `L` is 0. -/
theorem delivered_buffers_sound (A : allocator_t) (g : rs_protocol_statics) (k : Nat)
    (data : List Nat) (h source : Nat) (rsp : rs_protocol_data_t)
    (hv : valid_handle g h rsp) (hinit : initial_parse_state rsp)
    (hbytes : all_bytes data) :
    ∃ g1 k1 ev, rs_protocol_process_data A g k data data.length h source
        = some (0, g1, k1, ev) ∧
      ∀ o ∈ valid_data ev, ∃ sb, o = some sb ∧
        valid_data_sound rsp.header_byte_1 rsp.header_byte_2 sb := by
  obtain ⟨hs, hsb, hlen⟩ := hinit
  have htr : header_trail [] rsp := by simp [header_trail, hs]
  have hdt : data_trail rsp := by simp [data_trail, hs]
  obtain ⟨r1, k1, ev, hrun, _⟩ :=
    header_trail_run A source data rsp k [] hlen htr hbytes
  obtain ⟨h1, h2, h3⟩ := hv
  refine ⟨{ g with rs_protocol_data := g.rs_protocol_data.set h (some r1) }, k1, ev, ?_,
    valid_data_run A source data rsp r1 k k1 [] ev hlen htr hdt
      (fun b hb => by simp at hb) hbytes hrun⟩
  simp only [rs_protocol_process_data, List.take_length, h3, hrun]
  rw [if_neg (by omega)]

end RsProtocol
